import Mathlib

/-!
# Terrain mesh (MP3/Terrain.js)

A shallow embedding of the `Terrain` class of `MP3/Terrain.js` and theorems about it.

JavaScript numbers that hold coordinates are read in exact arithmetic: they are elements of
a linearly ordered field `K` (`ℚ` when a definition is evaluated, `ℝ` when a square root is
needed).  Numbers that hold counts and indices are integers.  A JavaScript array is a list;
a missing element (`undefined`) is read as `0`.
-/

set_option linter.unusedSectionVars false

namespace TerrainMesh

/-! ## JavaScript arrays and loops -/

/-- Array read `a[k]`: the element at index `k`; an index outside the array reads `0`. -/
def arrayGet {α : Type} [Zero α] (a : List α) : Int → α
  | Int.ofNat m => a.getD m 0
  | Int.negSucc _ => 0

/-- Array write `a[k] = v`: inside the array the element is replaced, at or past the end the
array grows up to index `k` (the skipped elements read `0`); a negative `k` is not an element
and leaves the elements as they are. -/
def arraySet {α : Type} [Zero α] (a : List α) (k : Int) (v : α) : List α :=
  match k with
  | Int.ofNat m =>
    if m < a.length then a.set m v else a ++ List.replicate (m - a.length) 0 ++ [v]
  | Int.negSucc _ => a

/-- The call `a.push(v)`. -/
def push {α : Type} (a : List α) (v : α) : List α := a ++ [v]

/-- The loop `for (var i = 0; i < n; i++) body`, passing the state through.  The bound is
read once: no loop body of the source changes the member that bounds its loop. -/
def forLoop {σ : Type} (n : Nat) (body : Nat → σ → σ) (s : σ) : σ :=
  (List.range n).foldl (fun acc i => body i acc) s

/-! ## gl-matrix vectors -/

/-- A gl-matrix `vec3`. -/
structure Vec3 (K : Type) where
  x : K
  y : K
  z : K
deriving DecidableEq, Repr

namespace vec3

variable {K : Type} [LinearOrderedField K]

/-- The call `glMatrix.vec3.create()`: the zero vector. -/
def create : Vec3 K := ⟨0, 0, 0⟩

/-- The call `glMatrix.vec3.fromValues(x, y, z)`. -/
def fromValues (x y z : K) : Vec3 K := ⟨x, y, z⟩

/-- The call `glMatrix.vec3.sub(out, a, b)`. -/
def sub (a b : Vec3 K) : Vec3 K := ⟨a.x - b.x, a.y - b.y, a.z - b.z⟩

/-- The call `glMatrix.vec3.dot(a, b)`. -/
def dot (a b : Vec3 K) : K := a.x * b.x + a.y * b.y + a.z * b.z

/-- The call `glMatrix.vec3.cross(out, a, b)`. -/
def cross (a b : Vec3 K) : Vec3 K :=
  ⟨a.y * b.z - a.z * b.y, a.z * b.x - a.x * b.z, a.x * b.y - a.y * b.x⟩

/-- The call `glMatrix.vec3.normalize(out, a)`: `len = x*x + y*y + z*z`, replaced by
`1 / Math.sqrt(len)` when `len > 0`, and every component is multiplied by `len`.  The square
root is the parameter `sqrt`. -/
def normalize (sqrt : K → K) (a : Vec3 K) : Vec3 K :=
  let len := a.x * a.x + a.y * a.y + a.z * a.z
  let len := if len > 0 then 1 / sqrt len else len
  ⟨a.x * len, a.y * len, a.z * len⟩

/-- The call `glMatrix.vec3.squaredLength(a)`: the `len` that `normalize` starts from. -/
def squaredLength (a : Vec3 K) : K := a.x * a.x + a.y * a.y + a.z * a.z

/-- The divisor of the one division performed by `glMatrix.vec3.normalize(out, a)`:
`Math.sqrt(len)` when `len > 0`; when `len` is not positive no division is performed. -/
def normalizeDivisor (sqrt : K → K) (a : Vec3 K) : Option K :=
  let len := a.x * a.x + a.y * a.y + a.z * a.z
  if len > 0 then some (sqrt len) else none

end vec3

/-! ## The Terrain object -/

/-- The members of a `Terrain` object. -/
structure Terrain (K : Type) where
  div : Int
  minX : K
  minY : K
  maxX : K
  maxY : K
  positionData : List K
  normalData : List K
  faceData : List Int
  edgeData : List Int
  numVertices : Nat
  numFaces : Nat
deriving DecidableEq, Repr

/-- The error kinds named by the specification. -/
inductive TerrainError where
  | InvalidArgument
  | DegenerateRandomVector
deriving DecidableEq, Repr

/-- The random values drawn in one iteration of `shapeTerrain`: the two results of
`Math.random()` and the two components written by `glMatrix.vec2.random`. -/
structure FaultDraw (K : Type) where
  rx : K
  ry : K
  nx : K
  ny : K

namespace Terrain

variable {K : Type} [LinearOrderedField K]

/-- Method `setVertex(v, i)`. -/
def setVertex (t : Terrain K) (v : Vec3 K) (i : Int) : Terrain K :=
  let t := { t with positionData := arraySet t.positionData (i * 3) v.x }
  let t := { t with positionData := arraySet t.positionData (i * 3 + 1) v.y }
  { t with positionData := arraySet t.positionData (i * 3 + 2) v.z }

/-- Method `getVertex(v, i)`: the vector written into `v`. -/
def getVertex (t : Terrain K) (i : Int) : Vec3 K :=
  ⟨arrayGet t.positionData (i * 3), arrayGet t.positionData (i * 3 + 1),
    arrayGet t.positionData (i * 3 + 2)⟩

/-- Method `generateTriangles()`.  The two counts are the buffer lengths divided by 3; the
buffers hold whole triples whenever the method starts from buffers that do. -/
def generateTriangles (t : Terrain K) : Terrain K :=
  let deltaX := (t.maxX - t.minX) / (t.div : K)
  let deltaY := (t.maxY - t.minY) / (t.div : K)
  let t := forLoop (t.div + 1).toNat (fun i s =>
    forLoop (s.div + 1).toNat (fun j s =>
      let s := { s with positionData := push s.positionData (s.minX + deltaX * (j : K)) }
      let s := { s with positionData := push s.positionData (s.minY + deltaY * (i : K)) }
      let s := { s with positionData := push s.positionData 0 }
      let s := { s with normalData := push s.normalData 0 }
      let s := { s with normalData := push s.normalData 0 }
      { s with normalData := push s.normalData 0 }) s) t
  let t := forLoop t.div.toNat (fun i s =>
    forLoop s.div.toNat (fun j s =>
      let s := { s with faceData := push s.faceData ((i : Int) * (s.div + 1) + (j : Int)) }
      let s := { s with faceData := push s.faceData ((i : Int) * (s.div + 1) + (j : Int) + 1) }
      let s := { s with
        faceData := push s.faceData ((i : Int) * (s.div + 1) + (j : Int) + s.div + 1) }
      let s := { s with faceData := push s.faceData ((i : Int) * (s.div + 1) + (j : Int) + 1) }
      let s := { s with
        faceData := push s.faceData ((i : Int) * (s.div + 1) + (j : Int) + s.div + 2) }
      { s with
        faceData := push s.faceData ((i : Int) * (s.div + 1) + (j : Int) + s.div + 1) }) s) t
  let t := { t with numVertices := t.positionData.length / 3 }
  { t with numFaces := t.faceData.length / 3 }

/-- The body of the inner loop of `shapeTerrain()` for vertex `i`; the state is the object
together with the local variable `delta`. -/
def faultVertexStep (point randomNormal : Vec3 K) (h : Nat) (i : Nat) (sd : Terrain K × K) :
    Terrain K × K :=
  let s := sd.1
  let delta := sd.2
  let vertex := getVertex s (i : Int)
  let result := vec3.sub vertex point
  let vertex :=
    if vec3.dot result randomNormal ≥ 0 then { vertex with z := vertex.z + delta }
    else { vertex with z := vertex.z - delta }
  let delta := delta / (2 : K) ^ h
  (setVertex s vertex (i : Int), delta)

/-- One pass of the outer loop body of `shapeTerrain()`, for the fault point `point` and the
fault direction `randomNormal`. -/
def faultIteration (point randomNormal : Vec3 K) (t : Terrain K) : Terrain K :=
  let h : Nat := 0
  let delta : K := 0.010
  (forLoop t.numVertices (faultVertexStep point randomNormal h) (t, delta)).1

/-- Method `shapeTerrain()`; `draws it` holds the random values of iteration `it`.  The third
component of `point` and of `randomNormal` stays at the `0` of `vec3.create()`. -/
def shapeTerrain (draws : Nat → FaultDraw K) (t : Terrain K) : Terrain K :=
  forLoop 100 (fun it s =>
    let point : Vec3 K :=
      { (vec3.create : Vec3 K) with
        x := s.minX + (draws it).rx * (s.maxX - s.minX)
        y := s.minY + (draws it).ry * (s.maxY - s.minY) }
    let randomNormal : Vec3 K :=
      { (vec3.create : Vec3 K) with x := (draws it).nx, y := (draws it).ny }
    faultIteration point randomNormal s) t

/-- The body of the loop `for (var j = 0; j < 3; j++)` of `calculateNormals()`: half of
`normal` is added to the stored normal of vertex `vertexIndex[j]`. -/
def addFaceNormal (vertexIndex : List Int) (normal : Vec3 K) (j : Nat) (s : Terrain K) :
    Terrain K :=
  let k := arrayGet vertexIndex (j : Int)
  let s := { s with
    normalData := arraySet s.normalData (3 * k) (arrayGet s.normalData (3 * k) + normal.x / 2) }
  let s := { s with
    normalData :=
      arraySet s.normalData (3 * k + 1) (arrayGet s.normalData (3 * k + 1) + normal.y / 2) }
  { s with
    normalData :=
      arraySet s.normalData (3 * k + 2) (arrayGet s.normalData (3 * k + 2) + normal.z / 2) }

/-- The body of the first loop of `calculateNormals()` for face `i`. -/
def accumulateFace (i : Nat) (s : Terrain K) : Terrain K :=
  let vertexIndex : List Int := [0, 0, 0]
  let vertexIndex := arraySet vertexIndex 0 (arrayGet s.faceData ((i : Int) * 3))
  let vertexIndex := arraySet vertexIndex 1 (arrayGet s.faceData ((i : Int) * 3 + 1))
  let vertexIndex := arraySet vertexIndex 2 (arrayGet s.faceData ((i : Int) * 3 + 2))
  let v0 := getVertex s (arrayGet vertexIndex 0)
  let v1 := getVertex s (arrayGet vertexIndex 1)
  let v2 := getVertex s (arrayGet vertexIndex 2)
  let v1 := vec3.sub v1 v0
  let v2 := vec3.sub v2 v0
  let normal := vec3.cross v1 v2
  forLoop 3 (addFaceNormal vertexIndex normal) s

/-- The first loop of `calculateNormals()`: every face adds half of its cross product to the
normals of its three vertices. -/
def accumulateNormals (t : Terrain K) : Terrain K :=
  forLoop t.numFaces accumulateFace t

/-- The body of the second loop of `calculateNormals()` for vertex `v`. -/
def normalizeVertex (sqrt : K → K) (v : Nat) (s : Terrain K) : Terrain K :=
  let normal := vec3.fromValues (arrayGet s.normalData (3 * (v : Int)))
    (arrayGet s.normalData (3 * (v : Int) + 1)) (arrayGet s.normalData (3 * (v : Int) + 2))
  let normal := vec3.normalize sqrt normal
  let s := { s with normalData := arraySet s.normalData (3 * (v : Int)) normal.x }
  let s := { s with normalData := arraySet s.normalData (3 * (v : Int) + 1) normal.y }
  { s with normalData := arraySet s.normalData (3 * (v : Int) + 2) normal.z }

/-- The second loop of `calculateNormals()`: every stored normal is normalized. -/
def normalizeNormals (sqrt : K → K) (t : Terrain K) : Terrain K :=
  forLoop t.numVertices (normalizeVertex sqrt) t

/-- Method `calculateNormals()`. -/
def calculateNormals (sqrt : K → K) (t : Terrain K) : Terrain K :=
  normalizeNormals sqrt (accumulateNormals t)

/-- Method `generateLines()`.  The loop runs while `f < faceData.length / 3`, a division of
JavaScript numbers: that is while `3 * f < faceData.length`. -/
def generateLines (t : Terrain K) : Terrain K :=
  forLoop ((t.faceData.length + 2) / 3) (fun f s =>
    let fid : Int := (f : Int) * 3
    let s := { s with edgeData := push s.edgeData (arrayGet s.faceData fid) }
    let s := { s with edgeData := push s.edgeData (arrayGet s.faceData (fid + 1)) }
    let s := { s with edgeData := push s.edgeData (arrayGet s.faceData (fid + 1)) }
    let s := { s with edgeData := push s.edgeData (arrayGet s.faceData (fid + 2)) }
    let s := { s with edgeData := push s.edgeData (arrayGet s.faceData (fid + 2)) }
    { s with edgeData := push s.edgeData (arrayGet s.faceData fid) }) t

/-- Method `getMaxElevation()`: the value returned (the final `this.maxElevation`). -/
def getMaxElevation (t : Terrain K) : K :=
  forLoop t.numVertices (fun i maxElevation =>
    let vertex := getVertex t (i : Int)
    let elevation := vertex.z
    if elevation > maxElevation then elevation else maxElevation) (-9999)

/-- Method `getMinElevation()`: the value returned (the final `this.minElevation`). -/
def getMinElevation (t : Terrain K) : K :=
  forLoop t.numVertices (fun i minElevation =>
    let vertex := getVertex t (i : Int)
    let elevation := vertex.z
    if elevation < minElevation then elevation else minElevation) 9999

/-- The first part of the constructor: the members are stored and the four buffers are
allocated empty.  The two counts are not assigned yet; they are read as `0`. -/
def allocate (div : Int) (minX maxX minY maxY : K) : Terrain K :=
  { div := div, minX := minX, minY := minY, maxX := maxX, maxY := maxY,
    positionData := [], normalData := [], faceData := [], edgeData := [],
    numVertices := 0, numFaces := 0 }

/-- The constructor `new Terrain(div, minX, maxX, minY, maxY)`.  The source has no `throw`
and no check of its arguments: every call runs the four steps and completes. -/
def constructor (sqrt : K → K) (draws : Nat → FaultDraw K) (div : Int)
    (minX maxX minY maxY : K) : Except TerrainError (Terrain K) :=
  let t := allocate div minX maxX minY maxY
  let t := generateTriangles t
  let t := generateLines t
  let t := shapeTerrain draws t
  let t := calculateNormals sqrt t
  Except.ok t

/-! ## Closed forms of the generated buffers -/

/-- The coordinates pushed by the first loop nest of `generateTriangles` for a grid of
`n` rows and columns of vertices with steps `dX` and `dY`. -/
def gridPositions (minX minY dX dY : K) (n : Nat) : List K :=
  (List.range n).flatMap (fun i =>
    (List.range n).flatMap (fun j => [minX + dX * (j : K), minY + dY * (i : K), 0]))

/-- The zeros pushed to `normalData` by the first loop nest of `generateTriangles`. -/
def gridZeros (n : Nat) : List K :=
  (List.range n).flatMap (fun _ => (List.range n).flatMap (fun _ => [(0 : K), 0, 0]))

/-- The indices pushed by the second loop nest of `generateTriangles`. -/
def gridFaces (div : Int) : List Int :=
  (List.range div.toNat).flatMap (fun i =>
    (List.range div.toNat).flatMap (fun j =>
      [(i : Int) * (div + 1) + (j : Int), (i : Int) * (div + 1) + (j : Int) + 1,
        (i : Int) * (div + 1) + (j : Int) + div + 1, (i : Int) * (div + 1) + (j : Int) + 1,
        (i : Int) * (div + 1) + (j : Int) + div + 2,
        (i : Int) * (div + 1) + (j : Int) + div + 1]))

/-- The vertex written back by the loop body of `faultIteration` for the vertex `vertex` read
and the displacement `delta`. -/
def faultMove (point randomNormal : Vec3 K) (delta : K) (vertex : Vec3 K) : Vec3 K :=
  if vec3.dot (vec3.sub vertex point) randomNormal ≥ 0 then
    { vertex with z := vertex.z + delta }
  else { vertex with z := vertex.z - delta }

/-- The normal stored for vertex `v`: the entries `3v`, `3v+1`, `3v+2` of `normalData`. -/
def normalAt (t : Terrain K) (v : Int) : Vec3 K :=
  ⟨arrayGet t.normalData (3 * v), arrayGet t.normalData (3 * v + 1),
    arrayGet t.normalData (3 * v + 2)⟩

/-- The index stored at position `c` of face `i`. -/
def faceIndex (t : Terrain K) (i : Nat) (c : Int) : Int :=
  arrayGet t.faceData ((i : Int) * 3 + c)

/-- The cross product that `calculateNormals()` computes for face `i`. -/
def faceCross (t : Terrain K) (i : Nat) : Vec3 K :=
  vec3.cross
    (vec3.sub (getVertex t (faceIndex t i 1)) (getVertex t (faceIndex t i 0)))
    (vec3.sub (getVertex t (faceIndex t i 2)) (getVertex t (faceIndex t i 0)))

/-- The number of positions of face `i` that hold the vertex `v`. -/
def cornerCount (t : Terrain K) (i : Nat) (v : Int) : Nat :=
  (if v = faceIndex t i 0 then 1 else 0) + (if v = faceIndex t i 1 then 1 else 0) +
    (if v = faceIndex t i 2 then 1 else 0)

/-- The state is an `n × n` grid mesh with lattice origin `(minX, minY)` and steps `dX`, `dY`:
the counts and faces are those of `generateTriangles`, the stored normals are zero, the
vertex `row*(n+1)+col` has the lattice `x` and `y` (its `z` is free), and the two vertex
buffers hold `numVertices` triples. -/
structure IsGrid (n : Nat) (minX minY dX dY : K) (t : Terrain K) : Prop where
  numFaces_eq : t.numFaces = 2 * (n * n)
  numVertices_eq : t.numVertices = (n + 1) * (n + 1)
  faceData_eq : t.faceData = gridFaces (n : Int)
  normal_zero : ∀ v : Int, normalAt t v = ⟨0, 0, 0⟩
  vertex_x : ∀ row col : Nat, row ≤ n → col ≤ n →
    (getVertex t ((row : Int) * ((n : Int) + 1) + (col : Int))).x = minX + dX * (col : K)
  vertex_y : ∀ row col : Nat, row ≤ n → col ≤ n →
    (getVertex t ((row : Int) * ((n : Int) + 1) + (col : Int))).y = minY + dY * (row : K)
  positionData_length : t.positionData.length = 3 * t.numVertices
  normalData_length : t.normalData.length = 3 * t.numVertices

/-- The state is a mesh: the two vertex buffers hold `numVertices` triples, `faceData` holds
`numFaces` triples, and every face index is a vertex id. -/
structure WellFormed (t : Terrain K) : Prop where
  positionData_length : t.positionData.length = 3 * t.numVertices
  normalData_length : t.normalData.length = 3 * t.numVertices
  faceData_length : t.faceData.length = 3 * t.numFaces
  face_range : ∀ k ∈ t.faceData, 0 ≤ k ∧ k < (t.numVertices : Int)

/-- The sum, over every face `(i0, i1, i2)` and every position `k` in `0..2` with `ik = v`, of
one half of `cross(P[i1] - P[i0], P[i2] - P[i0])`, where `P[i]` is the position of vertex
`i`: the accumulated normal of vertex `v` as the specification words it. -/
def halfCrossSum (t : Terrain K) (v : Int) : Vec3 K :=
  ⟨∑ i in Finset.range t.numFaces, ∑ k in Finset.range 3,
      if faceIndex t i (k : Int) = v then (faceCross t i).x / 2 else 0,
    ∑ i in Finset.range t.numFaces, ∑ k in Finset.range 3,
      if faceIndex t i (k : Int) = v then (faceCross t i).y / 2 else 0,
    ∑ i in Finset.range t.numFaces, ∑ k in Finset.range 3,
      if faceIndex t i (k : Int) = v then (faceCross t i).z / 2 else 0⟩

/-! ## Example states -/

/-- The grid of one cell on the rectangle `(-1, 1, -1, 1)`, as generated. -/
def unitCell : Terrain ℚ :=
  generateTriangles (allocate 1 (-1 : ℚ) 1 (-1) 1)

/-- The grid of one cell on the rectangle that is the single point `(0, 0)`, as generated. -/
def pointCell : Terrain ℚ :=
  generateTriangles (allocate 1 (0 : ℚ) 0 0 0)

/-- The grid of two by two cells on the rectangle `(-1, 1, -1, 1)`, as generated. -/
def fourCells : Terrain ℚ :=
  generateTriangles (allocate 2 (-1 : ℚ) 1 (-1) 1)

/-- A mesh of one triangle with the vertices `(0,0,0)`, `(1,0,0)`, `(0,1,0)` and zero normals. -/
def oneTriangle : Terrain ℝ :=
  { div := 1, minX := 0, minY := 0, maxX := 1, maxY := 1,
    positionData := [0, 0, 0, 1, 0, 0, 0, 1, 0],
    normalData := [0, 0, 0, 0, 0, 0, 0, 0, 0],
    faceData := [0, 1, 2], edgeData := [], numVertices := 3, numFaces := 1 }

/-- A state holding the two faces of one grid cell and no edges yet. -/
def twoFaces : Terrain ℚ :=
  { allocate 1 (-1 : ℚ) 1 (-1) 1 with faceData := [0, 1, 2, 1, 3, 2] }

/-- A state with the single vertex `(0, 0, -10000)`. -/
def sunkenVertex : Terrain ℚ :=
  { allocate 1 (0 : ℚ) 1 0 1 with
    positionData := [0, 0, -10000], normalData := [0, 0, 1], numVertices := 1 }

end Terrain

/-! ## The animation state of MP1/MP1.js -/

namespace MP1

variable {K : Type} [LinearOrderedField K]

/-- The global variables of `MP1.js` that the two animation callbacks update. -/
structure Animation (K : Type) where
  rotAngle : K
  counterRotate : Bool
  scaleFactor : K
  turnLarger : Bool
  translate : K
  moveRight : Bool
  previousTime : K
deriving DecidableEq, Repr

/-- The globals as `MP1.js` initializes them. -/
def initial : Animation K :=
  { rotAngle := 0, counterRotate := false, scaleFactor := 0.1, turnLarger := false,
    translate := 0, moveRight := false, previousTime := 0 }

/-- The rotation update of `animateIllinois`: `rotAngle += speed * deltaTime`, then the wrap
to `0.0` above `360.0`. -/
def rotateIllinois (speed deltaTime : K) (s : Animation K) : Animation K :=
  let s := { s with rotAngle := s.rotAngle + speed * deltaTime }
  if s.rotAngle > 360.0 then { s with rotAngle := 0.0 } else s

/-- The scale update of `animateIllinois`: `scaleFactor` moves by `speed * deltaTime / 200`. -/
def scaleIllinois (speed deltaTime : K) (s : Animation K) : Animation K :=
  if s.turnLarger then { s with scaleFactor := s.scaleFactor + speed * deltaTime / 200 }
  else { s with scaleFactor := s.scaleFactor - speed * deltaTime / 200 }

/-- The two tests on `scaleFactor` that set `turnLarger`. -/
def turnIllinois (s : Animation K) : Animation K :=
  let s := if s.scaleFactor > 1 then { s with turnLarger := false } else s
  if s.scaleFactor < 0.1 then { s with turnLarger := true } else s

/-- The two tests on `translate` that set `moveRight` (the same in both callbacks). -/
def boundTranslate (s : Animation K) : Animation K :=
  let s := if s.translate > 1 then { s with moveRight := false } else s
  if s.translate < -1 then { s with moveRight := true } else s

/-- The translation update of `animateIllinois`: `translate` moves by
`speed * deltaTime / 50`. -/
def translateIllinois (speed deltaTime : K) (s : Animation K) : Animation K :=
  if s.moveRight then { s with translate := s.translate + speed * deltaTime / 50 }
  else { s with translate := s.translate - speed * deltaTime / 50 }

/-- The reset of the globals when the animation is switched. -/
def resetAnimation (s : Animation K) : Animation K :=
  { s with rotAngle := 0, scaleFactor := 0.1, translate := 0 }

/-- Function `animateIllinois(currentTime)`: the update of the globals in one frame, for the
slider value `speed` and the state `checked` of the radio button `I`.  The matrix and buffer
set-up and the drawing calls read the globals and are left out. -/
def animateIllinois (speed currentTime : K) (checked : Bool) (s : Animation K) : Animation K :=
  let currentTime := currentTime * 0.001
  let deltaTime := currentTime - s.previousTime
  let s := { s with previousTime := currentTime }
  let s := rotateIllinois speed deltaTime s
  let s := scaleIllinois speed deltaTime s
  let s := turnIllinois s
  let s := boundTranslate s
  let s := translateIllinois speed deltaTime s
  if checked then s else resetAnimation s

/-- The rotation update of `animateCustom`: `rotAngle` moves by `speed * deltaTime` in the
direction of `counterRotate`, then the two wraps. -/
def rotateCustom (speed deltaTime : K) (s : Animation K) : Animation K :=
  let s :=
    if s.counterRotate then { s with rotAngle := s.rotAngle + speed * deltaTime }
    else { s with rotAngle := s.rotAngle - speed * deltaTime }
  let s := if s.rotAngle > 360.0 then { s with rotAngle := 0.0 } else s
  if s.rotAngle < 0 then { s with rotAngle := 360 } else s

/-- The two tests on `rotAngle` that set `counterRotate`. -/
def turnCustom (s : Animation K) : Animation K :=
  let s := if s.rotAngle > 20 ∧ s.rotAngle < 90 then { s with counterRotate := false } else s
  if s.rotAngle < 330 ∧ s.rotAngle > 90 then { s with counterRotate := true } else s

/-- The translation update of `animateCustom`: `translate` moves by
`speed * deltaTime / 120`. -/
def translateCustom (speed deltaTime : K) (s : Animation K) : Animation K :=
  if s.moveRight then { s with translate := s.translate + speed * deltaTime / 120 }
  else { s with translate := s.translate - speed * deltaTime / 120 }

/-- Function `animateCustom(currentTime)`: the update of the globals in one frame, for the
slider value `speed` and the state `checked` of the radio button `I` (checked switches back to
`animateIllinois` and resets the globals). -/
def animateCustom (speed currentTime : K) (checked : Bool) (s : Animation K) : Animation K :=
  let currentTime := currentTime * 0.001
  let deltaTime := currentTime - s.previousTime
  let s := { s with previousTime := currentTime }
  let s := rotateCustom speed deltaTime s
  let s := turnCustom s
  let s := boundTranslate s
  let s := translateCustom speed deltaTime s
  if checked then resetAnimation s else s

end MP1

/-! ## Loops -/

theorem forLoop_zero {σ : Type} (body : Nat → σ → σ) (s : σ) : forLoop 0 body s = s := rfl

theorem forLoop_succ {σ : Type} (n : Nat) (body : Nat → σ → σ) (s : σ) :
    forLoop (n + 1) body s = body n (forLoop n body s) := by
  simp [forLoop, List.range_succ, List.foldl_append]

theorem length_flatMap_const {α β : Type} (l : List α) (f : α → List β) (m : Nat)
    (h : ∀ a ∈ l, (f a).length = m) : (l.flatMap f).length = m * l.length := by
  induction l with
  | nil => simp
  | cons a l ih =>
    have h1 : (f a).length = m := h a (List.mem_cons_self a l)
    have h2 : (l.flatMap f).length = m * l.length :=
      ih (fun b hb => h b (List.mem_cons_of_mem a hb))
    simp [List.flatMap_cons, h1, h2, Nat.mul_succ, Nat.add_comm]

theorem getD_flatMap_range {β : Type} (f : Nat → List β) (m : Nat)
    (h : ∀ i, (f i).length = m) (d : β) (n q r : Nat) (hq : q < n) (hr : r < m) :
    ((List.range n).flatMap f).getD (m * q + r) d = (f q).getD r d := by
  induction n with
  | zero => omega
  | succ n ih =>
    have hlen : ((List.range n).flatMap f).length = m * n := by
      rw [length_flatMap_const _ f m (fun a _ => h a), List.length_range]
    rw [List.range_succ, List.flatMap_append]
    by_cases hqn : q < n
    · have hlt : m * q + r < ((List.range n).flatMap f).length := by
        rw [hlen]
        calc m * q + r < m * q + m := by omega
          _ = m * (q + 1) := by ring
          _ ≤ m * n := Nat.mul_le_mul_left m hqn
      rw [List.getD_append _ _ _ _ hlt]
      exact ih hqn
    · have hqe : q = n := by omega
      subst hqe
      have hge : ((List.range q).flatMap f).length ≤ m * q + r := by rw [hlen]; omega
      rw [List.getD_append_right _ _ _ _ hge, hlen]
      simp

theorem arrayGet_natCast {α : Type} [Zero α] (a : List α) (m : Nat) :
    arrayGet a (m : Int) = a.getD m 0 := rfl

theorem arrayGet_of_eq {α : Type} [Zero α] (a : List α) (k : Int) (m : Nat) (h : k = (m : Int)) :
    arrayGet a k = a.getD m 0 := by
  subst h
  rfl

theorem arrayGet_of_lt {α : Type} [Zero α] (a : List α) (k : Int) (m : Nat) (h : k = (m : Int))
    (hm : m < a.length) : some (arrayGet a k) = a[m]? := by
  rw [arrayGet_of_eq a k m h, List.getD_eq_getElem?_getD, List.getElem?_eq_getElem hm]
  rfl

theorem arrayGet_arraySet {α : Type} [Zero α] (a : List α) (k k' : Int) (v : α) (hk : 0 ≤ k) :
    arrayGet (arraySet a k v) k' = if k' = k then v else arrayGet a k' := by
  obtain ⟨m, rfl⟩ := Int.eq_ofNat_of_zero_le hk
  cases k' with
  | negSucc m' =>
    have hne : Int.negSucc m' ≠ (m : Int) := by
      intro h
      have := Int.negSucc_lt_zero m'
      omega
    simp only [hne, if_false]
    rfl
  | ofNat m' =>
    show (arraySet a (Int.ofNat m) v).getD m' 0 = if Int.ofNat m' = Int.ofNat m then v else a.getD m' 0
    have hiff : (Int.ofNat m' = Int.ofNat m) ↔ m' = m := by
      constructor
      · intro h; exact Int.ofNat.inj h
      · intro h; rw [h]
    simp only [hiff, arraySet]
    by_cases hlt : m < a.length
    · simp only [hlt, if_true, List.getD_eq_getElem?_getD, List.getElem?_set]
      by_cases hmm : m' = m
      · subst hmm; simp [hlt]
      · have : ¬ m = m' := fun h => hmm h.symm
        simp [hmm, this]
    · simp only [hlt, if_false, List.getD_eq_getElem?_getD]
      by_cases hmm : m' = m
      · subst hmm
        rw [List.getElem?_append_right (by simp; omega)]
        simp
        have : m' - (a.length + (m' - a.length)) = 0 := by omega
        simp [this]
      · simp only [hmm, if_false]
        by_cases h1 : m' < a.length
        · rw [List.append_assoc, List.getElem?_append_left h1]
        · rw [List.append_assoc, List.getElem?_append_right (by omega)]
          have h2 : a[m']? = none := List.getElem?_eq_none (by omega)
          rw [h2]
          by_cases h3 : m' - a.length < m - a.length
          · rw [List.getElem?_append_left (by simpa using h3)]
            simp [h3]
          · rw [List.getElem?_append_right (by simpa using h3)]
            rw [List.getElem?_eq_none (by simp; omega)]

theorem length_arraySet {α : Type} [Zero α] (a : List α) (k : Int) (v : α) (m : Nat)
    (h : k = (m : Int)) (hlt : m < a.length) : (arraySet a k v).length = a.length := by
  subst h
  show (if m < a.length then a.set m v else a ++ List.replicate (m - a.length) 0 ++ [v]).length
    = a.length
  simp [hlt]

theorem arrayGet_triple {α : Type} [Zero α] (nd : List α) (k v : Int) (hk : 0 ≤ k) (a b c : α)
    (r : Int) (hr : r = 0 ∨ r = 1 ∨ r = 2) :
    arrayGet (arraySet (arraySet (arraySet nd (3 * k) a) (3 * k + 1) b) (3 * k + 2) c)
      (3 * v + r) =
    if v = k then (if r = 0 then a else if r = 1 then b else c) else arrayGet nd (3 * v + r) := by
  rw [arrayGet_arraySet _ _ _ _ (by omega), arrayGet_arraySet _ _ _ _ (by omega),
    arrayGet_arraySet _ _ _ _ (by omega)]
  by_cases hvk : v = k
  · subst hvk
    rcases hr with h | h | h <;> subst h <;> simp
  · have e1 : ¬ (3 * v + r = 3 * k + 2) := by omega
    have e2 : ¬ (3 * v + r = 3 * k + 1) := by omega
    have e3 : ¬ (3 * v + r = 3 * k) := by omega
    simp [hvk, e1, e2, e3]

theorem length_arraySet_int {α : Type} [Zero α] (a : List α) (k : Int) (v : α) (h0 : 0 ≤ k)
    (hlt : k < (a.length : Int)) : (arraySet a k v).length = a.length := by
  obtain ⟨m, rfl⟩ := Int.eq_ofNat_of_zero_le h0
  exact length_arraySet a (m : Int) v m rfl (by omega)

theorem length_arraySet_triple {α : Type} [Zero α] (nd : List α) (k : Int) (a b c : α)
    (h0 : 0 ≤ k) (hlt : 3 * k + 2 < (nd.length : Int)) :
    (arraySet (arraySet (arraySet nd (3 * k) a) (3 * k + 1) b) (3 * k + 2) c).length
      = nd.length := by
  have l1 : (arraySet nd (3 * k) a).length = nd.length :=
    length_arraySet_int _ _ _ (by omega) (by omega)
  have l2 : (arraySet (arraySet nd (3 * k) a) (3 * k + 1) b).length = nd.length := by
    rw [length_arraySet_int _ _ _ (by omega) (by rw [l1]; omega), l1]
  rw [length_arraySet_int _ _ _ (by omega) (by rw [l2]; omega), l2]

namespace Terrain

variable {K : Type} [LinearOrderedField K]

theorem vertexRow_loop (dX dY : K) (i m : Nat) (s : Terrain K) :
    forLoop m (fun j s =>
      let s := { s with positionData := push s.positionData (s.minX + dX * (j : K)) }
      let s := { s with positionData := push s.positionData (s.minY + dY * (i : K)) }
      let s := { s with positionData := push s.positionData 0 }
      let s := { s with normalData := push s.normalData 0 }
      let s := { s with normalData := push s.normalData 0 }
      { s with normalData := push s.normalData 0 }) s =
    { s with
      positionData := s.positionData ++
        (List.range m).flatMap (fun j => [s.minX + dX * (j : K), s.minY + dY * (i : K), 0])
      normalData := s.normalData ++ (List.range m).flatMap (fun _ => [(0 : K), 0, 0]) } := by
  induction m with
  | zero => simp [forLoop_zero]
  | succ m ih =>
    rw [forLoop_succ, ih]
    simp [push, List.range_succ, List.flatMap_append]

theorem vertexGrid_loop (dX dY : K) (n m : Nat) (s : Terrain K)
    (hn : (s.div + 1).toNat = n) :
    forLoop m (fun i s =>
      forLoop (s.div + 1).toNat (fun j s =>
        let s := { s with positionData := push s.positionData (s.minX + dX * (j : K)) }
        let s := { s with positionData := push s.positionData (s.minY + dY * (i : K)) }
        let s := { s with positionData := push s.positionData 0 }
        let s := { s with normalData := push s.normalData 0 }
        let s := { s with normalData := push s.normalData 0 }
        { s with normalData := push s.normalData 0 }) s) s =
    { s with
      positionData := s.positionData ++ (List.range m).flatMap (fun i =>
        (List.range n).flatMap (fun j => [s.minX + dX * (j : K), s.minY + dY * (i : K), 0]))
      normalData := s.normalData ++ (List.range m).flatMap (fun _ =>
        (List.range n).flatMap (fun _ => [(0 : K), 0, 0])) } := by
  induction m with
  | zero => simp [forLoop_zero]
  | succ m ih =>
    rw [forLoop_succ, ih, vertexRow_loop]
    simp [hn, List.range_succ, List.flatMap_append]

theorem faceRow_loop (i m : Nat) (s : Terrain K) :
    forLoop m (fun j s =>
      let s := { s with faceData := push s.faceData ((i : Int) * (s.div + 1) + (j : Int)) }
      let s := { s with faceData := push s.faceData ((i : Int) * (s.div + 1) + (j : Int) + 1) }
      let s := { s with
        faceData := push s.faceData ((i : Int) * (s.div + 1) + (j : Int) + s.div + 1) }
      let s := { s with faceData := push s.faceData ((i : Int) * (s.div + 1) + (j : Int) + 1) }
      let s := { s with
        faceData := push s.faceData ((i : Int) * (s.div + 1) + (j : Int) + s.div + 2) }
      { s with
        faceData := push s.faceData ((i : Int) * (s.div + 1) + (j : Int) + s.div + 1) }) s =
    { s with
      faceData := s.faceData ++ (List.range m).flatMap (fun j =>
        [(i : Int) * (s.div + 1) + (j : Int), (i : Int) * (s.div + 1) + (j : Int) + 1,
          (i : Int) * (s.div + 1) + (j : Int) + s.div + 1,
          (i : Int) * (s.div + 1) + (j : Int) + 1,
          (i : Int) * (s.div + 1) + (j : Int) + s.div + 2,
          (i : Int) * (s.div + 1) + (j : Int) + s.div + 1]) } := by
  induction m with
  | zero => simp [forLoop_zero]
  | succ m ih =>
    rw [forLoop_succ, ih]
    simp [push, List.range_succ, List.flatMap_append]

theorem faceGrid_loop (m : Nat) (s : Terrain K) :
    forLoop m (fun i s =>
      forLoop s.div.toNat (fun j s =>
        let s := { s with faceData := push s.faceData ((i : Int) * (s.div + 1) + (j : Int)) }
        let s := { s with
          faceData := push s.faceData ((i : Int) * (s.div + 1) + (j : Int) + 1) }
        let s := { s with
          faceData := push s.faceData ((i : Int) * (s.div + 1) + (j : Int) + s.div + 1) }
        let s := { s with
          faceData := push s.faceData ((i : Int) * (s.div + 1) + (j : Int) + 1) }
        let s := { s with
          faceData := push s.faceData ((i : Int) * (s.div + 1) + (j : Int) + s.div + 2) }
        { s with
          faceData := push s.faceData ((i : Int) * (s.div + 1) + (j : Int) + s.div + 1) }) s) s =
    { s with
      faceData := s.faceData ++ (List.range m).flatMap (fun i =>
        (List.range s.div.toNat).flatMap (fun j =>
          [(i : Int) * (s.div + 1) + (j : Int), (i : Int) * (s.div + 1) + (j : Int) + 1,
            (i : Int) * (s.div + 1) + (j : Int) + s.div + 1,
            (i : Int) * (s.div + 1) + (j : Int) + 1,
            (i : Int) * (s.div + 1) + (j : Int) + s.div + 2,
            (i : Int) * (s.div + 1) + (j : Int) + s.div + 1])) } := by
  induction m with
  | zero => simp [forLoop_zero]
  | succ m ih =>
    rw [forLoop_succ, ih, faceRow_loop]
    simp [List.range_succ, List.flatMap_append]

/-- Closed form of `generateTriangles`: the three buffers are extended by the grid. -/
theorem generateTriangles_eq (t : Terrain K) :
    generateTriangles t =
    { t with
      positionData := t.positionData ++
        gridPositions t.minX t.minY ((t.maxX - t.minX) / (t.div : K))
          ((t.maxY - t.minY) / (t.div : K)) (t.div + 1).toNat
      normalData := t.normalData ++ gridZeros (t.div + 1).toNat
      faceData := t.faceData ++ gridFaces t.div
      numVertices := (t.positionData ++
        gridPositions t.minX t.minY ((t.maxX - t.minX) / (t.div : K))
          ((t.maxY - t.minY) / (t.div : K)) (t.div + 1).toNat).length / 3
      numFaces := (t.faceData ++ gridFaces t.div).length / 3 } := by
  unfold generateTriangles
  simp only []
  rw [vertexGrid_loop _ _ (t.div + 1).toNat _ _ rfl, faceGrid_loop]
  rfl

theorem length_gridPositions (minX minY dX dY : K) (n : Nat) :
    (gridPositions minX minY dX dY n).length = 3 * (n * n) := by
  unfold gridPositions
  rw [length_flatMap_const _ _ (3 * n), List.length_range, Nat.mul_assoc]
  intro i _
  rw [length_flatMap_const _ _ 3, List.length_range]
  intro j _
  rfl

theorem length_gridZeros (n : Nat) : (gridZeros n : List K).length = 3 * (n * n) := by
  unfold gridZeros
  rw [length_flatMap_const _ _ (3 * n), List.length_range, Nat.mul_assoc]
  intro i _
  rw [length_flatMap_const _ _ 3, List.length_range]
  intro j _
  rfl

theorem length_gridFaces (div : Int) :
    (gridFaces div).length = 6 * (div.toNat * div.toNat) := by
  unfold gridFaces
  rw [length_flatMap_const _ _ (6 * div.toNat), List.length_range, Nat.mul_assoc]
  intro i _
  rw [length_flatMap_const _ _ 6, List.length_range]
  intro j _
  rfl

/-- The buffers and counts of a grid generated on freshly allocated buffers. -/
theorem generateTriangles_allocate (div : Int) (minX maxX minY maxY : K) :
    generateTriangles (allocate div minX maxX minY maxY) =
    { allocate div minX maxX minY maxY with
      positionData := gridPositions minX minY ((maxX - minX) / (div : K))
        ((maxY - minY) / (div : K)) (div + 1).toNat
      normalData := gridZeros (div + 1).toNat
      faceData := gridFaces div
      numVertices := (div + 1).toNat * (div + 1).toNat
      numFaces := 2 * (div.toNat * div.toNat) } := by
  rw [generateTriangles_eq]
  simp only [allocate, List.nil_append, length_gridPositions, length_gridFaces]
  have h1 : 3 * ((div + 1).toNat * (div + 1).toNat) / 3 = (div + 1).toNat * (div + 1).toNat := by
    omega
  have h2 : 6 * (div.toNat * div.toNat) / 3 = 2 * (div.toNat * div.toNat) := by omega
  rw [h1, h2]

/-! ## Grid generation: counts and index range -/

/-- Claim C1: for every integer `div ≥ 1` and every rectangle, `generateTriangles` on a
freshly allocated Terrain leaves `numVertices = (div+1)^2` and `numFaces = 2*div^2`, with
`positionData` and `normalData` of length `3*(div+1)^2` and `faceData` of length `6*div^2`. -/
theorem generateTriangles_counts (div : Int) (hdiv : 1 ≤ div) (minX maxX minY maxY : K) :
    ((generateTriangles (allocate div minX maxX minY maxY)).numVertices : Int) = (div + 1) ^ 2 ∧
    ((generateTriangles (allocate div minX maxX minY maxY)).numFaces : Int) = 2 * div ^ 2 ∧
    ((generateTriangles (allocate div minX maxX minY maxY)).positionData.length : Int)
      = 3 * (div + 1) ^ 2 ∧
    ((generateTriangles (allocate div minX maxX minY maxY)).normalData.length : Int)
      = 3 * (div + 1) ^ 2 ∧
    ((generateTriangles (allocate div minX maxX minY maxY)).faceData.length : Int)
      = 6 * div ^ 2 := by
  obtain ⟨n, rfl⟩ := Int.eq_ofNat_of_zero_le (by omega : (0 : Int) ≤ div)
  have h1 : ((n : Int) + 1).toNat = n + 1 := by omega
  rw [generateTriangles_allocate]
  simp only [length_gridPositions, length_gridZeros, length_gridFaces, h1, Int.toNat_ofNat]
  push_cast
  refine ⟨?_, ?_, ?_, ?_, ?_⟩ <;> ring

theorem generateTriangles_counts_witness :
    (1 : Int) ≤ 2 ∧
    ((generateTriangles (allocate 2 (-1 : ℚ) 1 (-1) 1)).numVertices : Int) = (2 + 1) ^ 2 ∧
    ((generateTriangles (allocate 2 (-1 : ℚ) 1 (-1) 1)).numFaces : Int) = 2 * 2 ^ 2 ∧
    ((generateTriangles (allocate 2 (-1 : ℚ) 1 (-1) 1)).positionData.length : Int)
      = 3 * (2 + 1) ^ 2 ∧
    ((generateTriangles (allocate 2 (-1 : ℚ) 1 (-1) 1)).normalData.length : Int)
      = 3 * (2 + 1) ^ 2 ∧
    ((generateTriangles (allocate 2 (-1 : ℚ) 1 (-1) 1)).faceData.length : Int) = 6 * 2 ^ 2 :=
  ⟨by decide, generateTriangles_counts 2 (by decide) (-1) 1 (-1) 1⟩

/-- Claim C2: for every integer `div ≥ 1`, every entry `k` of the `faceData` produced by
`generateTriangles` satisfies `0 ≤ k < numVertices`, where `numVertices = (div+1)^2`. -/
theorem generateTriangles_face_index_range (div : Int) (hdiv : 1 ≤ div)
    (minX maxX minY maxY : K) (k : Int)
    (hk : k ∈ (generateTriangles (allocate div minX maxX minY maxY)).faceData) :
    0 ≤ k ∧
    k < ((generateTriangles (allocate div minX maxX minY maxY)).numVertices : Int) ∧
    ((generateTriangles (allocate div minX maxX minY maxY)).numVertices : Int)
      = (div + 1) ^ 2 := by
  obtain ⟨n, rfl⟩ := Int.eq_ofNat_of_zero_le (by omega : (0 : Int) ≤ div)
  have h1 : ((n : Int) + 1).toNat = n + 1 := by omega
  rw [generateTriangles_allocate] at hk ⊢
  simp only [gridFaces, Int.toNat_ofNat, List.mem_flatMap, List.mem_range] at hk
  obtain ⟨i, hi, j, hj, hmem⟩ := hk
  simp only [h1]
  push_cast
  have hi1 : (i : Int) + 1 ≤ n := by omega
  have hj1 : (j : Int) + 1 ≤ n := by omega
  have hi0 : (0 : Int) ≤ i := Int.natCast_nonneg i
  have hj0 : (0 : Int) ≤ j := Int.natCast_nonneg j
  have hmul : (i : Int) * ((n : Int) + 1) ≤ ((n : Int) - 1) * ((n : Int) + 1) :=
    mul_le_mul_of_nonneg_right (by omega) (by omega)
  have hmul0 : (0 : Int) ≤ (i : Int) * ((n : Int) + 1) := mul_nonneg hi0 (by omega)
  have hsq : ((n : Int) + 1) * ((n : Int) + 1) = ((n : Int) - 1) * ((n : Int) + 1) + 2 * n + 2 := by
    ring
  simp only [List.mem_cons, List.mem_singleton, List.not_mem_nil, or_false] at hmem
  refine ⟨?_, ?_, by ring⟩
  · rcases hmem with h | h | h | h | h | h <;> rw [h] <;> omega
  · rcases hmem with h | h | h | h | h | h <;> rw [h] <;> omega

theorem generateTriangles_face_index_range_witness :
    (1 : Int) ≤ 1 ∧
    (3 : Int) ∈ unitCell.faceData ∧
    (0 ≤ (3 : Int) ∧
      (3 : Int) < (unitCell.numVertices : Int) ∧
      (unitCell.numVertices : Int) = (1 + 1) ^ 2) :=
  ⟨by decide, by decide,
    generateTriangles_face_index_range 1 (by decide) (-1) 1 (-1) 1 3 (by decide)⟩

/-! ## Wireframe edges -/

/-- The six indices pushed by `generateLines` for face `f`. -/
theorem generateLines_loop (m : Nat) (s : Terrain K) :
    forLoop m (fun f s =>
      let fid : Int := (f : Int) * 3
      let s := { s with edgeData := push s.edgeData (arrayGet s.faceData fid) }
      let s := { s with edgeData := push s.edgeData (arrayGet s.faceData (fid + 1)) }
      let s := { s with edgeData := push s.edgeData (arrayGet s.faceData (fid + 1)) }
      let s := { s with edgeData := push s.edgeData (arrayGet s.faceData (fid + 2)) }
      let s := { s with edgeData := push s.edgeData (arrayGet s.faceData (fid + 2)) }
      { s with edgeData := push s.edgeData (arrayGet s.faceData fid) }) s =
    { s with
      edgeData := s.edgeData ++ (List.range m).flatMap (fun f =>
        [arrayGet s.faceData ((f : Int) * 3), arrayGet s.faceData ((f : Int) * 3 + 1),
          arrayGet s.faceData ((f : Int) * 3 + 1), arrayGet s.faceData ((f : Int) * 3 + 2),
          arrayGet s.faceData ((f : Int) * 3 + 2), arrayGet s.faceData ((f : Int) * 3)]) } := by
  induction m with
  | zero => simp [forLoop_zero]
  | succ m ih =>
    rw [forLoop_succ, ih]
    simp [push, List.range_succ, List.flatMap_append]

/-- Closed form of `generateLines`. -/
theorem generateLines_eq (t : Terrain K) :
    generateLines t =
    { t with
      edgeData := t.edgeData ++ (List.range ((t.faceData.length + 2) / 3)).flatMap (fun f =>
        [arrayGet t.faceData ((f : Int) * 3), arrayGet t.faceData ((f : Int) * 3 + 1),
          arrayGet t.faceData ((f : Int) * 3 + 1), arrayGet t.faceData ((f : Int) * 3 + 2),
          arrayGet t.faceData ((f : Int) * 3 + 2), arrayGet t.faceData ((f : Int) * 3)]) } := by
  unfold generateLines
  rw [generateLines_loop]

/-- Claim C4: for every face list (a `faceData` of `numFaces` index triples) and an empty
`edgeData`, `generateLines` produces an `edgeData` of length `6*numFaces` whose entries
`6f .. 6f+5` are `a, b, b, c, c, a` for the indices `(a, b, c)` of face `f`; every face
contributes its own six entries, so shared edges appear again. -/
theorem generateLines_edges (t : Terrain K) (numFaces : Nat)
    (hfaces : t.faceData.length = 3 * numFaces) (hempty : t.edgeData = []) :
    (generateLines t).edgeData.length = 6 * numFaces ∧
    ∀ f, f < numFaces →
      (generateLines t).edgeData[6 * f]? = t.faceData[3 * f]? ∧
      (generateLines t).edgeData[6 * f + 1]? = t.faceData[3 * f + 1]? ∧
      (generateLines t).edgeData[6 * f + 2]? = t.faceData[3 * f + 1]? ∧
      (generateLines t).edgeData[6 * f + 3]? = t.faceData[3 * f + 2]? ∧
      (generateLines t).edgeData[6 * f + 4]? = t.faceData[3 * f + 2]? ∧
      (generateLines t).edgeData[6 * f + 5]? = t.faceData[3 * f]? := by
  have hm : (t.faceData.length + 2) / 3 = numFaces := by omega
  have hlen : (generateLines t).edgeData.length = 6 * numFaces := by
    rw [generateLines_eq]
    simp only [hempty, List.nil_append, hm]
    rw [length_flatMap_const _ _ 6, List.length_range]
    intro f _
    rfl
  refine ⟨hlen, ?_⟩
  intro f hf
  have key : ∀ r, r < 6 → (generateLines t).edgeData[6 * f + r]? =
      some (([arrayGet t.faceData ((f : Int) * 3), arrayGet t.faceData ((f : Int) * 3 + 1),
          arrayGet t.faceData ((f : Int) * 3 + 1), arrayGet t.faceData ((f : Int) * 3 + 2),
          arrayGet t.faceData ((f : Int) * 3 + 2),
          arrayGet t.faceData ((f : Int) * 3)] : List Int).getD r 0) := by
    intro r hr
    have hlt : 6 * f + r < (generateLines t).edgeData.length := by omega
    rw [List.getElem?_eq_getElem hlt, ← List.getD_eq_getElem _ 0 hlt]
    congr 1
    rw [generateLines_eq]
    simp only [hempty, List.nil_append, hm]
    apply getD_flatMap_range _ 6 _ 0 numFaces f r hf hr
    intro i
    rfl
  have e0 := arrayGet_of_lt t.faceData ((f : Int) * 3) (3 * f) (by push_cast; ring) (by omega)
  have e1 := arrayGet_of_lt t.faceData ((f : Int) * 3 + 1) (3 * f + 1) (by push_cast; ring)
    (by omega)
  have e2 := arrayGet_of_lt t.faceData ((f : Int) * 3 + 2) (3 * f + 2) (by push_cast; ring)
    (by omega)
  refine ⟨?_, ?_, ?_, ?_, ?_, ?_⟩
  · rw [← e0]; exact key 0 (by omega)
  · rw [← e1]; exact key 1 (by omega)
  · rw [← e1]; exact key 2 (by omega)
  · rw [← e2]; exact key 3 (by omega)
  · rw [← e2]; exact key 4 (by omega)
  · rw [← e0]; exact key 5 (by omega)

theorem generateLines_edges_witness :
    twoFaces.faceData.length = 3 * 2 ∧
    twoFaces.edgeData = [] ∧
    ((generateLines twoFaces).edgeData.length = 6 * 2 ∧
    ∀ f, f < 2 →
      (generateLines twoFaces).edgeData[6 * f]? = twoFaces.faceData[3 * f]? ∧
      (generateLines twoFaces).edgeData[6 * f + 1]? = twoFaces.faceData[3 * f + 1]? ∧
      (generateLines twoFaces).edgeData[6 * f + 2]? = twoFaces.faceData[3 * f + 1]? ∧
      (generateLines twoFaces).edgeData[6 * f + 3]? = twoFaces.faceData[3 * f + 2]? ∧
      (generateLines twoFaces).edgeData[6 * f + 4]? = twoFaces.faceData[3 * f + 2]? ∧
      (generateLines twoFaces).edgeData[6 * f + 5]? = twoFaces.faceData[3 * f]?) :=
  ⟨rfl, rfl, generateLines_edges twoFaces 2 rfl rfl⟩

/-! ## Vertex access -/

theorem getVertex_setVertex (t : Terrain K) (v : Vec3 K) (i j : Int) (hi : 0 ≤ i) :
    getVertex (setVertex t v i) j = if j = i then v else getVertex t j := by
  unfold getVertex setVertex
  simp only []
  rw [arrayGet_arraySet _ _ _ _ (by omega), arrayGet_arraySet _ _ _ _ (by omega),
    arrayGet_arraySet _ _ _ _ (by omega), arrayGet_arraySet _ _ _ _ (by omega),
    arrayGet_arraySet _ _ _ _ (by omega), arrayGet_arraySet _ _ _ _ (by omega),
    arrayGet_arraySet _ _ _ _ (by omega), arrayGet_arraySet _ _ _ _ (by omega),
    arrayGet_arraySet _ _ _ _ (by omega)]
  by_cases hji : j = i
  · subst hji
    have h1 : ¬ (j * 3 = j * 3 + 2) := by omega
    have h2 : ¬ (j * 3 = j * 3 + 1) := by omega
    have h3 : ¬ (j * 3 + 1 = j * 3 + 2) := by omega
    simp [h1, h2, h3]
  · have e1 : ¬ (j * 3 = i * 3 + 2) := by omega
    have e2 : ¬ (j * 3 = i * 3 + 1) := by omega
    have e3 : ¬ (j * 3 = i * 3) := by omega
    have e4 : ¬ (j * 3 + 1 = i * 3 + 2) := by omega
    have e5 : ¬ (j * 3 + 1 = i * 3 + 1) := by omega
    have e6 : ¬ (j * 3 + 1 = i * 3) := by omega
    have e7 : ¬ (j * 3 + 2 = i * 3 + 2) := by omega
    have e8 : ¬ (j * 3 + 2 = i * 3 + 1) := by omega
    have e9 : ¬ (j * 3 + 2 = i * 3) := by omega
    simp [hji, e1, e2, e3, e4, e5, e6, e7, e8, e9]

theorem length_setVertex (t : Terrain K) (v : Vec3 K) (i : Nat)
    (h : 3 * i + 2 < t.positionData.length) :
    (setVertex t v (i : Int)).positionData.length = t.positionData.length := by
  unfold setVertex
  simp only []
  have l1 : (arraySet t.positionData ((i : Int) * 3) v.x).length = t.positionData.length :=
    length_arraySet _ _ _ (3 * i) (by push_cast; ring) (by omega)
  have l2 : (arraySet (arraySet t.positionData ((i : Int) * 3) v.x) ((i : Int) * 3 + 1)
      v.y).length = t.positionData.length := by
    rw [length_arraySet _ _ _ (3 * i + 1) (by push_cast; ring) (by omega), l1]
  rw [length_arraySet _ _ _ (3 * i + 2) (by push_cast; ring) (by omega), l2]

/-! ## The vertex lattice -/

theorem getD_gridPositions (minX minY dX dY : K) (n i j c : Nat) (hi : i < n) (hj : j < n)
    (hc : c < 3) :
    (gridPositions minX minY dX dY n).getD (3 * (i * n + j) + c) 0 =
      ([minX + dX * (j : K), minY + dY * (i : K), 0] : List K).getD c 0 := by
  have hidx : 3 * (i * n + j) + c = (3 * n) * i + (3 * j + c) := by ring
  unfold gridPositions
  rw [hidx, getD_flatMap_range _ (3 * n) _ 0 n i (3 * j + c) hi (by omega)]
  · apply getD_flatMap_range _ 3 _ 0 n j c hj hc
    intro q
    rfl
  · intro q
    rw [length_flatMap_const _ _ 3, List.length_range]
    intro r _
    rfl

/-- The vertex with id `row*(div+1)+col` of a freshly generated grid. -/
theorem getVertex_generateTriangles (n : Nat) (minX maxX minY maxY : K) (row col : Nat)
    (hrow : row ≤ n) (hcol : col ≤ n) :
    getVertex (generateTriangles (allocate (n : Int) minX maxX minY maxY))
      ((row : Int) * ((n : Int) + 1) + (col : Int)) =
    ⟨minX + (maxX - minX) / (n : K) * (col : K), minY + (maxY - minY) / (n : K) * (row : K),
      0⟩ := by
  have h1 : ((n : Int) + 1).toNat = n + 1 := by omega
  rw [generateTriangles_allocate]
  unfold getVertex
  simp only [h1, Int.cast_natCast]
  rw [arrayGet_of_eq _ _ (3 * (row * (n + 1) + col) + 0) (by push_cast; ring),
    arrayGet_of_eq _ _ (3 * (row * (n + 1) + col) + 1) (by push_cast; ring),
    arrayGet_of_eq _ _ (3 * (row * (n + 1) + col) + 2) (by push_cast; ring),
    getD_gridPositions _ _ _ _ _ _ _ _ (by omega) (by omega) (by omega),
    getD_gridPositions _ _ _ _ _ _ _ _ (by omega) (by omega) (by omega),
    getD_gridPositions _ _ _ _ _ _ _ _ (by omega) (by omega) (by omega)]
  rfl

/-- Claim C5: for every integer `div ≥ 1` and every rectangle, after `generateTriangles` the
vertex with id `row*(div+1)+col` (`0 ≤ row, col ≤ div`) is
`(minX + col*(maxX-minX)/div, minY + row*(maxY-minY)/div, 0)`; the four corner vertices are the
corners of the rectangle; when `minX ≠ maxX` and `minY ≠ maxY`, two vertex ids with the same
`(x, y)` are equal. -/
theorem generateTriangles_lattice (div : Int) (hdiv : 1 ≤ div) (minX maxX minY maxY : K) :
    (∀ row col : Nat, (row : Int) ≤ div → (col : Int) ≤ div →
      getVertex (generateTriangles (allocate div minX maxX minY maxY))
        ((row : Int) * (div + 1) + (col : Int)) =
      ⟨minX + (col : K) * (maxX - minX) / (div : K),
        minY + (row : K) * (maxY - minY) / (div : K), 0⟩) ∧
    getVertex (generateTriangles (allocate div minX maxX minY maxY)) 0 = ⟨minX, minY, 0⟩ ∧
    getVertex (generateTriangles (allocate div minX maxX minY maxY)) div = ⟨maxX, minY, 0⟩ ∧
    getVertex (generateTriangles (allocate div minX maxX minY maxY)) (div * (div + 1))
      = ⟨minX, maxY, 0⟩ ∧
    getVertex (generateTriangles (allocate div minX maxX minY maxY)) (div * (div + 1) + div)
      = ⟨maxX, maxY, 0⟩ ∧
    (minX ≠ maxX → minY ≠ maxY → ∀ k1 k2 : Int,
      0 ≤ k1 → k1 < ((generateTriangles (allocate div minX maxX minY maxY)).numVertices : Int) →
      0 ≤ k2 → k2 < ((generateTriangles (allocate div minX maxX minY maxY)).numVertices : Int) →
      (getVertex (generateTriangles (allocate div minX maxX minY maxY)) k1).x =
        (getVertex (generateTriangles (allocate div minX maxX minY maxY)) k2).x →
      (getVertex (generateTriangles (allocate div minX maxX minY maxY)) k1).y =
        (getVertex (generateTriangles (allocate div minX maxX minY maxY)) k2).y →
      k1 = k2) := by
  obtain ⟨n, rfl⟩ := Int.eq_ofNat_of_zero_le (by omega : (0 : Int) ≤ div)
  have hn : 1 ≤ n := by omega
  have hnK : (n : K) ≠ 0 := by
    have : (0 : K) < (n : K) := by exact_mod_cast hn
    exact ne_of_gt this
  have key : ∀ row col : Nat, row ≤ n → col ≤ n →
      getVertex (generateTriangles (allocate (n : Int) minX maxX minY maxY))
        ((row : Int) * ((n : Int) + 1) + (col : Int)) =
      ⟨minX + (col : K) * (maxX - minX) / (n : K),
        minY + (row : K) * (maxY - minY) / (n : K), 0⟩ := by
    intro row col hrow hcol
    rw [getVertex_generateTriangles n minX maxX minY maxY row col hrow hcol]
    congr 1 <;> ring
  simp only [Int.cast_natCast]
  refine ⟨fun row col hrow hcol => key row col (by omega) (by omega), ?_, ?_, ?_, ?_, ?_⟩
  · have h := key 0 0 (by omega) (by omega)
    simp only [Nat.cast_zero, zero_mul, zero_div, add_zero] at h
    exact h
  · have h := key 0 n (by omega) (by omega)
    simp only [Nat.cast_zero, zero_mul, zero_div, add_zero, zero_add] at h
    rw [h]
    congr 1
    field_simp
  · have h := key n 0 (by omega) (by omega)
    simp only [Nat.cast_zero, zero_mul, zero_div, add_zero] at h
    rw [h]
    congr 1
    field_simp
  · have h := key n n (by omega) (by omega)
    rw [h]
    congr 1 <;> field_simp
  · intro hX hY k1 k2 h10 h1 h20 h2 hx hy
    have h1n : ((n : Int) + 1).toNat = n + 1 := by omega
    rw [generateTriangles_allocate] at h1 h2
    simp only [h1n] at h1 h2
    obtain ⟨m1, rfl⟩ := Int.eq_ofNat_of_zero_le h10
    obtain ⟨m2, rfl⟩ := Int.eq_ofNat_of_zero_le h20
    have hm1 : m1 < (n + 1) * (n + 1) := by exact_mod_cast h1
    have hm2 : m2 < (n + 1) * (n + 1) := by exact_mod_cast h2
    have hr1 : m1 / (n + 1) ≤ n := Nat.le_of_lt_succ (Nat.div_lt_of_lt_mul hm1)
    have hr2 : m2 / (n + 1) ≤ n := Nat.le_of_lt_succ (Nat.div_lt_of_lt_mul hm2)
    have hc1 : m1 % (n + 1) ≤ n := Nat.le_of_lt_succ (Nat.mod_lt _ (by omega))
    have hc2 : m2 % (n + 1) ≤ n := Nat.le_of_lt_succ (Nat.mod_lt _ (by omega))
    have hd1 : ((m1 : Nat) : Int) =
        ((m1 / (n + 1) : Nat) : Int) * ((n : Int) + 1) + ((m1 % (n + 1) : Nat) : Int) := by
      have := Nat.div_add_mod m1 (n + 1)
      have h' : m1 = (m1 / (n + 1)) * (n + 1) + m1 % (n + 1) := by
        rw [Nat.mul_comm]; exact this.symm
      exact_mod_cast h'
    have hd2 : ((m2 : Nat) : Int) =
        ((m2 / (n + 1) : Nat) : Int) * ((n : Int) + 1) + ((m2 % (n + 1) : Nat) : Int) := by
      have := Nat.div_add_mod m2 (n + 1)
      have h' : m2 = (m2 / (n + 1)) * (n + 1) + m2 % (n + 1) := by
        rw [Nat.mul_comm]; exact this.symm
      exact_mod_cast h'
    rw [hd1, hd2, key _ _ hr1 hc1, key _ _ hr2 hc2] at hx hy
    simp only at hx hy
    have hXne : maxX - minX ≠ 0 := sub_ne_zero.mpr (Ne.symm hX)
    have hYne : maxY - minY ≠ 0 := sub_ne_zero.mpr (Ne.symm hY)
    have hcK : ((m1 % (n + 1) : Nat) : K) = ((m2 % (n + 1) : Nat) : K) := by
      have h3 := add_left_cancel hx
      field_simp at h3
      rcases h3 with h3 | h3
      · exact_mod_cast h3
      · exact absurd h3 hXne
    have hrK : ((m1 / (n + 1) : Nat) : K) = ((m2 / (n + 1) : Nat) : K) := by
      have h3 := add_left_cancel hy
      field_simp at h3
      rcases h3 with h3 | h3
      · exact_mod_cast h3
      · exact absurd h3 hYne
    have hc : m1 % (n + 1) = m2 % (n + 1) := Nat.cast_injective hcK
    have hr : m1 / (n + 1) = m2 / (n + 1) := Nat.cast_injective hrK
    rw [hd1, hd2, hc, hr]

theorem generateTriangles_lattice_witness :
    (1 : Int) ≤ 2 ∧
    ((∀ row col : Nat, (row : Int) ≤ 2 → (col : Int) ≤ 2 →
      getVertex (generateTriangles (allocate 2 (-1 : ℚ) 1 (-1) 1))
        ((row : Int) * (2 + 1) + (col : Int)) =
      ⟨-1 + (col : ℚ) * (1 - -1) / ((2 : Int) : ℚ),
        -1 + (row : ℚ) * (1 - -1) / ((2 : Int) : ℚ), 0⟩) ∧
    getVertex (generateTriangles (allocate 2 (-1 : ℚ) 1 (-1) 1)) 0 = ⟨-1, -1, 0⟩ ∧
    getVertex (generateTriangles (allocate 2 (-1 : ℚ) 1 (-1) 1)) 2 = ⟨1, -1, 0⟩ ∧
    getVertex (generateTriangles (allocate 2 (-1 : ℚ) 1 (-1) 1)) (2 * (2 + 1))
      = ⟨-1, 1, 0⟩ ∧
    getVertex (generateTriangles (allocate 2 (-1 : ℚ) 1 (-1) 1)) (2 * (2 + 1) + 2)
      = ⟨1, 1, 0⟩ ∧
    ((-1 : ℚ) ≠ 1 → (-1 : ℚ) ≠ 1 → ∀ k1 k2 : Int,
      0 ≤ k1 → k1 < ((generateTriangles (allocate 2 (-1 : ℚ) 1 (-1) 1)).numVertices : Int) →
      0 ≤ k2 → k2 < ((generateTriangles (allocate 2 (-1 : ℚ) 1 (-1) 1)).numVertices : Int) →
      (getVertex (generateTriangles (allocate 2 (-1 : ℚ) 1 (-1) 1)) k1).x =
        (getVertex (generateTriangles (allocate 2 (-1 : ℚ) 1 (-1) 1)) k2).x →
      (getVertex (generateTriangles (allocate 2 (-1 : ℚ) 1 (-1) 1)) k1).y =
        (getVertex (generateTriangles (allocate 2 (-1 : ℚ) 1 (-1) 1)) k2).y →
      k1 = k2)) :=
  ⟨by decide, generateTriangles_lattice 2 (by decide) (-1) 1 (-1) 1⟩

/-! ## Fault iterations -/

theorem faultVertexStep_eq (point randomNormal : Vec3 K) (i : Nat) (s : Terrain K) :
    faultVertexStep point randomNormal 0 i (s, (0.010 : K)) =
    (setVertex s (faultMove point randomNormal 0.010 (getVertex s (i : Int))) (i : Int),
      (0.010 : K)) := by
  simp only [faultVertexStep, faultMove, pow_zero, div_one]

/-- State of the inner loop of `faultIteration` after `k` vertices. -/
theorem faultIteration_loop (point randomNormal : Vec3 K) (t : Terrain K) (k : Nat) :
    ∃ p : List K,
      forLoop k (faultVertexStep point randomNormal 0) (t, (0.010 : K)) =
        ({ t with positionData := p }, (0.010 : K)) ∧
      (3 * k ≤ t.positionData.length → p.length = t.positionData.length) ∧
      ∀ v : Int, getVertex { t with positionData := p } v =
        if 0 ≤ v ∧ v < (k : Int) then faultMove point randomNormal 0.010 (getVertex t v)
        else getVertex t v := by
  induction k with
  | zero =>
    refine ⟨t.positionData, rfl, fun _ => rfl, ?_⟩
    intro v
    have h0 : ¬ (0 ≤ v ∧ v < ((0 : Nat) : Int)) := by omega
    rw [if_neg h0]
  | succ k ih =>
    obtain ⟨p, hp, hlen, hget⟩ := ih
    rw [forLoop_succ, hp, faultVertexStep_eq]
    refine ⟨(setVertex { t with positionData := p }
      (faultMove point randomNormal 0.010 (getVertex { t with positionData := p } (k : Int)))
      (k : Int)).positionData, rfl, ?_, ?_⟩
    · intro h3
      have hpl : p.length = t.positionData.length := hlen (by omega)
      have hl := length_setVertex { t with positionData := p }
        (faultMove point randomNormal 0.010 (getVertex { t with positionData := p } (k : Int)))
        k (by show 3 * k + 2 < p.length; omega)
      rw [hl]
      exact hpl
    · intro v
      have hset := getVertex_setVertex { t with positionData := p }
        (faultMove point randomNormal 0.010 (getVertex { t with positionData := p } (k : Int)))
        (k : Int) v (by omega)
      have heq : getVertex { t with positionData := (setVertex { t with positionData := p }
          (faultMove point randomNormal 0.010
            (getVertex { t with positionData := p } (k : Int))) (k : Int)).positionData } v =
          getVertex (setVertex { t with positionData := p }
          (faultMove point randomNormal 0.010
            (getVertex { t with positionData := p } (k : Int))) (k : Int)) v := rfl
      rw [heq, hset]
      by_cases hvk : v = (k : Int)
      · subst hvk
        have h1 : ¬ (0 ≤ (k : Int) ∧ (k : Int) < (k : Int)) := by omega
        have h2 : 0 ≤ (k : Int) ∧ (k : Int) < ((k + 1 : Nat) : Int) := by omega
        rw [hget (k : Int), if_neg h1, if_pos h2, if_pos rfl]
      · have h3 : (0 ≤ v ∧ v < ((k + 1 : Nat) : Int)) ↔ (0 ≤ v ∧ v < (k : Int)) := by omega
        rw [hget v, if_neg hvk]
        by_cases h4 : 0 ≤ v ∧ v < (k : Int)
        · rw [if_pos h4, if_pos (h3.mpr h4)]
        · rw [if_neg h4, if_neg (fun h => h4 (h3.mp h))]

/-- Effect of one fault iteration on every vertex and on the members of the object. -/
theorem faultIteration_spec (point randomNormal : Vec3 K) (t : Terrain K) :
    ∃ p : List K,
      faultIteration point randomNormal t = { t with positionData := p } ∧
      (3 * t.numVertices ≤ t.positionData.length → p.length = t.positionData.length) ∧
      ∀ v : Int, getVertex (faultIteration point randomNormal t) v =
        if 0 ≤ v ∧ v < (t.numVertices : Int) then
          faultMove point randomNormal 0.010 (getVertex t v)
        else getVertex t v := by
  obtain ⟨p, hp, hlen, hget⟩ := faultIteration_loop point randomNormal t t.numVertices
  have hfi : faultIteration point randomNormal t = { t with positionData := p } := by
    unfold faultIteration
    simp only [hp]
  refine ⟨p, hfi, hlen, ?_⟩
  intro v
  rw [hfi]
  exact hget v

/-- Claim C6: one fault iteration of `shapeTerrain` with fault point `(px, py)` and fault
direction `(nx, ny)` maps every vertex `(x, y, z)` to `(x, y, z + delta)` when
`(x - px)*nx + (y - py)*ny ≥ 0` and to `(x, y, z - delta)` otherwise, with `delta = 0.010`;
the test does not mention `z`; the number of vertices, `faceData` and `edgeData` are
unchanged. -/
theorem faultIteration_effect (px py nx ny : K) (t : Terrain K)
    (hwf : t.positionData.length = 3 * t.numVertices) :
    (∀ i : Nat, i < t.numVertices →
      getVertex (faultIteration ⟨px, py, 0⟩ ⟨nx, ny, 0⟩ t) (i : Int) =
        if ((getVertex t (i : Int)).x - px) * nx +
            ((getVertex t (i : Int)).y - py) * ny ≥ 0 then
          ⟨(getVertex t (i : Int)).x, (getVertex t (i : Int)).y,
            (getVertex t (i : Int)).z + 0.010⟩
        else
          ⟨(getVertex t (i : Int)).x, (getVertex t (i : Int)).y,
            (getVertex t (i : Int)).z - 0.010⟩) ∧
    (faultIteration ⟨px, py, 0⟩ ⟨nx, ny, 0⟩ t).numVertices = t.numVertices ∧
    (faultIteration ⟨px, py, 0⟩ ⟨nx, ny, 0⟩ t).positionData.length = t.positionData.length ∧
    (faultIteration ⟨px, py, 0⟩ ⟨nx, ny, 0⟩ t).faceData = t.faceData ∧
    (faultIteration ⟨px, py, 0⟩ ⟨nx, ny, 0⟩ t).edgeData = t.edgeData := by
  obtain ⟨p, hfi, hlen, hget⟩ := faultIteration_spec ⟨px, py, 0⟩ ⟨nx, ny, 0⟩ t
  refine ⟨?_, ?_, ?_, ?_, ?_⟩
  · intro i hi
    have hin : 0 ≤ (i : Int) ∧ (i : Int) < (t.numVertices : Int) := by omega
    rw [hget (i : Int), if_pos hin]
    simp only [faultMove, vec3.dot, vec3.sub, sub_zero, mul_zero, add_zero]
  · rw [hfi]
  · rw [hfi]
    exact hlen (by omega)
  · rw [hfi]
  · rw [hfi]

theorem faultIteration_effect_witness :
    unitCell.positionData.length = 3 * unitCell.numVertices ∧
    ((∀ i : Nat, i < unitCell.numVertices →
      getVertex (faultIteration ⟨0, 0, 0⟩ ⟨1, 0, 0⟩ unitCell) (i : Int) =
        if ((getVertex unitCell (i : Int)).x - 0) * 1 +
            ((getVertex unitCell (i : Int)).y - 0) * 0 ≥ 0 then
          ⟨(getVertex unitCell (i : Int)).x, (getVertex unitCell (i : Int)).y,
            (getVertex unitCell (i : Int)).z + 0.010⟩
        else
          ⟨(getVertex unitCell (i : Int)).x, (getVertex unitCell (i : Int)).y,
            (getVertex unitCell (i : Int)).z - 0.010⟩) ∧
    (faultIteration ⟨0, 0, 0⟩ ⟨1, 0, 0⟩ unitCell).numVertices = unitCell.numVertices ∧
    (faultIteration ⟨0, 0, 0⟩ ⟨1, 0, 0⟩ unitCell).positionData.length
      = unitCell.positionData.length ∧
    (faultIteration ⟨0, 0, 0⟩ ⟨1, 0, 0⟩ unitCell).faceData = unitCell.faceData ∧
    (faultIteration ⟨0, 0, 0⟩ ⟨1, 0, 0⟩ unitCell).edgeData = unitCell.edgeData) :=
  ⟨by decide, faultIteration_effect 0 0 1 0 unitCell (by decide)⟩

/-! ## Elevation queries -/

/-- The running maximum of `getMaxElevation` after `k` vertices. -/
theorem maxElevation_loop (t : Terrain K) (k : Nat) :
    -9999 ≤ forLoop k (fun i maxElevation =>
      let vertex := getVertex t (i : Int)
      let elevation := vertex.z
      if elevation > maxElevation then elevation else maxElevation) (-9999 : K) ∧
    (∀ i : Nat, i < k → (getVertex t (i : Int)).z ≤ forLoop k (fun i maxElevation =>
      let vertex := getVertex t (i : Int)
      let elevation := vertex.z
      if elevation > maxElevation then elevation else maxElevation) (-9999 : K)) ∧
    (forLoop k (fun i maxElevation =>
      let vertex := getVertex t (i : Int)
      let elevation := vertex.z
      if elevation > maxElevation then elevation else maxElevation) (-9999 : K) = -9999 ∨
      ∃ i : Nat, i < k ∧ (getVertex t (i : Int)).z = forLoop k (fun i maxElevation =>
        let vertex := getVertex t (i : Int)
        let elevation := vertex.z
        if elevation > maxElevation then elevation else maxElevation) (-9999 : K)) := by
  induction k with
  | zero =>
    refine ⟨le_refl _, ?_, Or.inl rfl⟩
    intro i hi
    omega
  | succ k ih =>
    obtain ⟨h1, h2, h3⟩ := ih
    rw [forLoop_succ]
    generalize forLoop k (fun i maxElevation =>
      let vertex := getVertex t (i : Int)
      let elevation := vertex.z
      if elevation > maxElevation then elevation else maxElevation) (-9999 : K) = m at h1 h2 h3
    simp only []
    by_cases hgt : (getVertex t (k : Int)).z > m
    · rw [if_pos hgt]
      refine ⟨le_trans h1 (le_of_lt hgt), ?_, Or.inr ⟨k, Nat.lt_succ_self k, rfl⟩⟩
      intro i hi
      by_cases hik : i = k
      · subst hik
        exact le_refl _
      · exact le_trans (h2 i (by omega)) (le_of_lt hgt)
    · rw [if_neg hgt]
      refine ⟨h1, ?_, ?_⟩
      · intro i hi
        by_cases hik : i = k
        · subst hik
          exact not_lt.mp hgt
        · exact h2 i (by omega)
      · rcases h3 with h3 | ⟨i, hi, h3⟩
        · exact Or.inl h3
        · exact Or.inr ⟨i, by omega, h3⟩

/-- The running minimum of `getMinElevation` after `k` vertices. -/
theorem minElevation_loop (t : Terrain K) (k : Nat) :
    forLoop k (fun i minElevation =>
      let vertex := getVertex t (i : Int)
      let elevation := vertex.z
      if elevation < minElevation then elevation else minElevation) (9999 : K) ≤ 9999 ∧
    (∀ i : Nat, i < k → forLoop k (fun i minElevation =>
      let vertex := getVertex t (i : Int)
      let elevation := vertex.z
      if elevation < minElevation then elevation else minElevation) (9999 : K)
        ≤ (getVertex t (i : Int)).z) ∧
    (forLoop k (fun i minElevation =>
      let vertex := getVertex t (i : Int)
      let elevation := vertex.z
      if elevation < minElevation then elevation else minElevation) (9999 : K) = 9999 ∨
      ∃ i : Nat, i < k ∧ (getVertex t (i : Int)).z = forLoop k (fun i minElevation =>
        let vertex := getVertex t (i : Int)
        let elevation := vertex.z
        if elevation < minElevation then elevation else minElevation) (9999 : K)) := by
  induction k with
  | zero =>
    refine ⟨le_refl _, ?_, Or.inl rfl⟩
    intro i hi
    omega
  | succ k ih =>
    obtain ⟨h1, h2, h3⟩ := ih
    rw [forLoop_succ]
    generalize forLoop k (fun i minElevation =>
      let vertex := getVertex t (i : Int)
      let elevation := vertex.z
      if elevation < minElevation then elevation else minElevation) (9999 : K) = m at h1 h2 h3
    simp only []
    by_cases hlt : (getVertex t (k : Int)).z < m
    · rw [if_pos hlt]
      refine ⟨le_trans (le_of_lt hlt) h1, ?_, Or.inr ⟨k, Nat.lt_succ_self k, rfl⟩⟩
      intro i hi
      by_cases hik : i = k
      · subst hik
        exact le_refl _
      · exact le_trans (le_of_lt hlt) (h2 i (by omega))
    · rw [if_neg hlt]
      refine ⟨h1, ?_, ?_⟩
      · intro i hi
        by_cases hik : i = k
        · subst hik
          exact not_lt.mp hlt
        · exact h2 i (by omega)
      · rcases h3 with h3 | ⟨i, hi, h3⟩
        · exact Or.inl h3
        · exact Or.inr ⟨i, by omega, h3⟩

/-- Claim C7: for every Terrain state with at least one vertex, whatever the z-values,
`getMaxElevation() ≥ getMinElevation()`.  A Terrain state holds `numVertices` triples in
`positionData`, so that every elevation read by the two scans is an element of the buffer. -/
theorem getMaxElevation_ge_getMinElevation (t : Terrain K) (hpos : 1 ≤ t.numVertices)
    (_hwf : t.positionData.length = 3 * t.numVertices) :
    getMaxElevation t ≥ getMinElevation t := by
  have hmax := (maxElevation_loop t t.numVertices).2.1 0 (by omega)
  have hmin := (minElevation_loop t t.numVertices).2.1 0 (by omega)
  exact le_trans hmin hmax

theorem getMaxElevation_ge_getMinElevation_witness :
    1 ≤ unitCell.numVertices ∧
    unitCell.positionData.length = 3 * unitCell.numVertices ∧
    getMaxElevation unitCell ≥ getMinElevation unitCell :=
  ⟨by decide, by decide, getMaxElevation_ge_getMinElevation unitCell (by decide) (by decide)⟩

/-- Claim C8 as stated fails: a Terrain state with the single vertex `(0, 0, -10000)` has
`getMaxElevation() = -9999`, which is the z-coordinate of no vertex. -/
theorem getMaxElevation_not_a_vertex :
    1 ≤ sunkenVertex.numVertices ∧
    sunkenVertex.positionData.length = 3 * sunkenVertex.numVertices ∧
    (getVertex sunkenVertex 0).z = -10000 ∧
    getMaxElevation sunkenVertex = -9999 ∧
    ¬ ∃ i : Nat, i < sunkenVertex.numVertices ∧
      (getVertex sunkenVertex (i : Int)).z = getMaxElevation sunkenVertex := by
  refine ⟨by decide, by decide, by decide, by decide, ?_⟩
  rintro ⟨i, hi, h⟩
  have hi0 : i = 0 := by
    have : i < 1 := hi
    omega
  subst hi0
  revert h
  decide

/-- Claim C8, amended: for every Terrain state (`positionData` holding `numVertices` triples)
in which some vertex has `z ≥ -9999` and some vertex has `z ≤ 9999`, `getMaxElevation()` is
the largest z-coordinate among the vertices and `getMinElevation()` is the smallest. -/
theorem getElevation_extremes (t : Terrain K)
    (_hwf : t.positionData.length = 3 * t.numVertices)
    (hlo : ∃ i : Nat, i < t.numVertices ∧ -9999 ≤ (getVertex t (i : Int)).z)
    (hhi : ∃ i : Nat, i < t.numVertices ∧ (getVertex t (i : Int)).z ≤ 9999) :
    (∀ i : Nat, i < t.numVertices → (getVertex t (i : Int)).z ≤ getMaxElevation t) ∧
    (∃ i : Nat, i < t.numVertices ∧ (getVertex t (i : Int)).z = getMaxElevation t) ∧
    (∀ i : Nat, i < t.numVertices → getMinElevation t ≤ (getVertex t (i : Int)).z) ∧
    (∃ i : Nat, i < t.numVertices ∧ (getVertex t (i : Int)).z = getMinElevation t) := by
  obtain ⟨_, hmax2, hmax3⟩ := maxElevation_loop t t.numVertices
  obtain ⟨_, hmin2, hmin3⟩ := minElevation_loop t t.numVertices
  refine ⟨hmax2, ?_, hmin2, ?_⟩
  · rcases hmax3 with h | h
    · obtain ⟨i, hi, hz⟩ := hlo
      refine ⟨i, hi, le_antisymm (hmax2 i hi) ?_⟩
      show getMaxElevation t ≤ _
      unfold getMaxElevation
      rw [h]
      exact hz
    · exact h
  · rcases hmin3 with h | h
    · obtain ⟨i, hi, hz⟩ := hhi
      refine ⟨i, hi, le_antisymm ?_ (hmin2 i hi)⟩
      show _ ≤ getMinElevation t
      unfold getMinElevation
      rw [h]
      exact hz
    · exact h

theorem getElevation_extremes_witness :
    unitCell.positionData.length = 3 * unitCell.numVertices ∧
    (∃ i : Nat, i < unitCell.numVertices ∧ -9999 ≤ (getVertex unitCell (i : Int)).z) ∧
    (∃ i : Nat, i < unitCell.numVertices ∧ (getVertex unitCell (i : Int)).z ≤ 9999) ∧
    ((∀ i : Nat, i < unitCell.numVertices →
      (getVertex unitCell (i : Int)).z ≤ getMaxElevation unitCell) ∧
    (∃ i : Nat, i < unitCell.numVertices ∧
      (getVertex unitCell (i : Int)).z = getMaxElevation unitCell) ∧
    (∀ i : Nat, i < unitCell.numVertices →
      getMinElevation unitCell ≤ (getVertex unitCell (i : Int)).z) ∧
    (∃ i : Nat, i < unitCell.numVertices ∧
      (getVertex unitCell (i : Int)).z = getMinElevation unitCell)) :=
  ⟨by decide, ⟨0, by decide, by decide⟩, ⟨0, by decide, by decide⟩,
    getElevation_extremes unitCell (by decide) ⟨0, by decide, by decide⟩
      ⟨0, by decide, by decide⟩⟩

/-! ## Normal accumulation -/

theorem normalAt_write (s : Terrain K) (k v : Int) (hk : 0 ≤ k) (a b c : K) :
    normalAt { s with
      normalData := arraySet (arraySet (arraySet s.normalData (3 * k) a) (3 * k + 1) b)
        (3 * k + 2) c } v =
    if v = k then ⟨a, b, c⟩ else normalAt s v := by
  have h0 := arrayGet_triple s.normalData k v hk a b c 0 (Or.inl rfl)
  have h1 := arrayGet_triple s.normalData k v hk a b c 1 (Or.inr (Or.inl rfl))
  have h2 := arrayGet_triple s.normalData k v hk a b c 2 (Or.inr (Or.inr rfl))
  simp only [add_zero] at h0
  unfold normalAt
  simp only []
  rw [h0, h1, h2]
  by_cases hvk : v = k
  · simp [hvk]
  · simp [hvk]

theorem addFaceNormal_spec (vertexIndex : List Int) (normal : Vec3 K) (j : Nat)
    (s : Terrain K) (hk : 0 ≤ arrayGet vertexIndex (j : Int)) :
    ∃ nd : List K, addFaceNormal vertexIndex normal j s = { s with normalData := nd } ∧
      ∀ v : Int, normalAt { s with normalData := nd } v =
        if v = arrayGet vertexIndex (j : Int) then
          ⟨(normalAt s v).x + normal.x / 2, (normalAt s v).y + normal.y / 2,
            (normalAt s v).z + normal.z / 2⟩
        else normalAt s v := by
  refine ⟨_, rfl, ?_⟩
  intro v
  simp only []
  rw [arrayGet_arraySet _ _ _ _ (by omega), arrayGet_arraySet _ _ _ _ (by omega),
    arrayGet_arraySet _ _ _ _ (by omega)]
  have e1 : ¬ (3 * arrayGet vertexIndex (j : Int) + 1 = 3 * arrayGet vertexIndex (j : Int)) := by
    omega
  have e2 : ¬ (3 * arrayGet vertexIndex (j : Int) + 2 = 3 * arrayGet vertexIndex (j : Int) + 1) := by
    omega
  have e3 : ¬ (3 * arrayGet vertexIndex (j : Int) + 2 = 3 * arrayGet vertexIndex (j : Int)) := by
    omega
  rw [if_neg e1, if_neg e2, if_neg e3, normalAt_write s _ v hk]
  by_cases hvk : v = arrayGet vertexIndex (j : Int)
  · rw [if_pos hvk, if_pos hvk, hvk]
    rfl
  · rw [if_neg hvk, if_neg hvk]

theorem forLoop_three {σ : Type} (body : Nat → σ → σ) (s : σ) :
    forLoop 3 body s = body 2 (body 1 (body 0 s)) := rfl

theorem vertexIndex_eq (a b c : Int) :
    arraySet (arraySet (arraySet ([0, 0, 0] : List Int) 0 a) 1 b) 2 c = [a, b, c] := rfl

theorem bump_three (X N : Vec3 K) (p0 p1 p2 : Prop) [Decidable p0] [Decidable p1]
    [Decidable p2] (Y Z W : Vec3 K)
    (hY : Y = if p0 then ⟨X.x + N.x / 2, X.y + N.y / 2, X.z + N.z / 2⟩ else X)
    (hZ : Z = if p1 then ⟨Y.x + N.x / 2, Y.y + N.y / 2, Y.z + N.z / 2⟩ else Y)
    (hW : W = if p2 then ⟨Z.x + N.x / 2, Z.y + N.y / 2, Z.z + N.z / 2⟩ else Z) :
    W = ⟨X.x + (((if p0 then 1 else 0) + (if p1 then 1 else 0) +
          (if p2 then 1 else 0) : Nat) : K) * (N.x / 2),
        X.y + (((if p0 then 1 else 0) + (if p1 then 1 else 0) +
          (if p2 then 1 else 0) : Nat) : K) * (N.y / 2),
        X.z + (((if p0 then 1 else 0) + (if p1 then 1 else 0) +
          (if p2 then 1 else 0) : Nat) : K) * (N.z / 2)⟩ := by
  subst hW hZ hY
  cases X with
  | mk x y z =>
    by_cases c0 : p0 <;> by_cases c1 : p1 <;> by_cases c2 : p2 <;>
      simp only [if_pos, if_neg, c0, c1, c2, not_false_eq_true, Vec3.mk.injEq] <;>
      push_cast <;> (refine ⟨?_, ?_, ?_⟩ <;> ring)

/-- Effect of the loop body of `calculateNormals()` for one face whose three indices are not
negative: only `normalData` changes, and every vertex receives half of the cross product of
the face once for each position of the face that holds it. -/
theorem accumulateFace_spec (i : Nat) (s : Terrain K) (h0 : 0 ≤ faceIndex s i 0)
    (h1 : 0 ≤ faceIndex s i 1) (h2 : 0 ≤ faceIndex s i 2) :
    ∃ nd : List K, accumulateFace i s = { s with normalData := nd } ∧
      ∀ v : Int, normalAt { s with normalData := nd } v =
        ⟨(normalAt s v).x + (cornerCount s i v : K) * ((faceCross s i).x / 2),
          (normalAt s v).y + (cornerCount s i v : K) * ((faceCross s i).y / 2),
          (normalAt s v).z + (cornerCount s i v : K) * ((faceCross s i).z / 2)⟩ := by
  have hf0 : arrayGet s.faceData ((i : Int) * 3) = faceIndex s i 0 := by
    unfold faceIndex
    rw [add_zero]
  have hacc : accumulateFace i s =
      addFaceNormal [faceIndex s i 0, faceIndex s i 1, faceIndex s i 2] (faceCross s i) 2
        (addFaceNormal [faceIndex s i 0, faceIndex s i 1, faceIndex s i 2] (faceCross s i) 1
          (addFaceNormal [faceIndex s i 0, faceIndex s i 1, faceIndex s i 2] (faceCross s i) 0
            s)) := by
    unfold accumulateFace
    simp only []
    rw [hf0]
    rfl
  obtain ⟨nd1, e1, n1⟩ := addFaceNormal_spec
    [faceIndex s i 0, faceIndex s i 1, faceIndex s i 2] (faceCross s i) 0 s h0
  obtain ⟨nd2, e2, n2⟩ := addFaceNormal_spec
    [faceIndex s i 0, faceIndex s i 1, faceIndex s i 2] (faceCross s i) 1
    { s with normalData := nd1 } h1
  obtain ⟨nd3, e3, n3⟩ := addFaceNormal_spec
    [faceIndex s i 0, faceIndex s i 1, faceIndex s i 2] (faceCross s i) 2
    { s with normalData := nd2 } h2
  refine ⟨nd3, ?_, ?_⟩
  · rw [hacc, e1, e2, e3]
  · intro v
    exact bump_three (normalAt s v) (faceCross s i) (v = faceIndex s i 0)
      (v = faceIndex s i 1) (v = faceIndex s i 2) _ _ _ (n1 v) (n2 v) (n3 v)

/-- State of the first loop of `calculateNormals()` after `k` faces. -/
theorem accumulateNormals_loop (t : Terrain K) (k : Nat) (hk : k ≤ t.numFaces)
    (hidx : ∀ i : Nat, i < t.numFaces →
      0 ≤ faceIndex t i 0 ∧ 0 ≤ faceIndex t i 1 ∧ 0 ≤ faceIndex t i 2) :
    ∃ nd : List K, forLoop k accumulateFace t = { t with normalData := nd } ∧
      ∀ v : Int, normalAt { t with normalData := nd } v =
        ⟨(normalAt t v).x +
            ∑ i in Finset.range k, (cornerCount t i v : K) * ((faceCross t i).x / 2),
          (normalAt t v).y +
            ∑ i in Finset.range k, (cornerCount t i v : K) * ((faceCross t i).y / 2),
          (normalAt t v).z +
            ∑ i in Finset.range k, (cornerCount t i v : K) * ((faceCross t i).z / 2)⟩ := by
  induction k with
  | zero =>
    refine ⟨t.normalData, rfl, ?_⟩
    intro v
    simp only [Finset.range_zero, Finset.sum_empty, add_zero]
  | succ k ih =>
    obtain ⟨nd, hp, hn⟩ := ih (by omega)
    obtain ⟨i0, i1, i2⟩ := hidx k (by omega)
    obtain ⟨nd', hp', hn'⟩ := accumulateFace_spec k { t with normalData := nd } i0 i1 i2
    refine ⟨nd', ?_, ?_⟩
    · rw [forLoop_succ, hp, hp']
    · intro v
      have h1 := hn' v
      have h2 := hn v
      have hc : cornerCount { t with normalData := nd } k v = cornerCount t k v := rfl
      have hf : faceCross { t with normalData := nd } k = faceCross t k := rfl
      rw [hc, hf, h2] at h1
      simp only [] at h1
      have h3 : normalAt { t with normalData := nd' } v =
          normalAt { ({ t with normalData := nd } : Terrain K) with normalData := nd' } v := rfl
      rw [h3, h1, Finset.sum_range_succ, Finset.sum_range_succ, Finset.sum_range_succ]
      congr 1 <;> ring

/-- The normals accumulated by the first loop of `calculateNormals()` on a mesh whose face
indices are not negative. -/
theorem accumulateNormals_spec (t : Terrain K)
    (hidx : ∀ i : Nat, i < t.numFaces →
      0 ≤ faceIndex t i 0 ∧ 0 ≤ faceIndex t i 1 ∧ 0 ≤ faceIndex t i 2) :
    ∃ nd : List K, accumulateNormals t = { t with normalData := nd } ∧
      ∀ v : Int, normalAt (accumulateNormals t) v =
        ⟨(normalAt t v).x +
            ∑ i in Finset.range t.numFaces, (cornerCount t i v : K) * ((faceCross t i).x / 2),
          (normalAt t v).y +
            ∑ i in Finset.range t.numFaces, (cornerCount t i v : K) * ((faceCross t i).y / 2),
          (normalAt t v).z +
            ∑ i in Finset.range t.numFaces,
              (cornerCount t i v : K) * ((faceCross t i).z / 2)⟩ := by
  obtain ⟨nd, hp, hn⟩ := accumulateNormals_loop t t.numFaces (le_refl _) hidx
  have ha : accumulateNormals t = { t with normalData := nd } := hp
  refine ⟨nd, ha, ?_⟩
  intro v
  rw [ha]
  exact hn v

/-! ## Normalization -/

theorem normalizeVertex_spec (sqrt : K → K) (k : Nat) (s : Terrain K) :
    ∃ nd : List K, normalizeVertex sqrt k s = { s with normalData := nd } ∧
      ∀ v : Int, normalAt { s with normalData := nd } v =
        if v = (k : Int) then vec3.normalize sqrt (normalAt s (k : Int)) else normalAt s v := by
  refine ⟨_, rfl, ?_⟩
  intro v
  rw [normalAt_write s (k : Int) v (by omega)]
  rfl

/-- State of the second loop of `calculateNormals()` after `k` vertices. -/
theorem normalizeNormals_loop (sqrt : K → K) (t : Terrain K) (k : Nat) :
    ∃ nd : List K, forLoop k (normalizeVertex sqrt) t = { t with normalData := nd } ∧
      ∀ v : Int, normalAt { t with normalData := nd } v =
        if 0 ≤ v ∧ v < (k : Int) then vec3.normalize sqrt (normalAt t v) else normalAt t v := by
  induction k with
  | zero =>
    refine ⟨t.normalData, rfl, ?_⟩
    intro v
    have h0 : ¬ (0 ≤ v ∧ v < ((0 : Nat) : Int)) := by omega
    rw [if_neg h0]
  | succ k ih =>
    obtain ⟨nd, hp, hn⟩ := ih
    obtain ⟨nd', hp', hn'⟩ := normalizeVertex_spec sqrt k { t with normalData := nd }
    refine ⟨nd', ?_, ?_⟩
    · rw [forLoop_succ, hp, hp']
    · intro v
      have h3 : normalAt { t with normalData := nd' } v =
          normalAt { ({ t with normalData := nd } : Terrain K) with normalData := nd' } v := rfl
      rw [h3, hn' v]
      by_cases hvk : v = (k : Int)
      · subst hvk
        have h1 : ¬ (0 ≤ (k : Int) ∧ (k : Int) < (k : Int)) := by omega
        have h2 : 0 ≤ (k : Int) ∧ (k : Int) < ((k + 1 : Nat) : Int) := by omega
        rw [if_pos rfl, hn (k : Int), if_neg h1, if_pos h2]
      · have h4 : (0 ≤ v ∧ v < ((k + 1 : Nat) : Int)) ↔ (0 ≤ v ∧ v < (k : Int)) := by omega
        rw [if_neg hvk, hn v]
        by_cases h5 : 0 ≤ v ∧ v < (k : Int)
        · rw [if_pos h5, if_pos (h4.mpr h5)]
        · rw [if_neg h5, if_neg (fun h => h5 (h4.mp h))]

/-- The normals stored by the second loop of `calculateNormals()`. -/
theorem normalizeNormals_spec (sqrt : K → K) (t : Terrain K) :
    ∃ nd : List K, normalizeNormals sqrt t = { t with normalData := nd } ∧
      ∀ v : Int, normalAt (normalizeNormals sqrt t) v =
        if 0 ≤ v ∧ v < (t.numVertices : Int) then vec3.normalize sqrt (normalAt t v)
        else normalAt t v := by
  obtain ⟨nd, hp, hn⟩ := normalizeNormals_loop sqrt t t.numVertices
  have ha : normalizeNormals sqrt t = { t with normalData := nd } := hp
  refine ⟨nd, ha, ?_⟩
  intro v
  rw [ha]
  exact hn v

/-- The normal stored by `calculateNormals()` for a vertex of a mesh whose face indices are
not negative: the normalized sum of the half cross products of the faces that hold it. -/
theorem calculateNormals_spec (sqrt : K → K) (t : Terrain K)
    (hidx : ∀ i : Nat, i < t.numFaces →
      0 ≤ faceIndex t i 0 ∧ 0 ≤ faceIndex t i 1 ∧ 0 ≤ faceIndex t i 2) :
    (∃ nd : List K, calculateNormals sqrt t = { t with normalData := nd }) ∧
    ∀ v : Nat, v < t.numVertices →
      normalAt (calculateNormals sqrt t) (v : Int) =
        vec3.normalize sqrt (normalAt (accumulateNormals t) (v : Int)) := by
  obtain ⟨nd, ha, _⟩ := accumulateNormals_spec t hidx
  obtain ⟨nd', hb, hn⟩ := normalizeNormals_spec sqrt (accumulateNormals t)
  refine ⟨⟨nd', ?_⟩, ?_⟩
  · unfold calculateNormals
    rw [hb, ha]
  · intro v hv
    unfold calculateNormals
    have hnv : (accumulateNormals t).numVertices = t.numVertices := by rw [ha]
    rw [hn (v : Int), hnv, if_pos (by omega)]

/-! ## Buffer lengths under normal calculation -/

theorem addFaceNormal_length (vertexIndex : List Int) (normal : Vec3 K) (j : Nat)
    (s : Terrain K) (h0 : 0 ≤ arrayGet vertexIndex (j : Int))
    (hlt : 3 * arrayGet vertexIndex (j : Int) + 2 < (s.normalData.length : Int)) :
    (addFaceNormal vertexIndex normal j s).normalData.length = s.normalData.length :=
  length_arraySet_triple s.normalData _ _ _ _ h0 hlt

theorem accumulateFace_length (i : Nat) (s : Terrain K)
    (h0 : 0 ≤ faceIndex s i 0 ∧ 3 * faceIndex s i 0 + 2 < (s.normalData.length : Int))
    (h1 : 0 ≤ faceIndex s i 1 ∧ 3 * faceIndex s i 1 + 2 < (s.normalData.length : Int))
    (h2 : 0 ≤ faceIndex s i 2 ∧ 3 * faceIndex s i 2 + 2 < (s.normalData.length : Int)) :
    (accumulateFace i s).normalData.length = s.normalData.length := by
  have hf0 : arrayGet s.faceData ((i : Int) * 3) = faceIndex s i 0 := by
    unfold faceIndex
    rw [add_zero]
  have hacc : accumulateFace i s =
      addFaceNormal [faceIndex s i 0, faceIndex s i 1, faceIndex s i 2] (faceCross s i) 2
        (addFaceNormal [faceIndex s i 0, faceIndex s i 1, faceIndex s i 2] (faceCross s i) 1
          (addFaceNormal [faceIndex s i 0, faceIndex s i 1, faceIndex s i 2] (faceCross s i) 0
            s)) := by
    unfold accumulateFace
    simp only []
    rw [hf0]
    rfl
  have l1 := addFaceNormal_length [faceIndex s i 0, faceIndex s i 1, faceIndex s i 2]
    (faceCross s i) 0 s h0.1 h0.2
  have l2 := addFaceNormal_length [faceIndex s i 0, faceIndex s i 1, faceIndex s i 2]
    (faceCross s i) 1 _ h1.1 (by rw [l1]; exact h1.2)
  have l3 := addFaceNormal_length [faceIndex s i 0, faceIndex s i 1, faceIndex s i 2]
    (faceCross s i) 2 _ h2.1 (by rw [l2, l1]; exact h2.2)
  rw [hacc, l3, l2, l1]

theorem accumulateNormals_length (t : Terrain K)
    (hidx : ∀ i : Nat, i < t.numFaces →
      (0 ≤ faceIndex t i 0 ∧ 3 * faceIndex t i 0 + 2 < (t.normalData.length : Int)) ∧
      (0 ≤ faceIndex t i 1 ∧ 3 * faceIndex t i 1 + 2 < (t.normalData.length : Int)) ∧
      (0 ≤ faceIndex t i 2 ∧ 3 * faceIndex t i 2 + 2 < (t.normalData.length : Int))) :
    (accumulateNormals t).normalData.length = t.normalData.length := by
  have hidx' : ∀ i : Nat, i < t.numFaces →
      0 ≤ faceIndex t i 0 ∧ 0 ≤ faceIndex t i 1 ∧ 0 ≤ faceIndex t i 2 :=
    fun i hi => ⟨(hidx i hi).1.1, (hidx i hi).2.1.1, (hidx i hi).2.2.1⟩
  have key : ∀ k : Nat, k ≤ t.numFaces →
      (forLoop k accumulateFace t).normalData.length = t.normalData.length := by
    intro k
    induction k with
    | zero => intro _; rfl
    | succ k ih =>
      intro hk
      obtain ⟨nd, hp, _⟩ := accumulateNormals_loop t k (by omega) hidx'
      have ihk := ih (by omega)
      rw [hp] at ihk
      have hl : nd.length = t.normalData.length := ihk
      obtain ⟨b0, b1, b2⟩ := hidx k (by omega)
      rw [forLoop_succ, hp]
      rw [accumulateFace_length k { t with normalData := nd }
        ⟨b0.1, by show _ < (nd.length : Int); rw [hl]; exact b0.2⟩
        ⟨b1.1, by show _ < (nd.length : Int); rw [hl]; exact b1.2⟩
        ⟨b2.1, by show _ < (nd.length : Int); rw [hl]; exact b2.2⟩]
      exact hl
  exact key t.numFaces (le_refl _)

theorem normalizeVertex_length (sqrt : K → K) (v : Nat) (s : Terrain K)
    (hlt : 3 * v + 2 < s.normalData.length) :
    (normalizeVertex sqrt v s).normalData.length = s.normalData.length :=
  length_arraySet_triple s.normalData (v : Int) _ _ _ (by omega) (by omega)

theorem normalizeNormals_length (sqrt : K → K) (t : Terrain K)
    (hlen : 3 * t.numVertices ≤ t.normalData.length) :
    (normalizeNormals sqrt t).normalData.length = t.normalData.length := by
  have key : ∀ k : Nat, k ≤ t.numVertices →
      (forLoop k (normalizeVertex sqrt) t).normalData.length = t.normalData.length := by
    intro k
    induction k with
    | zero => intro _; rfl
    | succ k ih =>
      intro hk
      have ihk := ih (by omega)
      rw [forLoop_succ, normalizeVertex_length sqrt k _ (by rw [ihk]; omega)]
      exact ihk
  exact key t.numVertices (le_refl _)

/-! ## Sculpting -/

theorem faultMove_x (point randomNormal : Vec3 K) (delta : K) (vertex : Vec3 K) :
    (faultMove point randomNormal delta vertex).x = vertex.x := by
  unfold faultMove
  split <;> rfl

theorem faultMove_y (point randomNormal : Vec3 K) (delta : K) (vertex : Vec3 K) :
    (faultMove point randomNormal delta vertex).y = vertex.y := by
  unfold faultMove
  split <;> rfl

/-- One fault iteration changes `positionData` only and keeps `x` and `y` of every vertex. -/
theorem faultIteration_xy (point randomNormal : Vec3 K) (t : Terrain K) :
    ∃ p : List K,
      faultIteration point randomNormal t = { t with positionData := p } ∧
      (3 * t.numVertices ≤ t.positionData.length → p.length = t.positionData.length) ∧
      ∀ v : Int, (getVertex { t with positionData := p } v).x = (getVertex t v).x ∧
        (getVertex { t with positionData := p } v).y = (getVertex t v).y := by
  obtain ⟨p, hfi, hlen, hget⟩ := faultIteration_spec point randomNormal t
  refine ⟨p, hfi, hlen, ?_⟩
  intro v
  have h := hget v
  rw [hfi] at h
  rw [h]
  by_cases hv : 0 ≤ v ∧ v < (t.numVertices : Int)
  · rw [if_pos hv]
    exact ⟨faultMove_x _ _ _ _, faultMove_y _ _ _ _⟩
  · rw [if_neg hv]
    exact ⟨rfl, rfl⟩

/-- State of the loop of `shapeTerrain()` after `k` iterations. -/
theorem shapeTerrain_loop (draws : Nat → FaultDraw K) (t : Terrain K) (k : Nat) :
    ∃ p : List K,
      forLoop k (fun it s =>
        let point : Vec3 K :=
          { (vec3.create : Vec3 K) with
            x := s.minX + (draws it).rx * (s.maxX - s.minX)
            y := s.minY + (draws it).ry * (s.maxY - s.minY) }
        let randomNormal : Vec3 K :=
          { (vec3.create : Vec3 K) with x := (draws it).nx, y := (draws it).ny }
        faultIteration point randomNormal s) t = { t with positionData := p } ∧
      (3 * t.numVertices ≤ t.positionData.length → p.length = t.positionData.length) ∧
      ∀ v : Int, (getVertex { t with positionData := p } v).x = (getVertex t v).x ∧
        (getVertex { t with positionData := p } v).y = (getVertex t v).y := by
  induction k with
  | zero => exact ⟨t.positionData, rfl, fun _ => rfl, fun _ => ⟨rfl, rfl⟩⟩
  | succ k ih =>
    obtain ⟨p, hp, hlen, hxy⟩ := ih
    rw [forLoop_succ, hp]
    obtain ⟨p', hp', hlen', hxy'⟩ := faultIteration_xy
      { (vec3.create : Vec3 K) with
        x := t.minX + (draws k).rx * (t.maxX - t.minX)
        y := t.minY + (draws k).ry * (t.maxY - t.minY) }
      { (vec3.create : Vec3 K) with x := (draws k).nx, y := (draws k).ny }
      { t with positionData := p }
    refine ⟨p', hp', ?_, ?_⟩
    · intro h3
      have h4 : p.length = t.positionData.length := hlen h3
      have h5 : p'.length = p.length := hlen' (by show 3 * t.numVertices ≤ p.length; omega)
      omega
    · intro v
      have h6 := hxy' v
      have h7 := hxy v
      exact ⟨h6.1.trans h7.1, h6.2.trans h7.2⟩

/-- Method `shapeTerrain()` changes `positionData` only, keeps its length, and keeps `x` and
`y` of every vertex. -/
theorem shapeTerrain_spec (draws : Nat → FaultDraw K) (t : Terrain K) :
    ∃ p : List K,
      shapeTerrain draws t = { t with positionData := p } ∧
      (3 * t.numVertices ≤ t.positionData.length → p.length = t.positionData.length) ∧
      ∀ v : Int, (getVertex (shapeTerrain draws t) v).x = (getVertex t v).x ∧
        (getVertex (shapeTerrain draws t) v).y = (getVertex t v).y := by
  obtain ⟨p, hp, hlen, hxy⟩ := shapeTerrain_loop draws t 100
  have hs : shapeTerrain draws t = { t with positionData := p } := hp
  refine ⟨p, hs, hlen, ?_⟩
  intro v
  rw [hs]
  exact hxy v

/-! ## Grid meshes -/

theorem arrayGet_gridZeros (m : Nat) (k : Int) : arrayGet (gridZeros m : List K) k = 0 := by
  cases k with
  | negSucc j => rfl
  | ofNat j =>
    show (gridZeros m : List K).getD j 0 = 0
    rw [List.getD_eq_getElem?_getD]
    cases h : (gridZeros m : List K)[j]? with
    | none => rfl
    | some x =>
      have hx : x ∈ (gridZeros m : List K) := List.getElem?_mem h
      unfold gridZeros at hx
      simp only [List.mem_flatMap, List.mem_range] at hx
      obtain ⟨_, _, _, _, hx⟩ := hx
      simp only [List.mem_cons, List.mem_singleton, List.not_mem_nil, or_false, or_self] at hx
      rw [hx]
      rfl

/-- A freshly generated grid is a grid mesh. -/
theorem isGrid_generateTriangles (n : Nat) (minX maxX minY maxY : K) :
    IsGrid n minX minY ((maxX - minX) / (n : K)) ((maxY - minY) / (n : K))
      (generateTriangles (allocate (n : Int) minX maxX minY maxY)) := by
  have h1 : ((n : Int) + 1).toNat = n + 1 := by omega
  refine ⟨?_, ?_, ?_, ?_, ?_, ?_, ?_, ?_⟩
  · rw [generateTriangles_allocate]
    simp only [Int.toNat_ofNat]
  · rw [generateTriangles_allocate]
    simp only [h1]
  · rw [generateTriangles_allocate]
  · intro v
    rw [generateTriangles_allocate]
    unfold normalAt
    simp only [arrayGet_gridZeros]
  · intro row col hrow hcol
    rw [getVertex_generateTriangles n minX maxX minY maxY row col hrow hcol]
  · intro row col hrow hcol
    rw [getVertex_generateTriangles n minX maxX minY maxY row col hrow hcol]
  · rw [generateTriangles_allocate]
    simp only [length_gridPositions]
  · rw [generateTriangles_allocate]
    simp only [length_gridZeros]

/-- Method `generateLines()` keeps a grid mesh. -/
theorem isGrid_generateLines (n : Nat) (minX minY dX dY : K) (t : Terrain K)
    (h : IsGrid n minX minY dX dY t) : IsGrid n minX minY dX dY (generateLines t) := by
  rw [generateLines_eq]
  exact ⟨h.numFaces_eq, h.numVertices_eq, h.faceData_eq, h.normal_zero, h.vertex_x, h.vertex_y,
    h.positionData_length, h.normalData_length⟩

/-- Method `shapeTerrain()` keeps a grid mesh. -/
theorem isGrid_shapeTerrain (draws : Nat → FaultDraw K) (n : Nat) (minX minY dX dY : K)
    (t : Terrain K) (h : IsGrid n minX minY dX dY t) :
    IsGrid n minX minY dX dY (shapeTerrain draws t) := by
  obtain ⟨p, hs, hlen, hxy⟩ := shapeTerrain_spec draws t
  have hpl : p.length = t.positionData.length := hlen (by rw [h.positionData_length])
  refine ⟨?_, ?_, ?_, ?_, ?_, ?_, ?_, ?_⟩
  · rw [hs]; exact h.numFaces_eq
  · rw [hs]; exact h.numVertices_eq
  · rw [hs]; exact h.faceData_eq
  · intro v
    rw [hs]
    exact h.normal_zero v
  · intro row col hrow hcol
    rw [(hxy _).1]
    exact h.vertex_x row col hrow hcol
  · intro row col hrow hcol
    rw [(hxy _).2]
    exact h.vertex_y row col hrow hcol
  · rw [hs]
    show p.length = 3 * t.numVertices
    rw [hpl, h.positionData_length]
  · rw [hs]
    exact h.normalData_length

theorem getD_gridFaces (n a b r : Nat) (ha : a < n) (hb : b < n) (hr : r < 6) :
    (gridFaces (n : Int)).getD (6 * (a * n + b) + r) 0 =
      ([(a : Int) * ((n : Int) + 1) + (b : Int), (a : Int) * ((n : Int) + 1) + (b : Int) + 1,
        (a : Int) * ((n : Int) + 1) + (b : Int) + (n : Int) + 1,
        (a : Int) * ((n : Int) + 1) + (b : Int) + 1,
        (a : Int) * ((n : Int) + 1) + (b : Int) + (n : Int) + 2,
        (a : Int) * ((n : Int) + 1) + (b : Int) + (n : Int) + 1] : List Int).getD r 0 := by
  have hidx : 6 * (a * n + b) + r = (6 * n) * a + (6 * b + r) := by ring
  unfold gridFaces
  simp only [Int.toNat_ofNat]
  rw [hidx, getD_flatMap_range _ (6 * n) _ 0 n a (6 * b + r) ha (by omega)]
  · apply getD_flatMap_range _ 6 _ 0 n b r hb hr
    intro q
    rfl
  · intro q
    rw [length_flatMap_const _ _ 6, List.length_range]
    intro j _
    rfl

/-- The six indices stored for the cell in row `a` and column `b` of a grid mesh. -/
theorem faceIndex_grid (n : Nat) (minX minY dX dY : K) (t : Terrain K)
    (h : IsGrid n minX minY dX dY t) (a b : Nat) (ha : a < n) (hb : b < n) :
    faceIndex t (2 * (a * n + b)) 0 = (a : Int) * ((n : Int) + 1) + (b : Int) ∧
    faceIndex t (2 * (a * n + b)) 1 = (a : Int) * ((n : Int) + 1) + (b : Int) + 1 ∧
    faceIndex t (2 * (a * n + b)) 2 = (a : Int) * ((n : Int) + 1) + (b : Int) + (n : Int) + 1 ∧
    faceIndex t (2 * (a * n + b) + 1) 0 = (a : Int) * ((n : Int) + 1) + (b : Int) + 1 ∧
    faceIndex t (2 * (a * n + b) + 1) 1
      = (a : Int) * ((n : Int) + 1) + (b : Int) + (n : Int) + 2 ∧
    faceIndex t (2 * (a * n + b) + 1) 2
      = (a : Int) * ((n : Int) + 1) + (b : Int) + (n : Int) + 1 := by
  unfold faceIndex
  rw [h.faceData_eq]
  refine ⟨?_, ?_, ?_, ?_, ?_, ?_⟩
  · rw [arrayGet_of_eq _ _ (6 * (a * n + b) + 0) (by push_cast; ring),
      getD_gridFaces n a b 0 ha hb (by omega)]
    rfl
  · rw [arrayGet_of_eq _ _ (6 * (a * n + b) + 1) (by push_cast; ring),
      getD_gridFaces n a b 1 ha hb (by omega)]
    rfl
  · rw [arrayGet_of_eq _ _ (6 * (a * n + b) + 2) (by push_cast; ring),
      getD_gridFaces n a b 2 ha hb (by omega)]
    rfl
  · rw [arrayGet_of_eq _ _ (6 * (a * n + b) + 3) (by push_cast; ring),
      getD_gridFaces n a b 3 ha hb (by omega)]
    rfl
  · rw [arrayGet_of_eq _ _ (6 * (a * n + b) + 4) (by push_cast; ring),
      getD_gridFaces n a b 4 ha hb (by omega)]
    rfl
  · rw [arrayGet_of_eq _ _ (6 * (a * n + b) + 5) (by push_cast; ring),
      getD_gridFaces n a b 5 ha hb (by omega)]
    rfl

/-- Every face number below `2 * n * n` is one of the two faces of a cell. -/
theorem face_decompose (n i : Nat) (hi : i < 2 * (n * n)) :
    ∃ a b e : Nat, a < n ∧ b < n ∧ e < 2 ∧ i = 2 * (a * n + b) + e := by
  have hn : 0 < n := by
    rcases Nat.eq_zero_or_pos n with h | h
    · subst h
      omega
    · exact h
  have hq : i / 2 < n * n := by omega
  refine ⟨i / 2 / n, i / 2 % n, i % 2, ?_, Nat.mod_lt _ hn, Nat.mod_lt _ (by omega), ?_⟩
  · exact Nat.div_lt_of_lt_mul hq
  · have h1 : n * (i / 2 / n) + i / 2 % n = i / 2 := Nat.div_add_mod (i / 2) n
    have h2 : i / 2 / n * n = n * (i / 2 / n) := Nat.mul_comm _ _
    rw [h2, h1]
    omega

/-- The `x` and `y` of the four corner vertices of the cell in row `a` and column `b`. -/
theorem corner_xy (n : Nat) (minX minY dX dY : K) (t : Terrain K)
    (h : IsGrid n minX minY dX dY t) (a b : Nat) (ha : a < n) (hb : b < n) :
    ((getVertex t ((a : Int) * ((n : Int) + 1) + (b : Int))).x = minX + dX * (b : K) ∧
      (getVertex t ((a : Int) * ((n : Int) + 1) + (b : Int))).y = minY + dY * (a : K)) ∧
    ((getVertex t ((a : Int) * ((n : Int) + 1) + (b : Int) + 1)).x
        = minX + dX * ((b : K) + 1) ∧
      (getVertex t ((a : Int) * ((n : Int) + 1) + (b : Int) + 1)).y = minY + dY * (a : K)) ∧
    ((getVertex t ((a : Int) * ((n : Int) + 1) + (b : Int) + (n : Int) + 1)).x
        = minX + dX * (b : K) ∧
      (getVertex t ((a : Int) * ((n : Int) + 1) + (b : Int) + (n : Int) + 1)).y
        = minY + dY * ((a : K) + 1)) ∧
    ((getVertex t ((a : Int) * ((n : Int) + 1) + (b : Int) + (n : Int) + 2)).x
        = minX + dX * ((b : K) + 1) ∧
      (getVertex t ((a : Int) * ((n : Int) + 1) + (b : Int) + (n : Int) + 2)).y
        = minY + dY * ((a : K) + 1)) := by
  have e1 : (a : Int) * ((n : Int) + 1) + (b : Int) + 1
      = (a : Int) * ((n : Int) + 1) + ((b + 1 : Nat) : Int) := by push_cast; ring
  have e2 : (a : Int) * ((n : Int) + 1) + (b : Int) + (n : Int) + 1
      = ((a + 1 : Nat) : Int) * ((n : Int) + 1) + (b : Int) := by push_cast; ring
  have e3 : (a : Int) * ((n : Int) + 1) + (b : Int) + (n : Int) + 2
      = ((a + 1 : Nat) : Int) * ((n : Int) + 1) + ((b + 1 : Nat) : Int) := by push_cast; ring
  rw [e1, e2, e3]
  have x00 := h.vertex_x a b (by omega) (by omega)
  have y00 := h.vertex_y a b (by omega) (by omega)
  have x01 := h.vertex_x a (b + 1) (by omega) (by omega)
  have y01 := h.vertex_y a (b + 1) (by omega) (by omega)
  have x10 := h.vertex_x (a + 1) b (by omega) (by omega)
  have y10 := h.vertex_y (a + 1) b (by omega) (by omega)
  have x11 := h.vertex_x (a + 1) (b + 1) (by omega) (by omega)
  have y11 := h.vertex_y (a + 1) (b + 1) (by omega) (by omega)
  push_cast at x01 y01 x10 y10 x11 y11
  exact ⟨⟨x00, y00⟩, ⟨x01, y01⟩, ⟨x10, y10⟩, ⟨x11, y11⟩⟩

/-- The face indices of a grid mesh are not negative. -/
theorem faceIndex_nonneg_grid (n : Nat) (minX minY dX dY : K) (t : Terrain K)
    (h : IsGrid n minX minY dX dY t) (i : Nat) (hi : i < t.numFaces) :
    0 ≤ faceIndex t i 0 ∧ 0 ≤ faceIndex t i 1 ∧ 0 ≤ faceIndex t i 2 := by
  rw [h.numFaces_eq] at hi
  obtain ⟨a, b, e, ha, hb, he, rfl⟩ := face_decompose n i hi
  obtain ⟨f0, f1, f2, f3, f4, f5⟩ := faceIndex_grid n minX minY dX dY t h a b ha hb
  have hA : (0 : Int) ≤ (a : Int) * ((n : Int) + 1) :=
    mul_nonneg (Int.natCast_nonneg a) (by omega)
  have he2 : e = 0 ∨ e = 1 := by omega
  rcases he2 with he0 | he1
  · subst he0
    rw [Nat.add_zero, f0, f1, f2]
    omega
  · subst he1
    rw [f3, f4, f5]
    omega

/-- Every face of a grid mesh has the cross product `z`-component `dX * dY`, whatever the
elevations. -/
theorem faceCross_z_grid (n : Nat) (minX minY dX dY : K) (t : Terrain K)
    (h : IsGrid n minX minY dX dY t) (i : Nat) (hi : i < t.numFaces) :
    (faceCross t i).z = dX * dY := by
  rw [h.numFaces_eq] at hi
  obtain ⟨a, b, e, ha, hb, he, rfl⟩ := face_decompose n i hi
  obtain ⟨f0, f1, f2, f3, f4, f5⟩ := faceIndex_grid n minX minY dX dY t h a b ha hb
  obtain ⟨⟨x00, y00⟩, ⟨x01, y01⟩, ⟨x10, y10⟩, ⟨x11, y11⟩⟩ :=
    corner_xy n minX minY dX dY t h a b ha hb
  have he2 : e = 0 ∨ e = 1 := by omega
  rcases he2 with he0 | he1
  · subst he0
    unfold faceCross
    rw [Nat.add_zero, f0, f1, f2]
    simp only [vec3.cross, vec3.sub]
    rw [x00, y00, x01, y01, x10, y10]
    ring
  · subst he1
    unfold faceCross
    rw [f3, f4, f5]
    simp only [vec3.cross, vec3.sub]
    rw [x01, y01, x10, y10, x11, y11]
    ring

theorem cell_lt (n a b : Nat) (ha : a < n) (hb : b < n) : a * n + b < n * n := by
  have h1 : (a + 1) * n ≤ n * n := Nat.mul_le_mul_right n ha
  have h2 : (a + 1) * n = a * n + n := by ring
  omega

/-- Every vertex of a grid mesh with at least one cell is held by some face. -/
theorem vertex_has_face (n : Nat) (minX minY dX dY : K) (t : Terrain K)
    (h : IsGrid n minX minY dX dY t) (hn : 1 ≤ n) (v : Nat) (hv : v < t.numVertices) :
    ∃ i : Nat, i < t.numFaces ∧ 1 ≤ cornerCount t i (v : Int) := by
  rw [h.numVertices_eq] at hv
  rw [h.numFaces_eq]
  obtain ⟨m, rfl⟩ : ∃ m, n = m + 1 := ⟨n - 1, by omega⟩
  have hrow : v / (m + 1 + 1) ≤ m + 1 := Nat.le_of_lt_succ (Nat.div_lt_of_lt_mul hv)
  have hcol : v % (m + 1 + 1) ≤ m + 1 := Nat.le_of_lt_succ (Nat.mod_lt _ (by omega))
  have hv' : v = (v / (m + 1 + 1)) * (m + 1 + 1) + v % (m + 1 + 1) := by
    have := Nat.div_add_mod v (m + 1 + 1)
    rw [Nat.mul_comm] at this
    exact this.symm
  generalize v / (m + 1 + 1) = row at hrow hv'
  generalize v % (m + 1 + 1) = col at hcol hv'
  have hvI : (v : Int) = (row : Int) * (((m + 1 : Nat) : Int) + 1) + (col : Int) := by
    rw [hv']
    push_cast
    ring
  by_cases hr : row < m + 1
  · by_cases hc : col < m + 1
    · obtain ⟨f0, _, _, _, _, _⟩ := faceIndex_grid (m + 1) minX minY dX dY t h row col hr hc
      refine ⟨2 * (row * (m + 1) + col), ?_, ?_⟩
      · have := cell_lt (m + 1) row col hr hc
        omega
      · unfold cornerCount
        rw [f0, if_pos hvI]
        omega
    · have hce : col = m + 1 := by omega
      obtain ⟨_, f1, _, _, _, _⟩ := faceIndex_grid (m + 1) minX minY dX dY t h row m hr
        (by omega)
      refine ⟨2 * (row * (m + 1) + m), ?_, ?_⟩
      · have := cell_lt (m + 1) row m hr (by omega)
        omega
      · unfold cornerCount
        have e : (v : Int) = (row : Int) * (((m + 1 : Nat) : Int) + 1) + (m : Int) + 1 := by
          rw [hvI, hce]
          push_cast
          ring
        rw [f1, if_pos e]
        omega
  · have hre : row = m + 1 := by omega
    by_cases hc : col < m + 1
    · obtain ⟨_, _, f2, _, _, _⟩ := faceIndex_grid (m + 1) minX minY dX dY t h m col
        (by omega) hc
      refine ⟨2 * (m * (m + 1) + col), ?_, ?_⟩
      · have := cell_lt (m + 1) m col (by omega) hc
        omega
      · unfold cornerCount
        have e : (v : Int) = (m : Int) * (((m + 1 : Nat) : Int) + 1) + (col : Int)
            + ((m + 1 : Nat) : Int) + 1 := by
          rw [hvI, hre]
          push_cast
          ring
        rw [f2, if_pos e]
        omega
    · have hce : col = m + 1 := by omega
      obtain ⟨_, _, _, _, f4, _⟩ := faceIndex_grid (m + 1) minX minY dX dY t h m m
        (by omega) (by omega)
      refine ⟨2 * (m * (m + 1) + m) + 1, ?_, ?_⟩
      · have := cell_lt (m + 1) m m (by omega) (by omega)
        omega
      · unfold cornerCount
        have e : (v : Int) = (m : Int) * (((m + 1 : Nat) : Int) + 1) + (m : Int)
            + ((m + 1 : Nat) : Int) + 2 := by
          rw [hvI, hre, hce]
          push_cast
          ring
        rw [f4, if_pos e]
        omega

/-- The `z`-component accumulated for a vertex of a grid mesh. -/
theorem accumulated_z_grid (n : Nat) (minX minY dX dY : K) (t : Terrain K)
    (h : IsGrid n minX minY dX dY t) (v : Int) :
    (normalAt (accumulateNormals t) v).z =
      ∑ i in Finset.range t.numFaces, (cornerCount t i v : K) * (dX * dY / 2) := by
  obtain ⟨nd, _, hn⟩ := accumulateNormals_spec t (faceIndex_nonneg_grid n minX minY dX dY t h)
  rw [hn v, h.normal_zero v]
  simp only [zero_add]
  apply Finset.sum_congr rfl
  intro i hi
  rw [faceCross_z_grid n minX minY dX dY t h i (Finset.mem_range.mp hi)]

/-- The `z`-component accumulated for every vertex of a grid mesh with positive steps is
positive. -/
theorem accumulated_z_pos (n : Nat) (minX minY dX dY : K) (t : Terrain K)
    (h : IsGrid n minX minY dX dY t) (hn : 1 ≤ n) (hdX : 0 < dX) (hdY : 0 < dY) (v : Nat)
    (hv : v < t.numVertices) :
    0 < (normalAt (accumulateNormals t) (v : Int)).z := by
  rw [accumulated_z_grid n minX minY dX dY t h]
  obtain ⟨i0, hi0, hc⟩ := vertex_has_face n minX minY dX dY t h hn v hv
  have hW : 0 < dX * dY / 2 := by positivity
  have hterm : ∀ i ∈ Finset.range t.numFaces,
      0 ≤ (cornerCount t i (v : Int) : K) * (dX * dY / 2) := by
    intro i _
    exact mul_nonneg (Nat.cast_nonneg _) (le_of_lt hW)
  have hle := Finset.single_le_sum hterm (Finset.mem_range.mpr hi0)
  have hc1 : (1 : K) ≤ (cornerCount t i0 (v : Int) : K) := by exact_mod_cast hc
  have hpos : 0 < (cornerCount t i0 (v : Int) : K) * (dX * dY / 2) :=
    mul_pos (lt_of_lt_of_le one_pos hc1) hW
  exact lt_of_lt_of_le hpos hle

/-- In a grid mesh whose vertices all have `z = 0`, the cross product of every face has
`x = 0` and `y = 0`. -/
theorem faceCross_xy_flat (n : Nat) (minX minY dX dY : K) (t : Terrain K)
    (h : IsGrid n minX minY dX dY t)
    (hz : ∀ row col : Nat, row ≤ n → col ≤ n →
      (getVertex t ((row : Int) * ((n : Int) + 1) + (col : Int))).z = 0)
    (i : Nat) (hi : i < t.numFaces) :
    (faceCross t i).x = 0 ∧ (faceCross t i).y = 0 := by
  rw [h.numFaces_eq] at hi
  obtain ⟨a, b, e, ha, hb, he, rfl⟩ := face_decompose n i hi
  obtain ⟨f0, f1, f2, f3, f4, f5⟩ := faceIndex_grid n minX minY dX dY t h a b ha hb
  have e1 : (a : Int) * ((n : Int) + 1) + (b : Int) + 1
      = (a : Int) * ((n : Int) + 1) + ((b + 1 : Nat) : Int) := by push_cast; ring
  have e2 : (a : Int) * ((n : Int) + 1) + (b : Int) + (n : Int) + 1
      = ((a + 1 : Nat) : Int) * ((n : Int) + 1) + (b : Int) := by push_cast; ring
  have e3 : (a : Int) * ((n : Int) + 1) + (b : Int) + (n : Int) + 2
      = ((a + 1 : Nat) : Int) * ((n : Int) + 1) + ((b + 1 : Nat) : Int) := by push_cast; ring
  have z00 := hz a b (by omega) (by omega)
  have z01 := hz a (b + 1) (by omega) (by omega)
  have z10 := hz (a + 1) b (by omega) (by omega)
  have z11 := hz (a + 1) (b + 1) (by omega) (by omega)
  rw [← e1] at z01
  rw [← e2] at z10
  rw [← e3] at z11
  have he2 : e = 0 ∨ e = 1 := by omega
  rcases he2 with he0 | he1
  · subst he0
    unfold faceCross
    rw [Nat.add_zero, f0, f1, f2]
    simp only [vec3.cross, vec3.sub]
    rw [z00, z01, z10]
    constructor <;> ring
  · subst he1
    unfold faceCross
    rw [f3, f4, f5]
    simp only [vec3.cross, vec3.sub]
    rw [z01, z10, z11]
    constructor <;> ring

/-- The `x`- and `y`-components accumulated for a vertex of a flat grid mesh are zero. -/
theorem accumulated_xy_flat (n : Nat) (minX minY dX dY : K) (t : Terrain K)
    (h : IsGrid n minX minY dX dY t)
    (hz : ∀ row col : Nat, row ≤ n → col ≤ n →
      (getVertex t ((row : Int) * ((n : Int) + 1) + (col : Int))).z = 0)
    (v : Int) :
    (normalAt (accumulateNormals t) v).x = 0 ∧ (normalAt (accumulateNormals t) v).y = 0 := by
  obtain ⟨nd, _, hn⟩ := accumulateNormals_spec t (faceIndex_nonneg_grid n minX minY dX dY t h)
  rw [hn v, h.normal_zero v]
  simp only [zero_add]
  constructor
  · apply Finset.sum_eq_zero
    intro i hi
    rw [(faceCross_xy_flat n minX minY dX dY t h hz i (Finset.mem_range.mp hi)).1]
    simp
  · apply Finset.sum_eq_zero
    intro i hi
    rw [(faceCross_xy_flat n minX minY dX dY t h hz i (Finset.mem_range.mp hi)).2]
    simp

/-- The face indices of a grid mesh address stored normals. -/
theorem faceIndex_range_grid (n : Nat) (minX minY dX dY : K) (t : Terrain K)
    (h : IsGrid n minX minY dX dY t) (i : Nat) (hi : i < t.numFaces) :
    (0 ≤ faceIndex t i 0 ∧ 3 * faceIndex t i 0 + 2 < (t.normalData.length : Int)) ∧
    (0 ≤ faceIndex t i 1 ∧ 3 * faceIndex t i 1 + 2 < (t.normalData.length : Int)) ∧
    (0 ≤ faceIndex t i 2 ∧ 3 * faceIndex t i 2 + 2 < (t.normalData.length : Int)) := by
  obtain ⟨n0, n1, n2⟩ := faceIndex_nonneg_grid n minX minY dX dY t h i hi
  rw [h.numFaces_eq] at hi
  obtain ⟨a, b, e, ha, hb, he, rfl⟩ := face_decompose n i hi
  obtain ⟨f0, f1, f2, f3, f4, f5⟩ := faceIndex_grid n minX minY dX dY t h a b ha hb
  have hlen : (t.normalData.length : Int) = 3 * (((n : Int) + 1) * ((n : Int) + 1)) := by
    rw [h.normalData_length, h.numVertices_eq]
    push_cast
    ring
  have hmul : (a : Int) * ((n : Int) + 1) ≤ ((n : Int) - 1) * ((n : Int) + 1) :=
    mul_le_mul_of_nonneg_right (by omega) (by omega)
  have hsq : ((n : Int) + 1) * ((n : Int) + 1)
      = ((n : Int) - 1) * ((n : Int) + 1) + 2 * n + 2 := by ring
  have he2 : e = 0 ∨ e = 1 := by omega
  rcases he2 with he0 | he1
  · subst he0
    rw [Nat.add_zero] at n0 n1 n2 ⊢
    refine ⟨⟨n0, ?_⟩, ⟨n1, ?_⟩, ⟨n2, ?_⟩⟩
    · rw [f0, hlen]; omega
    · rw [f1, hlen]; omega
    · rw [f2, hlen]; omega
  · subst he1
    refine ⟨⟨n0, ?_⟩, ⟨n1, ?_⟩, ⟨n2, ?_⟩⟩
    · rw [f3, hlen]; omega
    · rw [f4, hlen]; omega
    · rw [f5, hlen]; omega

/-- Method `calculateNormals()` on a grid mesh keeps `numVertices` triples in `normalData`. -/
theorem calculateNormals_length_grid (sqrt : K → K) (n : Nat) (minX minY dX dY : K)
    (t : Terrain K) (h : IsGrid n minX minY dX dY t) :
    (calculateNormals sqrt t).normalData.length = 3 * (calculateNormals sqrt t).numVertices := by
  obtain ⟨⟨nd, hcalc⟩, _⟩ := calculateNormals_spec sqrt t (faceIndex_nonneg_grid n _ _ _ _ _ h)
  have hnv : (calculateNormals sqrt t).numVertices = t.numVertices := by rw [hcalc]
  obtain ⟨nd', hacc, _⟩ := accumulateNormals_spec t (faceIndex_nonneg_grid n _ _ _ _ _ h)
  have hl1 := accumulateNormals_length t (faceIndex_range_grid n _ _ _ _ t h)
  have hv1 : (accumulateNormals t).numVertices = t.numVertices := by rw [hacc]
  have hl2 := normalizeNormals_length sqrt (accumulateNormals t)
    (by rw [hv1, hl1, h.normalData_length])
  rw [hnv]
  unfold calculateNormals
  rw [hl2, hl1, h.normalData_length]

end Terrain

/-! ## Normalization over the reals -/

/-- A vector with a positive `z`-component is normalized to Euclidean length 1. -/
theorem normalize_unit (a : Vec3 ℝ) (hz : 0 < a.z) :
    Real.sqrt ((vec3.normalize Real.sqrt a).x ^ 2 + (vec3.normalize Real.sqrt a).y ^ 2 +
      (vec3.normalize Real.sqrt a).z ^ 2) = 1 := by
  have hlen : 0 < a.x * a.x + a.y * a.y + a.z * a.z := by
    have h1 : 0 ≤ a.x * a.x := mul_self_nonneg _
    have h2 : 0 ≤ a.y * a.y := mul_self_nonneg _
    have h3 : 0 < a.z * a.z := mul_pos hz hz
    linarith
  have hs : 0 < Real.sqrt (a.x * a.x + a.y * a.y + a.z * a.z) := Real.sqrt_pos.mpr hlen
  have hsq : Real.sqrt (a.x * a.x + a.y * a.y + a.z * a.z) ^ 2
      = a.x * a.x + a.y * a.y + a.z * a.z := Real.sq_sqrt (le_of_lt hlen)
  unfold vec3.normalize
  simp only [gt_iff_lt, hlen, if_true]
  have key : (a.x * (1 / Real.sqrt (a.x * a.x + a.y * a.y + a.z * a.z))) ^ 2 +
      (a.y * (1 / Real.sqrt (a.x * a.x + a.y * a.y + a.z * a.z))) ^ 2 +
      (a.z * (1 / Real.sqrt (a.x * a.x + a.y * a.y + a.z * a.z))) ^ 2 = 1 := by
    have hne : Real.sqrt (a.x * a.x + a.y * a.y + a.z * a.z) ≠ 0 := ne_of_gt hs
    field_simp
    ring
  rw [key, Real.sqrt_one]

/-- A vector `(0, 0, z)` with `z > 0` is normalized to `(0, 0, 1)`. -/
theorem normalize_up (z : ℝ) (hz : 0 < z) :
    vec3.normalize Real.sqrt ⟨0, 0, z⟩ = ⟨0, 0, 1⟩ := by
  have hlen : 0 < (0 : ℝ) * 0 + 0 * 0 + z * z := by
    have h3 : 0 < z * z := mul_pos hz hz
    linarith
  unfold vec3.normalize
  simp only [gt_iff_lt, hlen, if_true]
  have hs : Real.sqrt (0 * 0 + 0 * 0 + z * z) = z := by
    rw [show (0 : ℝ) * 0 + 0 * 0 + z * z = z * z by ring]
    exact Real.sqrt_mul_self (le_of_lt hz)
  rw [hs]
  have hne : z ≠ 0 := ne_of_gt hz
  congr 1
  · ring
  · ring
  · field_simp

namespace Terrain

variable {K : Type} [LinearOrderedField K]

/-! ## The constructed mesh -/

/-- The mesh handed to `calculateNormals()` by the constructor is a grid mesh. -/
theorem isGrid_sculpted (draws : Nat → FaultDraw K) (n : Nat) (minX maxX minY maxY : K) :
    IsGrid n minX minY ((maxX - minX) / (n : K)) ((maxY - minY) / (n : K))
      (shapeTerrain draws
        (generateLines (generateTriangles (allocate (n : Int) minX maxX minY maxY)))) :=
  isGrid_shapeTerrain draws n _ _ _ _ _
    (isGrid_generateLines n _ _ _ _ _ (isGrid_generateTriangles n minX maxX minY maxY))

/-- Claim C3: for every integer `div ≥ 1`, every rectangle with `minX < maxX` and
`minY < maxY` and every outcome of the random draws, the constructor completes with
`(div+1)^2` vertices and as many stored normals, the normal accumulated for every vertex is
not the zero vector, and the normal stored for every vertex has Euclidean length exactly 1
over the reals. -/
theorem constructor_unit_normals (draws : Nat → FaultDraw ℝ) (div : Int) (hdiv : 1 ≤ div)
    (minX maxX minY maxY : ℝ) (hx : minX < maxX) (hy : minY < maxY) :
    ∃ t : Terrain ℝ,
      constructor Real.sqrt draws div minX maxX minY maxY = Except.ok t ∧
      (t.numVertices : Int) = (div + 1) ^ 2 ∧
      t.normalData.length = 3 * t.numVertices ∧
      ∀ v : Nat, v < t.numVertices →
        normalAt (accumulateNormals (shapeTerrain draws
          (generateLines (generateTriangles (allocate div minX maxX minY maxY))))) (v : Int)
          ≠ ⟨0, 0, 0⟩ ∧
        Real.sqrt ((normalAt t (v : Int)).x ^ 2 + (normalAt t (v : Int)).y ^ 2 +
          (normalAt t (v : Int)).z ^ 2) = 1 := by
  obtain ⟨n, rfl⟩ := Int.eq_ofNat_of_zero_le (by omega : (0 : Int) ≤ div)
  have hn : 1 ≤ n := by omega
  have hnK : (0 : ℝ) < (n : ℝ) := by exact_mod_cast hn
  have hdX : 0 < (maxX - minX) / (n : ℝ) := div_pos (sub_pos.mpr hx) hnK
  have hdY : 0 < (maxY - minY) / (n : ℝ) := div_pos (sub_pos.mpr hy) hnK
  have hG := isGrid_sculpted draws n minX maxX minY maxY
  have hc : constructor Real.sqrt draws (n : Int) minX maxX minY maxY =
      Except.ok (calculateNormals Real.sqrt (shapeTerrain draws
        (generateLines (generateTriangles (allocate (n : Int) minX maxX minY maxY))))) := rfl
  rw [hc]
  generalize shapeTerrain draws
    (generateLines (generateTriangles (allocate (n : Int) minX maxX minY maxY))) = S at hG ⊢
  obtain ⟨⟨nd, hcalc⟩, hnorm⟩ := calculateNormals_spec Real.sqrt S
    (faceIndex_nonneg_grid n _ _ _ _ _ hG)
  have hnv : (calculateNormals Real.sqrt S).numVertices = S.numVertices := by rw [hcalc]
  refine ⟨calculateNormals Real.sqrt S, rfl, ?_, ?_, ?_⟩
  · rw [hnv, hG.numVertices_eq]
    push_cast
    ring
  · exact calculateNormals_length_grid Real.sqrt n _ _ _ _ S hG
  · intro v hv
    rw [hnv] at hv
    have hz := accumulated_z_pos n _ _ _ _ _ hG hn hdX hdY v hv
    refine ⟨?_, ?_⟩
    · intro h0
      rw [h0] at hz
      exact lt_irrefl _ hz
    · rw [hnorm v hv]
      exact normalize_unit _ hz

theorem constructor_unit_normals_witness :
    (1 : Int) ≤ 1 ∧ (-1 : ℝ) < 1 ∧ (-1 : ℝ) < 1 ∧
    ∃ t : Terrain ℝ,
      constructor Real.sqrt (fun _ => ⟨1 / 2, 1 / 2, 1, 0⟩) 1 (-1) 1 (-1) 1 = Except.ok t ∧
      (t.numVertices : Int) = (1 + 1) ^ 2 ∧
      t.normalData.length = 3 * t.numVertices ∧
      ∀ v : Nat, v < t.numVertices →
        normalAt (accumulateNormals (shapeTerrain (fun _ => ⟨1 / 2, 1 / 2, 1, 0⟩)
          (generateLines (generateTriangles (allocate 1 (-1 : ℝ) 1 (-1) 1))))) (v : Int)
          ≠ ⟨0, 0, 0⟩ ∧
        Real.sqrt ((normalAt t (v : Int)).x ^ 2 + (normalAt t (v : Int)).y ^ 2 +
          (normalAt t (v : Int)).z ^ 2) = 1 :=
  ⟨by decide, by norm_num, by norm_num,
    constructor_unit_normals (fun _ => ⟨1 / 2, 1 / 2, 1, 0⟩) 1 (by decide) (-1) 1 (-1) 1
      (by norm_num) (by norm_num)⟩

/-- The normal stored by `calculateNormals()` for a vertex of a flat grid mesh with positive
steps is `(0, 0, 1)`. -/
theorem flat_grid_normal (n : Nat) (hn : 1 ≤ n) (minX minY dX dY : ℝ) (hdX : 0 < dX)
    (hdY : 0 < dY) (t : Terrain ℝ) (h : IsGrid n minX minY dX dY t)
    (hz : ∀ row col : Nat, row ≤ n → col ≤ n →
      (getVertex t ((row : Int) * ((n : Int) + 1) + (col : Int))).z = 0)
    (v : Nat) (hv : v < t.numVertices) :
    normalAt (calculateNormals Real.sqrt t) (v : Int) = ⟨0, 0, 1⟩ := by
  obtain ⟨_, hnorm⟩ := calculateNormals_spec Real.sqrt t (faceIndex_nonneg_grid n _ _ _ _ _ h)
  obtain ⟨hx0, hy0⟩ := accumulated_xy_flat n _ _ _ _ t h hz (v : Int)
  have hzpos := accumulated_z_pos n _ _ _ _ t h hn hdX hdY v hv
  rw [hnorm v hv]
  generalize normalAt (accumulateNormals t) (v : Int) = w at hx0 hy0 hzpos
  cases w with
  | mk x y z =>
    simp only at hx0 hy0 hzpos
    subst hx0 hy0
    exact normalize_up z hzpos

theorem calculateNormals_numVertices (sqrt : K → K) (t : Terrain K) (n : Nat)
    (minX minY dX dY : K) (h : IsGrid n minX minY dX dY t) :
    (calculateNormals sqrt t).numVertices = t.numVertices := by
  obtain ⟨⟨nd, hcalc⟩, _⟩ := calculateNormals_spec sqrt t (faceIndex_nonneg_grid n _ _ _ _ _ h)
  rw [hcalc]

/-- Claim C10: for every integer `div ≥ 1` and every rectangle with `minX < maxX` and
`minY < maxY`, grid generation followed by normal calculation with no fault iteration
(with or without the edge list in between) stores the normal `(0, 0, 1)` at every one of the
`(div+1)^2` vertices; for `div = 1` and the rectangle `(-1, 1, -1, 1)` the mesh has exactly
the 4 vertices `(-1,-1,0)`, `(1,-1,0)`, `(-1,1,0)`, `(1,1,0)` and 2 faces. -/
theorem flat_grid_normals (div : Int) (hdiv : 1 ≤ div) (minX maxX minY maxY : ℝ)
    (hx : minX < maxX) (hy : minY < maxY) :
    (∀ v : Nat,
      v < (calculateNormals Real.sqrt (generateTriangles (allocate div minX maxX minY maxY))).numVertices →
      normalAt (calculateNormals Real.sqrt (generateTriangles (allocate div minX maxX minY maxY)))
        (v : Int) = ⟨0, 0, 1⟩) ∧
    (∀ v : Nat,
      v < (calculateNormals Real.sqrt
        (generateLines (generateTriangles (allocate div minX maxX minY maxY)))).numVertices →
      normalAt (calculateNormals Real.sqrt
        (generateLines (generateTriangles (allocate div minX maxX minY maxY)))) (v : Int)
        = ⟨0, 0, 1⟩) ∧
    ((calculateNormals Real.sqrt (generateTriangles (allocate div minX maxX minY maxY))).numVertices
      : Int) = (div + 1) ^ 2 ∧
    ((calculateNormals Real.sqrt
      (generateLines (generateTriangles (allocate div minX maxX minY maxY)))).numVertices : Int)
      = (div + 1) ^ 2 ∧
    (generateTriangles (allocate 1 (-1 : ℝ) 1 (-1) 1)).positionData
      = [-1, -1, 0, 1, -1, 0, -1, 1, 0, 1, 1, 0] ∧
    (generateTriangles (allocate 1 (-1 : ℝ) 1 (-1) 1)).numVertices = 4 ∧
    (generateTriangles (allocate 1 (-1 : ℝ) 1 (-1) 1)).numFaces = 2 ∧
    (generateTriangles (allocate 1 (-1 : ℝ) 1 (-1) 1)).faceData = [0, 1, 2, 1, 3, 2] := by
  obtain ⟨n, rfl⟩ := Int.eq_ofNat_of_zero_le (by omega : (0 : Int) ≤ div)
  have hn : 1 ≤ n := by omega
  have hnK : (0 : ℝ) < (n : ℝ) := by exact_mod_cast hn
  have hdX : 0 < (maxX - minX) / (n : ℝ) := div_pos (sub_pos.mpr hx) hnK
  have hdY : 0 < (maxY - minY) / (n : ℝ) := div_pos (sub_pos.mpr hy) hnK
  have hG := isGrid_generateTriangles n minX maxX minY maxY
  have hL := isGrid_generateLines n _ _ _ _ _ hG
  have hzG : ∀ row col : Nat, row ≤ n → col ≤ n →
      (getVertex (generateTriangles (allocate (n : Int) minX maxX minY maxY))
        ((row : Int) * ((n : Int) + 1) + (col : Int))).z = 0 := by
    intro row col hrow hcol
    rw [getVertex_generateTriangles n minX maxX minY maxY row col hrow hcol]
  have hzL : ∀ row col : Nat, row ≤ n → col ≤ n →
      (getVertex (generateLines (generateTriangles (allocate (n : Int) minX maxX minY maxY)))
        ((row : Int) * ((n : Int) + 1) + (col : Int))).z = 0 := by
    intro row col hrow hcol
    rw [generateLines_eq]
    exact hzG row col hrow hcol
  have hnvG := calculateNormals_numVertices Real.sqrt _ n _ _ _ _ hG
  have hnvL := calculateNormals_numVertices Real.sqrt _ n _ _ _ _ hL
  have h1 : ((1 : Int) + 1).toNat = 2 := rfl
  refine ⟨?_, ?_, ?_, ?_, ?_, ?_, ?_, ?_⟩
  · intro v hv
    rw [hnvG] at hv
    exact flat_grid_normal n hn _ _ _ _ hdX hdY _ hG hzG v hv
  · intro v hv
    rw [hnvL] at hv
    exact flat_grid_normal n hn _ _ _ _ hdX hdY _ hL hzL v hv
  · rw [hnvG, hG.numVertices_eq]
    push_cast
    ring
  · rw [hnvL, hL.numVertices_eq]
    push_cast
    ring
  · rw [generateTriangles_allocate]
    simp only [gridPositions, h1]
    norm_num [List.range_succ, List.flatMap]
  · rw [generateTriangles_allocate]
    rfl
  · rw [generateTriangles_allocate]
    rfl
  · rw [generateTriangles_allocate]
    rfl

theorem flat_grid_normals_witness :
    (1 : Int) ≤ 1 ∧ (-1 : ℝ) < 1 ∧ (-1 : ℝ) < 1 ∧
    ((∀ v : Nat,
      v < (calculateNormals Real.sqrt (generateTriangles (allocate 1 (-1 : ℝ) 1 (-1) 1))).numVertices →
      normalAt (calculateNormals Real.sqrt (generateTriangles (allocate 1 (-1 : ℝ) 1 (-1) 1)))
        (v : Int) = ⟨0, 0, 1⟩) ∧
    (∀ v : Nat,
      v < (calculateNormals Real.sqrt
        (generateLines (generateTriangles (allocate 1 (-1 : ℝ) 1 (-1) 1)))).numVertices →
      normalAt (calculateNormals Real.sqrt
        (generateLines (generateTriangles (allocate 1 (-1 : ℝ) 1 (-1) 1)))) (v : Int)
        = ⟨0, 0, 1⟩) ∧
    ((calculateNormals Real.sqrt (generateTriangles (allocate 1 (-1 : ℝ) 1 (-1) 1))).numVertices
      : Int) = (1 + 1) ^ 2 ∧
    ((calculateNormals Real.sqrt
      (generateLines (generateTriangles (allocate 1 (-1 : ℝ) 1 (-1) 1)))).numVertices : Int)
      = (1 + 1) ^ 2 ∧
    (generateTriangles (allocate 1 (-1 : ℝ) 1 (-1) 1)).positionData
      = [-1, -1, 0, 1, -1, 0, -1, 1, 0, 1, 1, 0] ∧
    (generateTriangles (allocate 1 (-1 : ℝ) 1 (-1) 1)).numVertices = 4 ∧
    (generateTriangles (allocate 1 (-1 : ℝ) 1 (-1) 1)).numFaces = 2 ∧
    (generateTriangles (allocate 1 (-1 : ℝ) 1 (-1) 1)).faceData = [0, 1, 2, 1, 3, 2]) :=
  ⟨by decide, by norm_num, by norm_num,
    flat_grid_normals 1 (by decide) (-1) 1 (-1) 1 (by norm_num) (by norm_num)⟩

/-! ## Construction never fails -/

theorem generateTriangles_negative (div : Int) (hdiv : div < 0) (minX maxX minY maxY : K) :
    generateTriangles (allocate div minX maxX minY maxY) = allocate div minX maxX minY maxY := by
  have h1 : (div + 1).toNat = 0 := by omega
  have h2 : div.toNat = 0 := by omega
  rw [generateTriangles_allocate, h1]
  simp [gridPositions, gridZeros, gridFaces, h2, allocate]

theorem generateLines_allocate (div : Int) (minX maxX minY maxY : K) :
    generateLines (allocate div minX maxX minY maxY) = allocate div minX maxX minY maxY := by
  rw [generateLines_eq]
  simp [allocate]

theorem calculateNormals_empty (sqrt : K → K) (t : Terrain K) (hf : t.numFaces = 0)
    (hv : t.numVertices = 0) : calculateNormals sqrt t = t := by
  have ha : accumulateNormals t = t := by
    unfold accumulateNormals
    rw [hf, forLoop_zero]
  unfold calculateNormals
  rw [ha]
  unfold normalizeNormals
  rw [hv, forLoop_zero]

/-- With a negative `div` no loop of the constructor runs: the result is the freshly
allocated object. -/
theorem constructor_negative (sqrt : K → K) (draws : Nat → FaultDraw K) (div : Int)
    (hdiv : div < 0) (minX maxX minY maxY : K) :
    constructor sqrt draws div minX maxX minY maxY
      = Except.ok (allocate div minX maxX minY maxY) := by
  have hc : constructor sqrt draws div minX maxX minY maxY =
      Except.ok (calculateNormals sqrt (shapeTerrain draws
        (generateLines (generateTriangles (allocate div minX maxX minY maxY))))) := rfl
  rw [hc, generateTriangles_negative div hdiv, generateLines_allocate]
  obtain ⟨p, hs, hlen, _⟩ := shapeTerrain_spec draws (allocate div minX maxX minY maxY)
  have hp : p = [] := List.length_eq_zero.mp (hlen (Nat.le_refl _))
  rw [hs, hp, calculateNormals_empty sqrt _ rfl rfl]
  rfl

/-- Claim C9 as stated fails: with `div = -1` the constructor does not raise
`InvalidArgument`; it completes and returns an object with four empty buffers. -/
theorem constructor_negative_div_completes :
    (-1 : Int) ≤ 0 ∧
    constructor (fun x : ℚ => x) (fun _ => ⟨1 / 2, 1 / 2, 1, 0⟩) (-1) (-1) 1 (-1) 1
      = Except.ok (allocate (-1) (-1) 1 (-1) 1) ∧
    constructor (fun x : ℚ => x) (fun _ => ⟨1 / 2, 1 / 2, 1, 0⟩) (-1) (-1) 1 (-1) 1
      ≠ Except.error TerrainError.InvalidArgument := by
  have h : constructor (fun x : ℚ => x) (fun _ => ⟨1 / 2, 1 / 2, 1, 0⟩) (-1) (-1) 1 (-1) 1
      = Except.ok (allocate (-1) (-1) 1 (-1) 1) :=
    constructor_negative _ _ (-1) (by decide) (-1) 1 (-1) 1
  refine ⟨by decide, h, ?_⟩
  rw [h]
  intro hne
  cases hne

/-- Claim C9, amended: the constructor never raises `InvalidArgument`; for every integer
`div` and every rectangle it runs its four steps and completes, with `(div+1)^2` vertices when
`div ≥ 1` and with four empty buffers when `div < 0`. -/
theorem constructor_completes (sqrt : K → K) (draws : Nat → FaultDraw K) (div : Int)
    (minX maxX minY maxY : K) :
    constructor sqrt draws div minX maxX minY maxY ≠ Except.error TerrainError.InvalidArgument ∧
    ∃ t : Terrain K, constructor sqrt draws div minX maxX minY maxY = Except.ok t ∧
      (1 ≤ div → (t.numVertices : Int) = (div + 1) ^ 2) ∧
      (div < 0 → t.positionData = [] ∧ t.normalData = [] ∧ t.faceData = [] ∧
        t.edgeData = [] ∧ t.numVertices = 0) := by
  have hc : constructor sqrt draws div minX maxX minY maxY =
      Except.ok (calculateNormals sqrt (shapeTerrain draws
        (generateLines (generateTriangles (allocate div minX maxX minY maxY))))) := rfl
  refine ⟨?_, _, hc, ?_, ?_⟩
  · rw [hc]
    intro hne
    cases hne
  · intro hdiv
    obtain ⟨n, rfl⟩ := Int.eq_ofNat_of_zero_le (by omega : (0 : Int) ≤ div)
    have hG := isGrid_sculpted draws n minX maxX minY maxY
    rw [calculateNormals_numVertices sqrt _ n _ _ _ _ hG, hG.numVertices_eq]
    push_cast
    ring
  · intro hdiv
    have hneg := constructor_negative sqrt draws div hdiv minX maxX minY maxY
    rw [hc] at hneg
    rw [Except.ok.inj hneg]
    exact ⟨rfl, rfl, rfl, rfl, rfl⟩

theorem constructor_completes_witness :
    constructor (fun x : ℚ => x) (fun _ => ⟨1 / 2, 1 / 2, 1, 0⟩) (-2) (-1) 1 (-1) 1
      ≠ Except.error TerrainError.InvalidArgument ∧
    ∃ t : Terrain ℚ,
      constructor (fun x : ℚ => x) (fun _ => ⟨1 / 2, 1 / 2, 1, 0⟩) (-2) (-1) 1 (-1) 1
        = Except.ok t ∧
      ((1 : Int) ≤ -2 → (t.numVertices : Int) = (-2 + 1) ^ 2) ∧
      ((-2 : Int) < 0 → t.positionData = [] ∧ t.normalData = [] ∧ t.faceData = [] ∧
        t.edgeData = [] ∧ t.numVertices = 0) :=
  constructor_completes (fun x : ℚ => x) (fun _ => ⟨1 / 2, 1 / 2, 1, 0⟩) (-2) (-1) 1 (-1) 1

/-! ## Vertex round trip -/

/-- Claim C11: for every vertex index `i ≥ 0`, every triple `v` and every position buffer,
`getVertex(out, i)` after `setVertex(v, i)` yields `out = v`, and `setVertex(v, i)` leaves
what `getVertex(out, j)` returns unchanged for every `j ≠ i`.  The method `getVertex` only
reads `positionData`: it is a function of the state and yields no new state. -/
theorem setVertex_getVertex_roundtrip (t : Terrain K) (v : Vec3 K) (i : Int) (hi : 0 ≤ i) :
    getVertex (setVertex t v i) i = v ∧
    ∀ j : Int, j ≠ i → getVertex (setVertex t v i) j = getVertex t j := by
  refine ⟨?_, ?_⟩
  · rw [getVertex_setVertex t v i i hi, if_pos rfl]
  · intro j hj
    rw [getVertex_setVertex t v i j hi, if_neg hj]

theorem setVertex_getVertex_roundtrip_witness :
    (0 : Int) ≤ 7 ∧
    (getVertex (setVertex unitCell ⟨5, 6, 7⟩ 7) 7 = ⟨5, 6, 7⟩ ∧
    ∀ j : Int, j ≠ 7 → getVertex (setVertex unitCell ⟨5, 6, 7⟩ 7) j = getVertex unitCell j) :=
  ⟨by decide, setVertex_getVertex_roundtrip unitCell ⟨5, 6, 7⟩ 7 (by decide)⟩

/-! ## The two faces of a cell -/

/-- Claim C12: for every integer `div ≥ 1` and every cell `(i, j)` with `0 ≤ i, j < div`,
writing `a = i*(div+1)+j`, face `2*(i*div+j)` is `(a, a+1, a+div+1)` and face
`2*(i*div+j)+1` is `(a+1, a+div+2, a+div+1)`; both hold the diagonal `a+1`, `a+div+1`; the
indices of the two faces are exactly the four corner vertices of the cell; there are
`2*div^2` faces and the three indices of every face are pairwise distinct. -/
theorem generateTriangles_cell_faces (div : Int) (hdiv : 1 ≤ div) (minX maxX minY maxY : K)
    (g : Terrain K) (hg : g = generateTriangles (allocate div minX maxX minY maxY))
    (i j : Nat) (hi : (i : Int) < div) (hj : (j : Int) < div) :
    faceIndex g (2 * (i * div.toNat + j)) 0 = (i : Int) * (div + 1) + (j : Int) ∧
    faceIndex g (2 * (i * div.toNat + j)) 1 = (i : Int) * (div + 1) + (j : Int) + 1 ∧
    faceIndex g (2 * (i * div.toNat + j)) 2 = (i : Int) * (div + 1) + (j : Int) + div + 1 ∧
    faceIndex g (2 * (i * div.toNat + j) + 1) 0 = (i : Int) * (div + 1) + (j : Int) + 1 ∧
    faceIndex g (2 * (i * div.toNat + j) + 1) 1 = (i : Int) * (div + 1) + (j : Int) + div + 2 ∧
    faceIndex g (2 * (i * div.toNat + j) + 1) 2 = (i : Int) * (div + 1) + (j : Int) + div + 1 ∧
    2 * (i * div.toNat + j) + 1 < g.numFaces ∧
    g.numFaces = 2 * (div.toNat * div.toNat) ∧
    (∀ k : Int,
      (k = faceIndex g (2 * (i * div.toNat + j)) 0 ∨ k = faceIndex g (2 * (i * div.toNat + j)) 1 ∨
        k = faceIndex g (2 * (i * div.toNat + j)) 2 ∨ k = faceIndex g (2 * (i * div.toNat + j) + 1) 0 ∨
        k = faceIndex g (2 * (i * div.toNat + j) + 1) 1 ∨ k = faceIndex g (2 * (i * div.toNat + j) + 1) 2) ↔
      (k = (i : Int) * (div + 1) + (j : Int) ∨
        k = (i : Int) * (div + 1) + ((j : Int) + 1) ∨
        k = ((i : Int) + 1) * (div + 1) + (j : Int) ∨
        k = ((i : Int) + 1) * (div + 1) + ((j : Int) + 1))) ∧
    (∀ f : Nat, f < g.numFaces →
      faceIndex g f 0 ≠ faceIndex g f 1 ∧ faceIndex g f 1 ≠ faceIndex g f 2 ∧
      faceIndex g f 0 ≠ faceIndex g f 2) := by
  subst hg
  obtain ⟨n, rfl⟩ := Int.eq_ofNat_of_zero_le (by omega : (0 : Int) ≤ div)
  have hn : 1 ≤ n := by omega
  have hin : i < n := by omega
  have hjn : j < n := by omega
  have hG := isGrid_generateTriangles n minX maxX minY maxY
  obtain ⟨f0, f1, f2, f3, f4, f5⟩ := faceIndex_grid n _ _ _ _ _ hG i j hin hjn
  simp only [Int.toNat_ofNat]
  rw [f0, f1, f2, f3, f4, f5, hG.numFaces_eq]
  have hcell := cell_lt n i j hin hjn
  refine ⟨rfl, rfl, rfl, rfl, rfl, rfl, by omega, rfl, ?_, ?_⟩
  · intro k
    have e1 : ((i : Int) + 1) * ((n : Int) + 1) + (j : Int)
        = (i : Int) * ((n : Int) + 1) + (j : Int) + (n : Int) + 1 := by ring
    have e2 : ((i : Int) + 1) * ((n : Int) + 1) + ((j : Int) + 1)
        = (i : Int) * ((n : Int) + 1) + (j : Int) + (n : Int) + 2 := by ring
    rw [e1, e2]
    constructor
    · intro h
      rcases h with h | h | h | h | h | h <;> omega
    · intro h
      rcases h with h | h | h | h <;> omega
  · intro f hf
    obtain ⟨a, b, e, ha, hb, he, rfl⟩ := face_decompose n f hf
    obtain ⟨g0, g1, g2, g3, g4, g5⟩ := faceIndex_grid n _ _ _ _ _ hG a b ha hb
    have he2 : e = 0 ∨ e = 1 := by omega
    rcases he2 with he0 | he1
    · subst he0
      rw [Nat.add_zero, g0, g1, g2]
      refine ⟨?_, ?_, ?_⟩ <;> omega
    · subst he1
      rw [g3, g4, g5]
      refine ⟨?_, ?_, ?_⟩ <;> omega

theorem generateTriangles_cell_faces_witness :
    (1 : Int) ≤ 2 ∧ fourCells = generateTriangles (allocate 2 (-1 : ℚ) 1 (-1) 1) ∧
    ((1 : Nat) : Int) < 2 ∧ ((0 : Nat) : Int) < 2 ∧
    (faceIndex fourCells (2 * (1 * (2 : Int).toNat + 0)) 0 = (1 : Int) * (2 + 1) + (0 : Int) ∧
    faceIndex fourCells (2 * (1 * (2 : Int).toNat + 0)) 1 = (1 : Int) * (2 + 1) + (0 : Int) + 1 ∧
    faceIndex fourCells (2 * (1 * (2 : Int).toNat + 0)) 2 = (1 : Int) * (2 + 1) + (0 : Int) + 2 + 1 ∧
    faceIndex fourCells (2 * (1 * (2 : Int).toNat + 0) + 1) 0 = (1 : Int) * (2 + 1) + (0 : Int) + 1 ∧
    faceIndex fourCells (2 * (1 * (2 : Int).toNat + 0) + 1) 1 = (1 : Int) * (2 + 1) + (0 : Int) + 2 + 2 ∧
    faceIndex fourCells (2 * (1 * (2 : Int).toNat + 0) + 1) 2 = (1 : Int) * (2 + 1) + (0 : Int) + 2 + 1 ∧
    2 * (1 * (2 : Int).toNat + 0) + 1 < fourCells.numFaces ∧
    fourCells.numFaces = 2 * ((2 : Int).toNat * (2 : Int).toNat) ∧
    (∀ k : Int,
      (k = faceIndex fourCells (2 * (1 * (2 : Int).toNat + 0)) 0 ∨ k = faceIndex fourCells (2 * (1 * (2 : Int).toNat + 0)) 1 ∨
        k = faceIndex fourCells (2 * (1 * (2 : Int).toNat + 0)) 2 ∨ k = faceIndex fourCells (2 * (1 * (2 : Int).toNat + 0) + 1) 0 ∨
        k = faceIndex fourCells (2 * (1 * (2 : Int).toNat + 0) + 1) 1 ∨ k = faceIndex fourCells (2 * (1 * (2 : Int).toNat + 0) + 1) 2) ↔
      (k = (1 : Int) * (2 + 1) + (0 : Int) ∨
        k = (1 : Int) * (2 + 1) + ((0 : Int) + 1) ∨
        k = ((1 : Int) + 1) * (2 + 1) + (0 : Int) ∨
        k = ((1 : Int) + 1) * (2 + 1) + ((0 : Int) + 1))) ∧
    (∀ f : Nat, f < fourCells.numFaces →
      faceIndex fourCells f 0 ≠ faceIndex fourCells f 1 ∧ faceIndex fourCells f 1 ≠ faceIndex fourCells f 2 ∧
      faceIndex fourCells f 0 ≠ faceIndex fourCells f 2)) :=
  ⟨by decide, rfl, by decide, by decide,
    generateTriangles_cell_faces 2 (by decide) (-1) 1 (-1) 1 fourCells rfl 1 0 (by decide)
      (by decide)⟩

end Terrain

/-- A vector with a positive `z`-component keeps a positive `z`-component when normalized. -/
theorem normalize_z_pos (a : Vec3 ℝ) (hz : 0 < a.z) :
    0 < (vec3.normalize Real.sqrt a).z := by
  have hlen : 0 < a.x * a.x + a.y * a.y + a.z * a.z := by
    have h1 : 0 ≤ a.x * a.x := mul_self_nonneg _
    have h2 : 0 ≤ a.y * a.y := mul_self_nonneg _
    have h3 : 0 < a.z * a.z := mul_pos hz hz
    linarith
  have hs : 0 < Real.sqrt (a.x * a.x + a.y * a.y + a.z * a.z) := Real.sqrt_pos.mpr hlen
  unfold vec3.normalize
  simp only [gt_iff_lt, hlen, if_true]
  exact mul_pos hz (one_div_pos.mpr hs)

namespace Terrain

variable {K : Type} [LinearOrderedField K]

/-! ## Upward normals -/

/-- The normal stored by `calculateNormals()` for a vertex of a grid mesh with positive steps
has a positive `z`-component. -/
theorem stored_z_pos (n : Nat) (hn : 1 ≤ n) (minX minY dX dY : ℝ) (hdX : 0 < dX)
    (hdY : 0 < dY) (t : Terrain ℝ) (h : IsGrid n minX minY dX dY t) (v : Nat)
    (hv : v < t.numVertices) :
    0 < (normalAt (calculateNormals Real.sqrt t) (v : Int)).z := by
  obtain ⟨_, hnorm⟩ := calculateNormals_spec Real.sqrt t (faceIndex_nonneg_grid n _ _ _ _ _ h)
  rw [hnorm v hv]
  exact normalize_z_pos _ (accumulated_z_pos n _ _ _ _ t h hn hdX hdY v hv)

/-- Method `calculateNormals()` on a grid mesh changes `normalData` only. -/
theorem calculateNormals_frame (sqrt : K → K) (n : Nat) (minX minY dX dY : K)
    (t : Terrain K) (h : IsGrid n minX minY dX dY t) :
    ∃ nd : List K, calculateNormals sqrt t = { t with normalData := nd } :=
  (calculateNormals_spec sqrt t (faceIndex_nonneg_grid n _ _ _ _ _ h)).1

/-- Claim C17: for every integer `div ≥ 1` and every rectangle with `minX < maxX` and
`minY < maxY`, in every grid mesh on that lattice, whatever the elevations, and in the mesh
built by the constructor, whatever the random draws, the cross product computed by
`calculateNormals()` for every face has the `z`-component `(maxX-minX)*(maxY-minY)/div^2 > 0`,
and the normal stored for every vertex has a strictly positive `z`-component. -/
theorem grid_normals_point_up (draws : Nat → FaultDraw ℝ) (div : Int) (hdiv : 1 ≤ div)
    (minX maxX minY maxY : ℝ) (hx : minX < maxX) (hy : minY < maxY) :
    0 < (maxX - minX) * (maxY - minY) / (div : ℝ) ^ 2 ∧
    (∀ t : Terrain ℝ,
      IsGrid div.toNat minX minY ((maxX - minX) / (div : ℝ)) ((maxY - minY) / (div : ℝ)) t →
      (∀ i : Nat, i < t.numFaces →
        (faceCross t i).z = (maxX - minX) * (maxY - minY) / (div : ℝ) ^ 2) ∧
      ∀ v : Nat, v < t.numVertices →
        0 < (normalAt (calculateNormals Real.sqrt t) (v : Int)).z) ∧
    ∃ t : Terrain ℝ,
      constructor Real.sqrt draws div minX maxX minY maxY = Except.ok t ∧
      (t.numFaces : Int) = 2 * div ^ 2 ∧
      (t.numVertices : Int) = (div + 1) ^ 2 ∧
      (∀ i : Nat, i < t.numFaces →
        (faceCross t i).z = (maxX - minX) * (maxY - minY) / (div : ℝ) ^ 2) ∧
      ∀ v : Nat, v < t.numVertices → 0 < (normalAt t (v : Int)).z := by
  obtain ⟨n, rfl⟩ := Int.eq_ofNat_of_zero_le (by omega : (0 : Int) ≤ div)
  have hn : 1 ≤ n := by omega
  have hnK : (0 : ℝ) < (n : ℝ) := by exact_mod_cast hn
  have hdX : 0 < (maxX - minX) / (n : ℝ) := div_pos (sub_pos.mpr hx) hnK
  have hdY : 0 < (maxY - minY) / (n : ℝ) := div_pos (sub_pos.mpr hy) hnK
  have hprod : (maxX - minX) / (n : ℝ) * ((maxY - minY) / (n : ℝ))
      = (maxX - minX) * (maxY - minY) / (n : ℝ) ^ 2 := by
    rw [div_mul_div_comm, sq]
  simp only [Int.cast_natCast, Int.toNat_ofNat]
  have key : ∀ t : Terrain ℝ,
      IsGrid n minX minY ((maxX - minX) / (n : ℝ)) ((maxY - minY) / (n : ℝ)) t →
      (∀ i : Nat, i < t.numFaces →
        (faceCross t i).z = (maxX - minX) * (maxY - minY) / (n : ℝ) ^ 2) ∧
      ∀ v : Nat, v < t.numVertices →
        0 < (normalAt (calculateNormals Real.sqrt t) (v : Int)).z := by
    intro t ht
    refine ⟨?_, ?_⟩
    · intro i hi
      rw [faceCross_z_grid n _ _ _ _ t ht i hi, hprod]
    · intro v hv
      exact stored_z_pos n hn _ _ _ _ hdX hdY t ht v hv
  refine ⟨?_, key, ?_⟩
  · rw [← hprod]
    exact mul_pos hdX hdY
  · have hG := isGrid_sculpted draws n minX maxX minY maxY
    have hc : constructor Real.sqrt draws (n : Int) minX maxX minY maxY =
        Except.ok (calculateNormals Real.sqrt (shapeTerrain draws
          (generateLines (generateTriangles (allocate (n : Int) minX maxX minY maxY))))) := rfl
    rw [hc]
    generalize shapeTerrain draws
      (generateLines (generateTriangles (allocate (n : Int) minX maxX minY maxY))) = S at hG ⊢
    obtain ⟨nd, hcalc⟩ := calculateNormals_frame Real.sqrt n _ _ _ _ S hG
    obtain ⟨hcross, hstored⟩ := key S hG
    refine ⟨calculateNormals Real.sqrt S, rfl, ?_, ?_, ?_, ?_⟩
    · rw [hcalc]
      show ((S.numFaces : Nat) : Int) = _
      rw [hG.numFaces_eq]
      push_cast
      ring
    · rw [hcalc]
      show ((S.numVertices : Nat) : Int) = _
      rw [hG.numVertices_eq]
      push_cast
      ring
    · intro i hi
      rw [hcalc] at hi ⊢
      exact hcross i hi
    · intro v hv
      have hv' : v < S.numVertices := by
        rw [hcalc] at hv
        exact hv
      exact hstored v hv'

theorem grid_normals_point_up_witness :
    (1 : Int) ≤ 1 ∧ (-1 : ℝ) < 1 ∧ (-1 : ℝ) < 1 ∧
    (0 < ((1 : ℝ) - -1) * (1 - -1) / ((1 : Int) : ℝ) ^ 2 ∧
    (∀ t : Terrain ℝ,
      IsGrid (1 : Int).toNat (-1) (-1) (((1 : ℝ) - -1) / ((1 : Int) : ℝ))
        (((1 : ℝ) - -1) / ((1 : Int) : ℝ)) t →
      (∀ i : Nat, i < t.numFaces →
        (faceCross t i).z = ((1 : ℝ) - -1) * (1 - -1) / ((1 : Int) : ℝ) ^ 2) ∧
      ∀ v : Nat, v < t.numVertices →
        0 < (normalAt (calculateNormals Real.sqrt t) (v : Int)).z) ∧
    ∃ t : Terrain ℝ,
      constructor Real.sqrt (fun _ => ⟨1 / 2, 1 / 2, 1, 0⟩) 1 (-1) 1 (-1) 1 = Except.ok t ∧
      (t.numFaces : Int) = 2 * 1 ^ 2 ∧
      (t.numVertices : Int) = (1 + 1) ^ 2 ∧
      (∀ i : Nat, i < t.numFaces →
        (faceCross t i).z = ((1 : ℝ) - -1) * (1 - -1) / ((1 : Int) : ℝ) ^ 2) ∧
      ∀ v : Nat, v < t.numVertices → 0 < (normalAt t (v : Int)).z) :=
  ⟨by decide, by norm_num, by norm_num,
    grid_normals_point_up (fun _ => ⟨1 / 2, 1 / 2, 1, 0⟩) 1 (by decide) (-1) 1 (-1) 1
      (by norm_num) (by norm_num)⟩

/-- Replacing the elevation of one vertex of a grid mesh by any value leaves a grid mesh. -/
theorem isGrid_setElevation (n : Nat) (minX minY dX dY : K) (t : Terrain K)
    (h : IsGrid n minX minY dX dY t) (i : Nat) (hi : i < t.numVertices) (z : K) :
    IsGrid n minX minY dX dY
      (setVertex t { getVertex t (i : Int) with z := z } (i : Int)) := by
  have hset := getVertex_setVertex t { getVertex t (i : Int) with z := z } (i : Int)
  have hlen := length_setVertex t { getVertex t (i : Int) with z := z } i
    (by rw [h.positionData_length]; omega)
  refine ⟨h.numFaces_eq, h.numVertices_eq, h.faceData_eq, h.normal_zero, ?_, ?_, ?_,
    h.normalData_length⟩
  · intro row col hrow hcol
    rw [hset _ (by omega)]
    by_cases hj : (row : Int) * ((n : Int) + 1) + (col : Int) = (i : Int)
    · rw [if_pos hj, ← hj]
      exact h.vertex_x row col hrow hcol
    · rw [if_neg hj]
      exact h.vertex_x row col hrow hcol
  · intro row col hrow hcol
    rw [hset _ (by omega)]
    by_cases hj : (row : Int) * ((n : Int) + 1) + (col : Int) = (i : Int)
    · rw [if_pos hj, ← hj]
      exact h.vertex_y row col hrow hcol
    · rw [if_neg hj]
      exact h.vertex_y row col hrow hcol
  · rw [hlen]
    exact h.positionData_length

/-! ## Elevations after sculpting -/

theorem faultMove_z (point randomNormal : Vec3 K) (delta : K) (vertex : Vec3 K) :
    (faultMove point randomNormal delta vertex).z = vertex.z + delta ∨
    (faultMove point randomNormal delta vertex).z = vertex.z - delta := by
  unfold faultMove
  split
  · exact Or.inl rfl
  · exact Or.inr rfl

/-- With `h = 0` the loop body of `shapeTerrain()` leaves `delta` as it was. -/
theorem faultVertexStep_delta (point randomNormal : Vec3 K) (i : Nat) (s : Terrain K)
    (delta : K) : (faultVertexStep point randomNormal 0 i (s, delta)).2 = delta := by
  simp only [faultVertexStep, pow_zero, div_one]

/-- One fault iteration moves the elevation of every vertex by `0.010` up or down. -/
theorem faultIteration_z (point randomNormal : Vec3 K) (t : Terrain K) (v : Nat)
    (hv : v < t.numVertices) :
    (getVertex (faultIteration point randomNormal t) (v : Int)).z
        = (getVertex t (v : Int)).z + 0.010 ∨
    (getVertex (faultIteration point randomNormal t) (v : Int)).z
        = (getVertex t (v : Int)).z - 0.010 := by
  obtain ⟨p, _, _, hget⟩ := faultIteration_spec point randomNormal t
  rw [hget (v : Int), if_pos (by omega)]
  exact faultMove_z _ _ _ _

/-- Elevations after `k` iterations of the loop of `shapeTerrain()`: `m` moves up and
`k - m` moves down. -/
theorem shapeTerrain_loop_z (draws : Nat → FaultDraw K) (t : Terrain K) (k : Nat) :
    ∃ p : List K,
      forLoop k (fun it s =>
        let point : Vec3 K :=
          { (vec3.create : Vec3 K) with
            x := s.minX + (draws it).rx * (s.maxX - s.minX)
            y := s.minY + (draws it).ry * (s.maxY - s.minY) }
        let randomNormal : Vec3 K :=
          { (vec3.create : Vec3 K) with x := (draws it).nx, y := (draws it).ny }
        faultIteration point randomNormal s) t = { t with positionData := p } ∧
      ∀ v : Nat, v < t.numVertices → ∃ m : Nat, m ≤ k ∧
        (getVertex { t with positionData := p } (v : Int)).z
          = (getVertex t (v : Int)).z + 0.010 * (2 * (m : K) - (k : K)) := by
  induction k with
  | zero =>
    refine ⟨t.positionData, rfl, ?_⟩
    intro v _
    refine ⟨0, le_refl _, ?_⟩
    simp
  | succ k ih =>
    obtain ⟨p, hp, hz⟩ := ih
    rw [forLoop_succ, hp]
    obtain ⟨p', hp', _, _⟩ := faultIteration_spec
      { (vec3.create : Vec3 K) with
        x := t.minX + (draws k).rx * (t.maxX - t.minX)
        y := t.minY + (draws k).ry * (t.maxY - t.minY) }
      { (vec3.create : Vec3 K) with x := (draws k).nx, y := (draws k).ny }
      { t with positionData := p }
    refine ⟨p', hp', ?_⟩
    intro v hv
    obtain ⟨m, hm, hzm⟩ := hz v hv
    have hstep := faultIteration_z
      { (vec3.create : Vec3 K) with
        x := t.minX + (draws k).rx * (t.maxX - t.minX)
        y := t.minY + (draws k).ry * (t.maxY - t.minY) }
      { (vec3.create : Vec3 K) with x := (draws k).nx, y := (draws k).ny }
      { t with positionData := p } v hv
    rw [hp'] at hstep
    rcases hstep with hup | hdown
    · refine ⟨m + 1, by omega, ?_⟩
      have e : getVertex { t with positionData := p' } (v : Int)
          = getVertex { ({ t with positionData := p } : Terrain K) with positionData := p' }
            (v : Int) := rfl
      rw [e, hup, hzm]
      push_cast
      ring
    · refine ⟨m, by omega, ?_⟩
      have e : getVertex { t with positionData := p' } (v : Int)
          = getVertex { ({ t with positionData := p } : Terrain K) with positionData := p' }
            (v : Int) := rfl
      rw [e, hdown, hzm]
      push_cast
      ring

/-- Elevations after `shapeTerrain()`: every vertex has moved `m` times up and `100 - m`
times down by `0.010`. -/
theorem shapeTerrain_z (draws : Nat → FaultDraw K) (t : Terrain K) (v : Nat)
    (hv : v < t.numVertices) :
    ∃ m : Nat, m ≤ 100 ∧
      (getVertex (shapeTerrain draws t) (v : Int)).z
        = (getVertex t (v : Int)).z + 0.010 * (2 * (m : K) - 100) := by
  obtain ⟨p, hp, hz⟩ := shapeTerrain_loop_z draws t 100
  have hs : shapeTerrain draws t = { t with positionData := p } := hp
  obtain ⟨m, hm, hzm⟩ := hz v hv
  refine ⟨m, hm, ?_⟩
  rw [hs, hzm]
  push_cast
  ring

/-- Every vertex of a freshly generated grid has elevation `0`. -/
theorem getVertex_z_generateTriangles (n : Nat) (minX maxX minY maxY : K) (v : Nat)
    (hv : v < (n + 1) * (n + 1)) :
    (getVertex (generateTriangles (allocate (n : Int) minX maxX minY maxY)) (v : Int)).z = 0 := by
  have hr : v / (n + 1) ≤ n := Nat.le_of_lt_succ (Nat.div_lt_of_lt_mul hv)
  have hc : v % (n + 1) ≤ n := Nat.le_of_lt_succ (Nat.mod_lt _ (by omega))
  have hd : ((v : Nat) : Int) =
      ((v / (n + 1) : Nat) : Int) * ((n : Int) + 1) + ((v % (n + 1) : Nat) : Int) := by
    have h0 := Nat.div_add_mod v (n + 1)
    have h' : v = (v / (n + 1)) * (n + 1) + v % (n + 1) := by
      rw [Nat.mul_comm]; exact h0.symm
    exact_mod_cast h'
  rw [hd, getVertex_generateTriangles n minX maxX minY maxY _ _ hr hc]

/-- Claim C15: in `shapeTerrain()` the displacement is constant: the loop body leaves `delta`
unchanged (`h` stays `0`, the divisor is `2^0 = 1`), so every iteration moves every elevation
by exactly `0.01` up or down; hence, for every outcome of the random draws, every vertex
elevation of a constructed Terrain (`div ≥ 1`) is `0.01*(2m - 100)` for some integer `m` with
`0 ≤ m ≤ 100` and lies in `[-1, 1]`. -/
theorem constructor_elevations (sqrt : K → K) (draws : Nat → FaultDraw K) (div : Int)
    (hdiv : 1 ≤ div) (minX maxX minY maxY : K) :
    (∀ (point randomNormal : Vec3 K) (i : Nat) (s : Terrain K) (delta : K),
      (faultVertexStep point randomNormal 0 i (s, delta)).2 = delta) ∧
    (∀ (point randomNormal : Vec3 K) (s : Terrain K) (v : Nat), v < s.numVertices →
      (getVertex (faultIteration point randomNormal s) (v : Int)).z
          = (getVertex s (v : Int)).z + 0.01 ∨
      (getVertex (faultIteration point randomNormal s) (v : Int)).z
          = (getVertex s (v : Int)).z - 0.01) ∧
    ∃ t : Terrain K,
      constructor sqrt draws div minX maxX minY maxY = Except.ok t ∧
      (t.numVertices : Int) = (div + 1) ^ 2 ∧
      ∀ v : Nat, v < t.numVertices → ∃ m : Int, 0 ≤ m ∧ m ≤ 100 ∧
        (getVertex t (v : Int)).z = 0.01 * (2 * (m : K) - 100) ∧
        -1 ≤ (getVertex t (v : Int)).z ∧ (getVertex t (v : Int)).z ≤ 1 := by
  have h001 : (0.010 : K) = 0.01 := by norm_num
  refine ⟨?_, ?_, ?_⟩
  · intro point randomNormal i s delta
    exact faultVertexStep_delta point randomNormal i s delta
  · intro point randomNormal s v hv
    have h := faultIteration_z point randomNormal s v hv
    rw [h001] at h
    exact h
  · obtain ⟨n, rfl⟩ := Int.eq_ofNat_of_zero_le (by omega : (0 : Int) ≤ div)
    have hG := isGrid_generateTriangles n minX maxX minY maxY
    have hL := isGrid_generateLines n _ _ _ _ _ hG
    have hc : constructor sqrt draws (n : Int) minX maxX minY maxY =
        Except.ok (calculateNormals sqrt (shapeTerrain draws
          (generateLines (generateTriangles (allocate (n : Int) minX maxX minY maxY))))) := rfl
    have hz0 : ∀ v : Nat, v < (n + 1) * (n + 1) → (getVertex (generateLines
        (generateTriangles (allocate (n : Int) minX maxX minY maxY))) (v : Int)).z = 0 := by
      intro v hv
      rw [generateLines_eq]
      exact getVertex_z_generateTriangles n minX maxX minY maxY v hv
    rw [hc]
    generalize generateLines
      (generateTriangles (allocate (n : Int) minX maxX minY maxY)) = L at hL hz0 ⊢
    have hS := isGrid_shapeTerrain draws n _ _ _ _ _ hL
    have hzS := shapeTerrain_z draws L
    generalize shapeTerrain draws L = S at hS hzS ⊢
    obtain ⟨nd, hcalc⟩ := calculateNormals_frame sqrt n _ _ _ _ S hS
    have hnv : (calculateNormals sqrt S).numVertices = S.numVertices := by rw [hcalc]
    refine ⟨calculateNormals sqrt S, rfl, ?_, ?_⟩
    · rw [hnv, hS.numVertices_eq]
      push_cast
      ring
    · intro v hv
      rw [hnv, hS.numVertices_eq] at hv
      obtain ⟨m, hm, hz⟩ := hzS v (by rw [hL.numVertices_eq]; exact hv)
      have hT : (getVertex (calculateNormals sqrt S) (v : Int)).z
          = 0.01 * (2 * (m : K) - 100) := by
        have e : getVertex (calculateNormals sqrt S) (v : Int) = getVertex S (v : Int) := by
          rw [hcalc]
          rfl
        rw [e, hz, hz0 v hv, h001, zero_add]
      have hm0 : (0 : K) ≤ (m : K) := Nat.cast_nonneg m
      have hm1 : (m : K) ≤ 100 := by exact_mod_cast hm
      refine ⟨(m : Int), Int.natCast_nonneg m, by exact_mod_cast hm, ?_, ?_, ?_⟩
      · rw [hT]
        push_cast
        ring
      · rw [hT]
        norm_num
        linarith
      · rw [hT]
        norm_num
        linarith

theorem constructor_elevations_witness :
    (1 : Int) ≤ 2 ∧
    ((∀ (point randomNormal : Vec3 ℚ) (i : Nat) (s : Terrain ℚ) (delta : ℚ),
      (faultVertexStep point randomNormal 0 i (s, delta)).2 = delta) ∧
    (∀ (point randomNormal : Vec3 ℚ) (s : Terrain ℚ) (v : Nat), v < s.numVertices →
      (getVertex (faultIteration point randomNormal s) (v : Int)).z
          = (getVertex s (v : Int)).z + 0.01 ∨
      (getVertex (faultIteration point randomNormal s) (v : Int)).z
          = (getVertex s (v : Int)).z - 0.01) ∧
    ∃ t : Terrain ℚ,
      constructor (fun x : ℚ => x) (fun _ => ⟨1 / 2, 1 / 2, 1, 0⟩) 2 (-1) 1 (-1) 1 = Except.ok t ∧
      (t.numVertices : Int) = (2 + 1) ^ 2 ∧
      ∀ v : Nat, v < t.numVertices → ∃ m : Int, 0 ≤ m ∧ m ≤ 100 ∧
        (getVertex t (v : Int)).z = 0.01 * (2 * (m : ℚ) - 100) ∧
        -1 ≤ (getVertex t (v : Int)).z ∧ (getVertex t (v : Int)).z ≤ 1) :=
  ⟨by decide,
    constructor_elevations (fun x : ℚ => x) (fun _ => ⟨1 / 2, 1 / 2, 1, 0⟩) 2 (by decide)
      (-1) 1 (-1) 1⟩

/-! ## Meshes -/

theorem arrayGet_eq_zero {α : Type} [Zero α] (a : List α) (h : ∀ x ∈ a, x = 0) (k : Int) :
    arrayGet a k = 0 := by
  cases k with
  | negSucc j => rfl
  | ofNat j =>
    show a.getD j 0 = 0
    rw [List.getD_eq_getElem?_getD]
    cases hj : a[j]? with
    | none => rfl
    | some x =>
      rw [h x (List.getElem?_mem hj)]
      rfl

theorem arrayGet_mem {α : Type} [Zero α] (a : List α) (k : Int) (m : Nat) (h : k = (m : Int))
    (hm : m < a.length) : arrayGet a k ∈ a := by
  rw [arrayGet_of_eq a k m h, List.getD_eq_getElem _ _ hm]
  exact List.getElem_mem hm

/-- The indices of a face of a mesh are vertex ids. -/
theorem faceIndex_range_wf (t : Terrain K) (hwf : WellFormed t) (i : Nat)
    (hi : i < t.numFaces) (c : Nat) (hc : c < 3) :
    0 ≤ faceIndex t i (c : Int) ∧ faceIndex t i (c : Int) < (t.numVertices : Int) := by
  apply hwf.face_range
  unfold faceIndex
  apply arrayGet_mem _ _ (3 * i + c) (by push_cast; ring)
  rw [hwf.faceData_length]
  omega

theorem faceIndex_nonneg_wf (t : Terrain K) (hwf : WellFormed t) (i : Nat)
    (hi : i < t.numFaces) :
    0 ≤ faceIndex t i 0 ∧ 0 ≤ faceIndex t i 1 ∧ 0 ≤ faceIndex t i 2 :=
  ⟨(faceIndex_range_wf t hwf i hi 0 (by omega)).1, (faceIndex_range_wf t hwf i hi 1 (by omega)).1,
    (faceIndex_range_wf t hwf i hi 2 (by omega)).1⟩

theorem ite_sum_three (p0 p1 p2 : Prop) [Decidable p0] [Decidable p1] [Decidable p2] (c : K) :
    (if p0 then c else 0) + (if p1 then c else 0) + (if p2 then c else 0)
      = (((if p0 then 1 else 0) + (if p1 then 1 else 0) + (if p2 then 1 else 0) : Nat) : K)
        * c := by
  by_cases c0 : p0 <;> by_cases c1 : p1 <;> by_cases c2 : p2 <;>
    simp only [if_pos, if_neg, c0, c1, c2, not_false_eq_true] <;> push_cast <;> ring

theorem cornerCount_sum (t : Terrain K) (i : Nat) (v : Int) (c : K) :
    (∑ k in Finset.range 3, if faceIndex t i (k : Int) = v then c else 0)
      = (cornerCount t i v : K) * c := by
  have e0 : faceIndex t i ((0 : Nat) : Int) = faceIndex t i 0 := rfl
  have e1 : faceIndex t i ((1 : Nat) : Int) = faceIndex t i 1 := rfl
  have e2 : faceIndex t i ((2 : Nat) : Int) = faceIndex t i 2 := rfl
  have q : ∀ a : Int, (if a = v then (1 : Nat) else 0) = (if v = a then 1 else 0) :=
    fun a => if_congr eq_comm rfl rfl
  rw [Finset.sum_range_succ, Finset.sum_range_succ, Finset.sum_range_succ, Finset.sum_range_zero,
    e0, e1, e2, zero_add, ite_sum_three, q, q, q]
  rfl

/-- On a mesh whose stored normals are zero on entry, the first loop of `calculateNormals()`
accumulates for every vertex the sum of half cross products of the specification. -/
theorem accumulateNormals_eq_halfCrossSum (t : Terrain K) (hwf : WellFormed t)
    (hzero : ∀ x ∈ t.normalData, x = 0) (v : Int) :
    normalAt (accumulateNormals t) v = halfCrossSum t v := by
  obtain ⟨nd, _, hn⟩ := accumulateNormals_spec t (faceIndex_nonneg_wf t hwf)
  have h0 : normalAt t v = ⟨0, 0, 0⟩ := by
    unfold normalAt
    rw [arrayGet_eq_zero _ hzero, arrayGet_eq_zero _ hzero, arrayGet_eq_zero _ hzero]
  rw [hn v, h0]
  unfold halfCrossSum
  simp only [zero_add, cornerCount_sum]

/-- The normal stored by `calculateNormals()` for a vertex of a mesh is the normalized
accumulated normal. -/
theorem calculateNormals_stored (sqrt : K → K) (t : Terrain K) (hwf : WellFormed t) (v : Nat)
    (hv : v < t.numVertices) :
    normalAt (calculateNormals sqrt t) (v : Int) =
      vec3.normalize sqrt (normalAt (accumulateNormals t) (v : Int)) :=
  (calculateNormals_spec sqrt t (faceIndex_nonneg_wf t hwf)).2 v hv

end Terrain

/-- The zero vector is normalized to the zero vector, whatever the square root. -/
theorem normalize_zero {K : Type} [LinearOrderedField K] (sqrt : K → K) :
    vec3.normalize sqrt (⟨0, 0, 0⟩ : Vec3 K) = ⟨0, 0, 0⟩ := by
  unfold vec3.normalize
  simp

/-- Normalizing the zero vector performs no division. -/
theorem normalizeDivisor_zero {K : Type} [LinearOrderedField K] (sqrt : K → K) :
    vec3.normalizeDivisor sqrt (⟨0, 0, 0⟩ : Vec3 K) = none := by
  unfold vec3.normalizeDivisor
  simp

/-- Over the reals the division of `normalize` never has the divisor zero. -/
theorem normalizeDivisor_ne_zero (a : Vec3 ℝ) : vec3.normalizeDivisor Real.sqrt a ≠ some 0 := by
  unfold vec3.normalizeDivisor
  simp only []
  by_cases hlen : a.x * a.x + a.y * a.y + a.z * a.z > 0
  · rw [if_pos hlen]
    intro h
    have h0 : Real.sqrt (a.x * a.x + a.y * a.y + a.z * a.z) = 0 := Option.some.inj h
    exact absurd h0 (ne_of_gt (Real.sqrt_pos.mpr hlen))
  · rw [if_neg hlen]
    intro h
    cases h

/-- A vector that is not zero is normalized to itself divided by its length. -/
theorem normalize_div (a : Vec3 ℝ) (hlen : 0 < a.x * a.x + a.y * a.y + a.z * a.z) :
    vec3.normalize Real.sqrt a =
      ⟨a.x / Real.sqrt (a.x * a.x + a.y * a.y + a.z * a.z),
        a.y / Real.sqrt (a.x * a.x + a.y * a.y + a.z * a.z),
        a.z / Real.sqrt (a.x * a.x + a.y * a.y + a.z * a.z)⟩ := by
  unfold vec3.normalize
  simp only [gt_iff_lt, hlen, if_true, mul_one_div]

namespace Terrain

variable {K : Type} [LinearOrderedField K]

theorem mem_gridFaces_range (n : Nat) (k : Int) (hk : k ∈ gridFaces (n : Int)) :
    0 ≤ k ∧ k < (((n + 1) * (n + 1) : Nat) : Int) := by
  simp only [gridFaces, Int.toNat_ofNat, List.mem_flatMap, List.mem_range] at hk
  obtain ⟨i, hi, j, hj, hmem⟩ := hk
  push_cast
  have hi1 : (i : Int) + 1 ≤ n := by omega
  have hj1 : (j : Int) + 1 ≤ n := by omega
  have hi0 : (0 : Int) ≤ i := Int.natCast_nonneg i
  have hj0 : (0 : Int) ≤ j := Int.natCast_nonneg j
  have hmul : (i : Int) * ((n : Int) + 1) ≤ ((n : Int) - 1) * ((n : Int) + 1) :=
    mul_le_mul_of_nonneg_right (by omega) (by omega)
  have hmul0 : (0 : Int) ≤ (i : Int) * ((n : Int) + 1) := mul_nonneg hi0 (by omega)
  have hsq : ((n : Int) + 1) * ((n : Int) + 1)
      = ((n : Int) - 1) * ((n : Int) + 1) + 2 * n + 2 := by ring
  simp only [List.mem_cons, List.mem_singleton, List.not_mem_nil, or_false] at hmem
  refine ⟨?_, ?_⟩
  · rcases hmem with h | h | h | h | h | h <;> rw [h] <;> omega
  · rcases hmem with h | h | h | h | h | h <;> rw [h] <;> omega

/-- A grid mesh is a mesh. -/
theorem wellFormed_of_isGrid (n : Nat) (minX minY dX dY : K) (t : Terrain K)
    (h : IsGrid n minX minY dX dY t) : WellFormed t := by
  refine ⟨h.positionData_length, h.normalData_length, ?_, ?_⟩
  · rw [h.faceData_eq, length_gridFaces, h.numFaces_eq, Int.toNat_ofNat]
    omega
  · intro k hk
    rw [h.faceData_eq] at hk
    rw [h.numVertices_eq]
    exact mem_gridFaces_range n k hk

/-- In a grid mesh with both steps zero the cross product of every face is the zero vector,
whatever the elevations. -/
theorem faceCross_degenerate (n : Nat) (minX minY : K) (t : Terrain K)
    (h : IsGrid n minX minY 0 0 t) (i : Nat) (hi : i < t.numFaces) :
    faceCross t i = ⟨0, 0, 0⟩ := by
  rw [h.numFaces_eq] at hi
  obtain ⟨a, b, e, ha, hb, he, rfl⟩ := face_decompose n i hi
  obtain ⟨f0, f1, f2, f3, f4, f5⟩ := faceIndex_grid n minX minY 0 0 t h a b ha hb
  obtain ⟨⟨x00, y00⟩, ⟨x01, y01⟩, ⟨x10, y10⟩, ⟨x11, y11⟩⟩ :=
    corner_xy n minX minY 0 0 t h a b ha hb
  have he2 : e = 0 ∨ e = 1 := by omega
  rcases he2 with he0 | he1
  · subst he0
    unfold faceCross
    rw [Nat.add_zero, f0, f1, f2]
    simp only [vec3.cross, vec3.sub]
    rw [x00, y00, x01, y01, x10, y10]
    congr 1 <;> ring
  · subst he1
    unfold faceCross
    rw [f3, f4, f5]
    simp only [vec3.cross, vec3.sub]
    rw [x01, y01, x10, y10, x11, y11]
    congr 1 <;> ring

/-- In a grid mesh with both steps zero every vertex accumulates the zero vector. -/
theorem accumulated_degenerate (n : Nat) (minX minY : K) (t : Terrain K)
    (h : IsGrid n minX minY 0 0 t) (v : Int) :
    normalAt (accumulateNormals t) v = ⟨0, 0, 0⟩ := by
  obtain ⟨nd, _, hn⟩ := accumulateNormals_spec t (faceIndex_nonneg_grid n _ _ _ _ t h)
  rw [hn v, h.normal_zero v]
  have hx : ∑ i in Finset.range t.numFaces,
      (cornerCount t i v : K) * ((faceCross t i).x / 2) = 0 := by
    apply Finset.sum_eq_zero
    intro i hi
    rw [faceCross_degenerate n minX minY t h i (Finset.mem_range.mp hi)]
    simp
  have hy : ∑ i in Finset.range t.numFaces,
      (cornerCount t i v : K) * ((faceCross t i).y / 2) = 0 := by
    apply Finset.sum_eq_zero
    intro i hi
    rw [faceCross_degenerate n minX minY t h i (Finset.mem_range.mp hi)]
    simp
  have hz : ∑ i in Finset.range t.numFaces,
      (cornerCount t i v : K) * ((faceCross t i).z / 2) = 0 := by
    apply Finset.sum_eq_zero
    intro i hi
    rw [faceCross_degenerate n minX minY t h i (Finset.mem_range.mp hi)]
    simp
  rw [hx, hy, hz]
  simp

/-- The mesh handed to `calculateNormals()` by the constructor for a rectangle that is a
single point is a grid mesh with both steps zero. -/
theorem isGrid_sculpted_point (draws : Nat → FaultDraw K) (n : Nat) (minX minY : K) :
    IsGrid n minX minY 0 0
      (shapeTerrain draws
        (generateLines (generateTriangles (allocate (n : Int) minX minX minY minY)))) := by
  have h := isGrid_sculpted draws n minX minX minY minY
  rw [sub_self, sub_self, zero_div] at h
  exact h

/-! ## Vertices with a zero accumulated normal -/

/-- A grid generated on a rectangle that is a single point is a grid mesh with both steps
zero. -/
theorem isGrid_generateTriangles_point (n : Nat) (minX minY : K) :
    IsGrid n minX minY 0 0 (generateTriangles (allocate (n : Int) minX minX minY minY)) := by
  have h := isGrid_generateTriangles n minX minX minY minY
  rw [sub_self, sub_self, zero_div] at h
  exact h

theorem mem_gridZeros (m : Nat) (x : K) (hx : x ∈ (gridZeros m : List K)) : x = 0 := by
  unfold gridZeros at hx
  simp only [List.mem_flatMap, List.mem_range] at hx
  obtain ⟨_, _, _, _, hx⟩ := hx
  simp only [List.mem_cons, List.mem_singleton, List.not_mem_nil, or_false, or_self] at hx
  exact hx

/-- Claim C14: for every vertex of a mesh whose accumulated normal is the zero vector before
normalization, `calculateNormals()` performs no division for that vertex (so none by zero)
and stores exactly `(0, 0, 0)` as its normal, whatever the square root; this is the case of
every vertex of a Terrain constructed with `minX = maxX` and `minY = maxY`. -/
theorem zero_normal_stored_zero (sqrt : K → K) (t : Terrain K) (hwf : WellFormed t) (v : Nat)
    (hv : v < t.numVertices)
    (hzero : normalAt (accumulateNormals t) (v : Int) = ⟨0, 0, 0⟩) :
    vec3.normalizeDivisor sqrt (normalAt (accumulateNormals t) (v : Int)) = none ∧
    normalAt (calculateNormals sqrt t) (v : Int) = ⟨0, 0, 0⟩ ∧
    ∀ (draws : Nat → FaultDraw K) (div : Int), 1 ≤ div → ∀ minX minY : K,
      ∃ g : Terrain K,
        constructor sqrt draws div minX minX minY minY = Except.ok g ∧
        (g.numVertices : Int) = (div + 1) ^ 2 ∧
        ∀ w : Nat, w < g.numVertices →
          normalAt (accumulateNormals (shapeTerrain draws (generateLines
            (generateTriangles (allocate div minX minX minY minY))))) (w : Int)
            = ⟨0, 0, 0⟩ ∧
          normalAt g (w : Int) = ⟨0, 0, 0⟩ := by
  refine ⟨?_, ?_, ?_⟩
  · rw [hzero]
    exact normalizeDivisor_zero sqrt
  · rw [calculateNormals_stored sqrt t hwf v hv, hzero]
    exact normalize_zero sqrt
  · intro draws div hdiv minX minY
    obtain ⟨n, rfl⟩ := Int.eq_ofNat_of_zero_le (by omega : (0 : Int) ≤ div)
    have hG := isGrid_sculpted_point draws n minX minY
    have hc : constructor sqrt draws (n : Int) minX minX minY minY =
        Except.ok (calculateNormals sqrt (shapeTerrain draws
          (generateLines (generateTriangles (allocate (n : Int) minX minX minY minY))))) := rfl
    rw [hc]
    generalize shapeTerrain draws
      (generateLines (generateTriangles (allocate (n : Int) minX minX minY minY))) = S at hG ⊢
    have hnv := calculateNormals_numVertices sqrt S n _ _ _ _ hG
    refine ⟨calculateNormals sqrt S, rfl, ?_, ?_⟩
    · rw [hnv, hG.numVertices_eq]
      push_cast
      ring
    · intro w hw
      rw [hnv] at hw
      have hacc := accumulated_degenerate n minX minY S hG (w : Int)
      refine ⟨hacc, ?_⟩
      rw [calculateNormals_stored sqrt S (wellFormed_of_isGrid n _ _ _ _ S hG) w hw, hacc]
      exact normalize_zero sqrt

theorem zero_normal_stored_zero_witness :
    WellFormed pointCell ∧ 0 < pointCell.numVertices ∧
    normalAt (accumulateNormals pointCell) ((0 : Nat) : Int) = ⟨0, 0, 0⟩ ∧
    (vec3.normalizeDivisor (fun x : ℚ => x) (normalAt (accumulateNormals pointCell) ((0 : Nat) : Int)) = none ∧
    normalAt (calculateNormals (fun x : ℚ => x) pointCell) ((0 : Nat) : Int) = ⟨0, 0, 0⟩ ∧
    ∀ (draws : Nat → FaultDraw ℚ) (div : Int), 1 ≤ div → ∀ minX minY : ℚ,
      ∃ g : Terrain ℚ,
        constructor (fun x : ℚ => x) draws div minX minX minY minY = Except.ok g ∧
        (g.numVertices : Int) = (div + 1) ^ 2 ∧
        ∀ w : Nat, w < g.numVertices →
          normalAt (accumulateNormals (shapeTerrain draws (generateLines
            (generateTriangles (allocate div minX minX minY minY))))) (w : Int)
            = ⟨0, 0, 0⟩ ∧
          normalAt g (w : Int) = ⟨0, 0, 0⟩) :=
  ⟨wellFormed_of_isGrid 1 _ _ _ _ _ (isGrid_generateTriangles_point 1 0 0), by decide,
    accumulated_degenerate 1 0 0 pointCell (isGrid_generateTriangles_point 1 0 0) 0,
    zero_normal_stored_zero (fun x : ℚ => x) pointCell
      (wellFormed_of_isGrid 1 _ _ _ _ _ (isGrid_generateTriangles_point 1 0 0)) 0 (by decide)
      (accumulated_degenerate 1 0 0 pointCell (isGrid_generateTriangles_point 1 0 0) 0)⟩

/-! ## The accumulated normal as a sum over faces -/

theorem normalData_zero_generateTriangles (div : Int) (minX maxX minY maxY : K) (x : K)
    (hx : x ∈ (generateTriangles (allocate div minX maxX minY maxY)).normalData) : x = 0 := by
  rw [generateTriangles_allocate] at hx
  exact mem_gridZeros _ x hx

end Terrain

theorem sq_length_pos (a : Vec3 ℝ) (h : a ≠ ⟨0, 0, 0⟩) :
    0 < a.x * a.x + a.y * a.y + a.z * a.z := by
  by_contra hle
  have h1 : 0 ≤ a.x * a.x := mul_self_nonneg _
  have h2 : 0 ≤ a.y * a.y := mul_self_nonneg _
  have h3 : 0 ≤ a.z * a.z := mul_self_nonneg _
  have hx : a.x * a.x = 0 := by linarith
  have hy : a.y * a.y = 0 := by linarith
  have hz : a.z * a.z = 0 := by linarith
  apply h
  cases a with
  | mk x y z =>
    simp only at hx hy hz
    rw [mul_self_eq_zero.mp hx, mul_self_eq_zero.mp hy, mul_self_eq_zero.mp hz]

namespace Terrain

variable {K : Type} [LinearOrderedField K]

/-- Claim C13 as stated fails: in the grid generated on the rectangle that is the single
point `(0, 0)` (a mesh, with zero normals on entry) the sum of half cross products for vertex
`0` is the zero vector, so its length is `0` and it cannot be divided by its length; the
normal stored for that vertex is `(0, 0, 0)`. -/
theorem stored_normal_of_zero_sum :
    WellFormed (generateTriangles (allocate 1 (0 : ℝ) 0 0 0)) ∧
    (∀ x ∈ (generateTriangles (allocate 1 (0 : ℝ) 0 0 0)).normalData, x = 0) ∧
    0 < (generateTriangles (allocate 1 (0 : ℝ) 0 0 0)).numVertices ∧
    halfCrossSum (generateTriangles (allocate 1 (0 : ℝ) 0 0 0)) 0 = ⟨0, 0, 0⟩ ∧
    Real.sqrt (vec3.squaredLength
      (halfCrossSum (generateTriangles (allocate 1 (0 : ℝ) 0 0 0)) 0)) = 0 ∧
    normalAt (calculateNormals Real.sqrt (generateTriangles (allocate 1 (0 : ℝ) 0 0 0))) 0
      = ⟨0, 0, 0⟩ := by
  have hG : IsGrid 1 (0 : ℝ) 0 0 0 (generateTriangles (allocate 1 (0 : ℝ) 0 0 0)) :=
    isGrid_generateTriangles_point 1 0 0
  have hwf := wellFormed_of_isGrid 1 _ _ _ _ _ hG
  have hz : ∀ x ∈ (generateTriangles (allocate 1 (0 : ℝ) 0 0 0)).normalData, x = 0 :=
    normalData_zero_generateTriangles 1 0 0 0 0
  have hsum : halfCrossSum (generateTriangles (allocate 1 (0 : ℝ) 0 0 0)) 0 = ⟨0, 0, 0⟩ := by
    rw [← accumulateNormals_eq_halfCrossSum _ hwf hz 0]
    exact accumulated_degenerate 1 0 0 _ hG 0
  have hnv : 0 < (generateTriangles (allocate 1 (0 : ℝ) 0 0 0)).numVertices := by
    rw [hG.numVertices_eq]
    omega
  refine ⟨hwf, hz, hnv, hsum, ?_, ?_⟩
  · rw [hsum]
    simp [vec3.squaredLength]
  · have h := calculateNormals_stored Real.sqrt _ hwf 0 hnv
    rw [accumulated_degenerate 1 0 0 _ hG, normalize_zero] at h
    exact h

/-- Claim C13, amended: for every mesh whose `normalData` is all zeros on entry, the value
accumulated for vertex `v` by the first loop of `calculateNormals()` equals the sum, over every
face `(i0, i1, i2)` and every position `k` in `0..2` with `ik = v`, of one half of
`cross(P[i1] - P[i0], P[i2] - P[i0])`; when that sum is not the zero vector its length is not
zero and the final stored normal is the sum divided by its length; when the sum is the zero
vector the final stored normal is the zero vector. -/
theorem accumulated_normal_is_halfCrossSum (t : Terrain ℝ) (hwf : WellFormed t)
    (hzero : ∀ x ∈ t.normalData, x = 0) (v : Nat) (hv : v < t.numVertices) :
    normalAt (accumulateNormals t) (v : Int) = halfCrossSum t (v : Int) ∧
    (halfCrossSum t (v : Int) ≠ ⟨0, 0, 0⟩ →
      Real.sqrt (vec3.squaredLength (halfCrossSum t (v : Int))) ≠ 0 ∧
      normalAt (calculateNormals Real.sqrt t) (v : Int) =
        ⟨(halfCrossSum t (v : Int)).x /
            Real.sqrt (vec3.squaredLength (halfCrossSum t (v : Int))),
          (halfCrossSum t (v : Int)).y /
            Real.sqrt (vec3.squaredLength (halfCrossSum t (v : Int))),
          (halfCrossSum t (v : Int)).z /
            Real.sqrt (vec3.squaredLength (halfCrossSum t (v : Int)))⟩) ∧
    (halfCrossSum t (v : Int) = ⟨0, 0, 0⟩ →
      normalAt (calculateNormals Real.sqrt t) (v : Int) = ⟨0, 0, 0⟩) := by
  unfold vec3.squaredLength
  have hacc := accumulateNormals_eq_halfCrossSum t hwf hzero (v : Int)
  have hst := calculateNormals_stored Real.sqrt t hwf v hv
  rw [hacc] at hst
  refine ⟨hacc, ?_, ?_⟩
  · intro hne
    have hlen := sq_length_pos _ hne
    refine ⟨ne_of_gt (Real.sqrt_pos.mpr hlen), ?_⟩
    rw [hst]
    exact normalize_div _ hlen
  · intro h0
    rw [hst, h0]
    exact normalize_zero Real.sqrt

theorem oneTriangle_wellFormed : WellFormed oneTriangle :=
  ⟨rfl, rfl, rfl, by decide⟩

theorem oneTriangle_normals_zero : ∀ x ∈ oneTriangle.normalData, x = 0 := by
  intro x hx
  simp only [oneTriangle, List.mem_cons, List.mem_singleton, List.not_mem_nil, or_false,
    or_self] at hx
  exact hx

theorem accumulated_normal_is_halfCrossSum_witness :
    WellFormed oneTriangle ∧ (∀ x ∈ oneTriangle.normalData, x = 0) ∧
    1 < oneTriangle.numVertices ∧
    (normalAt (accumulateNormals oneTriangle) ((1 : Nat) : Int) = halfCrossSum oneTriangle ((1 : Nat) : Int) ∧
    (halfCrossSum oneTriangle ((1 : Nat) : Int) ≠ ⟨0, 0, 0⟩ →
      Real.sqrt (vec3.squaredLength (halfCrossSum oneTriangle ((1 : Nat) : Int))) ≠ 0 ∧
      normalAt (calculateNormals Real.sqrt oneTriangle) ((1 : Nat) : Int) =
        ⟨(halfCrossSum oneTriangle ((1 : Nat) : Int)).x /
            Real.sqrt (vec3.squaredLength (halfCrossSum oneTriangle ((1 : Nat) : Int))),
          (halfCrossSum oneTriangle ((1 : Nat) : Int)).y /
            Real.sqrt (vec3.squaredLength (halfCrossSum oneTriangle ((1 : Nat) : Int))),
          (halfCrossSum oneTriangle ((1 : Nat) : Int)).z /
            Real.sqrt (vec3.squaredLength (halfCrossSum oneTriangle ((1 : Nat) : Int)))⟩) ∧
    (halfCrossSum oneTriangle ((1 : Nat) : Int) = ⟨0, 0, 0⟩ →
      normalAt (calculateNormals Real.sqrt oneTriangle) ((1 : Nat) : Int) = ⟨0, 0, 0⟩)) :=
  ⟨oneTriangle_wellFormed, oneTriangle_normals_zero, by decide,
    accumulated_normal_is_halfCrossSum oneTriangle oneTriangle_wellFormed
      oneTriangle_normals_zero 1 (by decide)⟩

end Terrain

namespace MP1

/-! ## The translation speed of `animateIllinois` -/

/-- Claim C16 at the first frame, one second after the start, with the slider at `60`:
`animateIllinois` moves `translate` from `0` to `-6/5`, that is by `60*1/50`, where the claim
and the comment in the source say `60*1/120 = 1/2`; `animateCustom` on the same input moves it
by `1/2`. -/
theorem animateIllinois_first_frame :
    (initial : Animation ℚ).translate = 0 ∧
    (animateIllinois (60 : ℚ) 1000 true initial).translate = -(6 / 5) ∧
    (60 : ℚ) * (1000 * 0.001 - 0) / 120 = 1 / 2 ∧
    (animateIllinois (60 : ℚ) 1000 true initial).translate ≠ 0 - 60 * (1000 * 0.001 - 0) / 120 ∧
    (animateIllinois (60 : ℚ) 1000 true initial).translate ≠ 0 + 60 * (1000 * 0.001 - 0) / 120 ∧
    (animateCustom (60 : ℚ) 1000 false initial).translate = -(1 / 2) := by
  refine ⟨rfl, ?_, ?_, ?_, ?_, ?_⟩
  · norm_num [animateIllinois, rotateIllinois, scaleIllinois, turnIllinois, boundTranslate,
      translateIllinois, initial]
  · norm_num
  · norm_num [animateIllinois, rotateIllinois, scaleIllinois, turnIllinois, boundTranslate,
      translateIllinois, initial]
  · norm_num [animateIllinois, rotateIllinois, scaleIllinois, turnIllinois, boundTranslate,
      translateIllinois, initial]
  · norm_num [animateCustom, rotateCustom, turnCustom, boundTranslate, translateCustom,
      initial]

theorem ite_eq_or {α : Type} (c : Prop) [Decidable c] (a b : α) :
    (if c then a else b) = a ∨ (if c then a else b) = b := by
  by_cases h : c
  · exact Or.inl (if_pos h)
  · exact Or.inr (if_neg h)

/-- In a frame that keeps the animation, `animateIllinois` moves `translate` by
`speed * deltaTime / 50`, up or down. -/
theorem animateIllinois_translate {K : Type} [LinearOrderedField K] (speed currentTime : K)
    (s : Animation K) :
    (animateIllinois speed currentTime true s).translate
        = s.translate + speed * (currentTime * 0.001 - s.previousTime) / 50 ∨
    (animateIllinois speed currentTime true s).translate
        = s.translate - speed * (currentTime * 0.001 - s.previousTime) / 50 := by
  unfold animateIllinois translateIllinois boundTranslate turnIllinois scaleIllinois
    rotateIllinois
  simp only [if_true, apply_ite Animation.translate, ite_self]
  exact ite_eq_or _ _ _

/-- In a frame that keeps the animation, `animateCustom` moves `translate` by
`speed * deltaTime / 120`, up or down. -/
theorem animateCustom_translate {K : Type} [LinearOrderedField K] (speed currentTime : K)
    (s : Animation K) :
    (animateCustom speed currentTime false s).translate
        = s.translate + speed * (currentTime * 0.001 - s.previousTime) / 120 ∨
    (animateCustom speed currentTime false s).translate
        = s.translate - speed * (currentTime * 0.001 - s.previousTime) / 120 := by
  unfold animateCustom translateCustom boundTranslate turnCustom rotateCustom
  simp only [Bool.false_eq_true, if_false, apply_ite Animation.translate, ite_self]
  exact ite_eq_or _ _ _

end MP1

end TerrainMesh
